import Mathlib

/-!
# TopTagger: input packagers and resolution modules

A shallow embedding of `TopTagger/interface/TopTaggerUtilities.h`
(`ConstAK4Inputs`, `ConstAK8Inputs`) and of the resolution modules under
`TopTagger/src`, followed by the properties proved about them.

Conventions of the embedding.

* C++ `double`/`float` values are rationals; NaN and the infinities are not
  represented, so every comparison is the comparison of a total order. Where
  the HEP requirements module divides two masses, a zero denominator is
  handled where it occurs (`TTMHEPRequirements.quotient`).
* `std::vector` is `List`; `unsigned int` loop counters are `Nat` (vector
  sizes are taken to be below `2^32`, so the counter never wraps).
* A nullable pointer member is an `Option`.
* `operator[]` past the end of a vector and dereferencing a null pointer are
  undefined behaviour in C++; the embedding reports them as
  `Fault.undefinedBehaviour`, distinct from a thrown `TTException`.
* A function that fills `std::vector<Constituent>&` in place returns an
  `Outcome`: the vector as it stands when control leaves the function, and the
  fault that ended the call, if any.
* The numerical routines of ROOT (`TLorentzVector::M`, `Pt`, `Eta`,
  `ROOT::Math::VectorUtil::DeltaR`, `TF1::Eval`) belong to an external library;
  they are parameters of the embedding (`Root`, and plain functions for `TF1`).
-/

namespace TopTagger

/-! ## Four-vectors and the external numerical routines -/

/-- ROOT four-vector in Cartesian components, as `TLorentzVector` stores it. -/
structure TLorentzVector where
  px : ℚ
  py : ℚ
  pz : ℚ
  e : ℚ
  deriving DecidableEq, Repr

namespace TLorentzVector

/-- Component-wise difference, `TLorentzVector::operator-`. -/
def sub (a b : TLorentzVector) : TLorentzVector :=
  ⟨a.px - b.px, a.py - b.py, a.pz - b.pz, a.e - b.e⟩

/-- Component-wise sum, `TLorentzVector::operator+`. -/
def add (a b : TLorentzVector) : TLorentzVector :=
  ⟨a.px + b.px, a.py + b.py, a.pz + b.pz, a.e + b.e⟩

instance : Sub TLorentzVector := ⟨sub⟩
instance : Add TLorentzVector := ⟨add⟩

/-- Invariant mass squared, `E^2 - |p|^2`. -/
def M2 (v : TLorentzVector) : ℚ :=
  v.e * v.e - (v.px * v.px + v.py * v.py + v.pz * v.pz)

end TLorentzVector

/-- The ROOT routines the packagers and modules call on four-vectors. They are
not part of the repository and enter the embedding as a parameter. -/
structure Root where
  /-- Invariant mass, `TLorentzVector::M()`. -/
  M : TLorentzVector → ℚ
  /-- Transverse momentum, `TLorentzVector::Pt()`. -/
  Pt : TLorentzVector → ℚ
  /-- Pseudorapidity, `TLorentzVector::Eta()`. -/
  Eta : TLorentzVector → ℚ
  /-- Angular separation, `ROOT::Math::VectorUtil::DeltaR`. -/
  DeltaR : TLorentzVector → TLorentzVector → ℚ

/-- Signed square root as ROOT takes it in `TLorentzVector::Mag`:
`sqrt(x)` for `x >= 0` and `-sqrt(-x)` otherwise. The root is `Rat.sqrt`,
exact on squares of rationals. -/
def signedSqrt (x : ℚ) : ℚ :=
  if x < 0 then -Rat.sqrt (-x) else Rat.sqrt x

/-- The values ROOT returns on four-vectors whose momentum lies on the
non-negative x axis (`py = pz = 0`, `px >= 0`): pseudorapidity and azimuth
are both zero there, hence so is every `DeltaR`; `M` and `Pt` are the usual
formulas, with the square root exact on squares. -/
def xAxisRoot : Root where
  M := fun v => signedSqrt v.M2
  Pt := fun v => Rat.sqrt (v.px * v.px + v.py * v.py)
  Eta := fun _ => 0
  DeltaR := fun _ _ => 0

/-- A stand-in for ROOT in which every angular separation is read from the
table `dR`; the other routines are those of `xAxisRoot`. -/
def tableRoot (dR : TLorentzVector → TLorentzVector → ℚ) : Root :=
  { xAxisRoot with DeltaR := dR }

/-! ## Faults and outcomes -/

/-- How a call can end abnormally. -/
inductive Fault where
  /-- `THROW_TTEXCEPTION(msg)`. -/
  | TTException (msg : String)
  /-- An out-of-range `operator[]` or a null dereference. -/
  | undefinedBehaviour
  deriving DecidableEq, Repr

/-- Element access `v[i]`: the element when `i` is in range. -/
def readAt {α : Type} (v : List α) (i : Nat) : Except Fault α :=
  match v[i]? with
  | some x => .ok x
  | none => .error Fault.undefinedBehaviour

/-! ## Constituent -/

/-- Modelled from the spec: the enumeration `Constituent::ConstituentType`
declared in `Constituent.h` (absent). `AK8SUBJET` and `RESOLVEDTOPCAND` are
named by the packagers; `AK4JET` and `AK8JET` are the spec's small-radius jet
and merged jet variants. -/
inductive ConstituentType where
  | NOTYPE
  | AK4JET
  | AK8JET
  | AK8SUBJET
  | RESOLVEDTOPCAND
  deriving DecidableEq, Repr

/-- Modelled from the spec: the class `Constituent` declared in
`Constituent.h` (absent), with the attributes section 3 of the spec lists.
An attribute that has not been set is `none`. `S` is the type of the owned
subjets. -/
structure ConstituentOf (S : Type) where
  p : TLorentzVector
  type : ConstituentType
  bTagDisc : Option ℚ := none
  qgLikelihood : Option ℚ := none
  qgMult : Option ℚ := none
  qgPtD : Option ℚ := none
  qgAxis1 : Option ℚ := none
  qgAxis2 : Option ℚ := none
  tau1 : Option ℚ := none
  tau2 : Option ℚ := none
  tau3 : Option ℚ := none
  softDropMass : Option ℚ := none
  wMassCorr : Option ℚ := none
  topDisc : Option ℚ := none
  wDisc : Option ℚ := none
  extraVars : List (String × ℚ) := []
  index : Option Nat := none
  subjets : List S := []
  jetRefIndex : List Int := []
  genMatches : List (TLorentzVector × TLorentzVector) := []
  deriving DecidableEq, Repr

/-- Subjet of a merged jet: a `Constituent` that owns no subjets itself. -/
abbrev Subjet := ConstituentOf Empty

/-- The `Constituent` of the packagers: its subjets are constituents that own
no further subjets. -/
abbrev Constituent := ConstituentOf Subjet

namespace ConstituentOf

variable {S : Type}

/-- `Constituent(p, bTagDisc, qgLikelihood)`: an AK4 jet. -/
def mkAK4 (p : TLorentzVector) (bTagDisc qgLikelihood : ℚ) : ConstituentOf S :=
  { p := p, type := ConstituentType.AK4JET, bTagDisc := some bTagDisc,
    qgLikelihood := some qgLikelihood }

/-- `Constituent(p, type)`. -/
def mkTyped (p : TLorentzVector) (type : ConstituentType) : ConstituentOf S :=
  { p := p, type := type }

/-- `Constituent(p, tau1, tau2, tau3, softDropMass, subjets, wMassCorr)`:
a merged (AK8) jet. -/
def mkAK8 (p : TLorentzVector) (tau1 tau2 tau3 softDropMass : ℚ) (subjets : List S)
    (wMassCorr : ℚ) : ConstituentOf S :=
  { p := p, type := ConstituentType.AK8JET, tau1 := some tau1, tau2 := some tau2,
    tau3 := some tau3, softDropMass := some softDropMass, subjets := subjets,
    wMassCorr := some wMassCorr }

/-- `setBTag`. -/
def setBTag (c : ConstituentOf S) (v : ℚ) : ConstituentOf S :=
  { c with bTagDisc := some v }

/-- `setQGLVars(qgMult, qgPtD, qgAxis1, qgAxis2)`. -/
def setQGLVars (c : ConstituentOf S) (qgMult qgPtD qgAxis1 qgAxis2 : ℚ) : ConstituentOf S :=
  { c with qgMult := some qgMult, qgPtD := some qgPtD, qgAxis1 := some qgAxis1,
           qgAxis2 := some qgAxis2 }

/-- Assignment `m[name] = v` in a name-to-value map kept as an association
list with one entry per name. -/
def assign (name : String) (v : ℚ) : List (String × ℚ) → List (String × ℚ)
  | [] => [(name, v)]
  | (n, w) :: rest => if n = name then (name, v) :: rest else (n, w) :: assign name v rest

/-- `setExtraVar(name, v)`: the entry of `name` in the extra-variable map
becomes `v`. -/
def setExtraVar (c : ConstituentOf S) (name : String) (v : ℚ) : ConstituentOf S :=
  { c with extraVars := assign name v c.extraVars }

/-- `getExtraVar(name)`: the value stored under `name`, if any. -/
def getExtraVar (c : ConstituentOf S) (name : String) : Option ℚ :=
  (c.extraVars.lookup name)

/-- `setIndex`. -/
def setIndex (c : ConstituentOf S) (i : Nat) : ConstituentOf S :=
  { c with index := some i }

/-- `setTopDisc`. -/
def setTopDisc (c : ConstituentOf S) (v : ℚ) : ConstituentOf S :=
  { c with topDisc := some v }

/-- `setWDisc`. -/
def setWDisc (c : ConstituentOf S) (v : ℚ) : ConstituentOf S :=
  { c with wDisc := some v }

/-- `addJetRefIndex`. -/
def addJetRefIndex (c : ConstituentOf S) (i : Int) : ConstituentOf S :=
  { c with jetRefIndex := c.jetRefIndex ++ [i] }

/-- `addGenMatch(genTop, genDaughter)`: one more truth association. -/
def addGenMatch (c : ConstituentOf S) (genTop genDaughter : TLorentzVector) : ConstituentOf S :=
  { c with genMatches := c.genMatches ++ [(genTop, genDaughter)] }

end ConstituentOf

/-- The output vector when control leaves a packager, and the fault that ended
the call (`none` for a normal return). -/
structure Outcome where
  constituents : List Constituent
  fault : Option Fault
  deriving DecidableEq, Repr

/-! ## The AK4 packager -/

/-- Members of `ConstAK4Inputs` (with those of its base `ConstGenInputs`).
`extraInputVariables_` lists the entries of the `std::map` in iteration
order. Filter entries are `unsigned char` values. -/
structure ConstAK4Inputs where
  hadGenTops_ : Option (List TLorentzVector) := none
  hadGenTopDaughters_ : Option (List (List TLorentzVector)) := none
  jetsLVec_ : List TLorentzVector
  btagFactors_ : List ℚ
  qgLikelihood_ : Option (List ℚ) := none
  qgMult_ : Option (List Int) := none
  qgPtD_ : Option (List ℚ) := none
  qgAxis1_ : Option (List ℚ) := none
  qgAxis2_ : Option (List ℚ) := none
  filter_ : Option (List Nat) := none
  extraInputVariables_ : List (String × List ℚ) := []

/-- The test `v && n != v->size()` on an optional vector `v`. -/
def presentAndDiffers {α : Type} (v : Option (List α)) (n : Nat) : Bool :=
  match v with
  | none => false
  | some l => decide (n ≠ l.length)

/-- The test `filter_ && !(*filter_)[iJet]` that makes the loop skip a jet. -/
def skipJet (filter : Option (List Nat)) (iJet : Nat) : Except Fault Bool :=
  match filter with
  | none => .ok false
  | some f =>
    match readAt f iJet with
    | .ok b => .ok (decide (b = 0))
    | .error x => .error x

/-- The truth-matching loops of the AK4 packager for one jet: for every
generator top and every daughter of it, `addGenMatch` when `DeltaR` to the jet
is below 0.4. The state is the constituent at `constituents.back()`. -/
def genMatchDaughters (R : Root) (jet top : TLorentzVector) :
    List TLorentzVector → Constituent → Constituent
  | [], c => c
  | d :: ds, c =>
    genMatchDaughters R jet top ds
      (if R.DeltaR jet d < 0.4 then c.addGenMatch top d else c)

/-- Outer truth-matching loop over `iGenTop`; `tops` is what remains of
`*hadGenTops_` from index `iGenTop` on. -/
def genMatchTops (R : Root) (jet : TLorentzVector) (daughters : List (List TLorentzVector)) :
    List TLorentzVector → Nat → Constituent → Constituent × Option Fault
  | [], _, c => (c, none)
  | t :: ts, iGenTop, c =>
    match readAt daughters iGenTop with
    | .error x => (c, some x)
    | .ok ds => genMatchTops R jet daughters ts (iGenTop + 1) (genMatchDaughters R jet t ds c)

namespace ConstAK4Inputs

/-- First safety check: jets against b-tags and against a supplied
quark-gluon likelihood. -/
def checkBtagQGL (inp : ConstAK4Inputs) : Option Fault :=
  if inp.jetsLVec_.length ≠ inp.btagFactors_.length
      ∨ presentAndDiffers inp.qgLikelihood_ inp.jetsLVec_.length = true then
    some (Fault.TTException ("Unequal vector size!!!!!!!\n"
      ++ toString inp.jetsLVec_.length ++ "\t" ++ toString inp.btagFactors_.length))
  else none

/-- Second safety check: jets against a supplied filter. -/
def checkFilter (inp : ConstAK4Inputs) : Option Fault :=
  match inp.filter_ with
  | some f =>
    if inp.jetsLVec_.length ≠ f.length then
      some (Fault.TTException ("Unequal vector size between filter and jet vectors!!!!!!!\n"
        ++ toString inp.jetsLVec_.length ++ "\t" ++ toString f.length))
    else none
  | none => none

/-- Third safety check: jets against the four quark-gluon shape arrays, when
all four are supplied. -/
def checkQGLShape (inp : ConstAK4Inputs) : Option Fault :=
  match inp.qgMult_, inp.qgPtD_, inp.qgAxis1_, inp.qgAxis2_ with
  | some m, some d, some a1, some a2 =>
    if inp.jetsLVec_.length ≠ m.length ∨ inp.jetsLVec_.length ≠ d.length
        ∨ inp.jetsLVec_.length ≠ a1.length ∨ inp.jetsLVec_.length ≠ a2.length then
      some (Fault.TTException "Unequal vector size (QGL)!!!!!!!\n")
    else none
  | _, _, _, _ => none

/-- The three safety checks that open `packageConstituents`, in order; the
result is the exception thrown, if any. -/
def lengthChecks (inp : ConstAK4Inputs) : Option Fault :=
  match inp.checkBtagQGL with
  | some x => some x
  | none =>
    match inp.checkFilter with
    | some x => some x
    | none => inp.checkQGLShape

/-- The argument `(qgLikelihood_ != nullptr) ? (*qgLikelihood_)[iJet] : 0.0`. -/
def qglAt (inp : ConstAK4Inputs) (iJet : Nat) : Except Fault ℚ :=
  match inp.qgLikelihood_ with
  | some qg => readAt qg iJet
  | none => .ok 0

/-- The arguments of `constituents.emplace_back(...)` for jet `iJet`: the
constituent that is appended, or the fault of reading the arguments. -/
def emplace (inp : ConstAK4Inputs) (iJet : Nat) : Except Fault Constituent :=
  match readAt inp.jetsLVec_ iJet, readAt inp.btagFactors_ iJet, inp.qglAt iJet with
  | .ok p, .ok b, .ok q => .ok (ConstituentOf.mkAK4 p b q)
  | _, _, _ => .error Fault.undefinedBehaviour

/-- The block `if(qgMult_ && qgPtD_ && qgAxis1_ && qgAxis2_) setQGLVars(...)`. -/
def addQGL (inp : ConstAK4Inputs) (iJet : Nat) (c : Constituent) : Constituent × Option Fault :=
  match inp.qgMult_, inp.qgPtD_, inp.qgAxis1_, inp.qgAxis2_ with
  | some m, some d, some a1, some a2 =>
    match readAt m iJet, readAt d iJet, readAt a1 iJet, readAt a2 iJet with
    | .ok vm, .ok vd, .ok v1, .ok v2 => (c.setQGLVars (vm : ℚ) vd v1 v2, none)
    | _, _, _, _ => (c, some Fault.undefinedBehaviour)
  | _, _, _, _ => (c, none)

/-- The loop over `extraInputVariables_` for jet `iJet`: `setExtraVar` while
the array has a row `iJet`, and the exception at the first array that has
none. -/
def addExtraVars (iJet : Nat) : List (String × List ℚ) → Constituent → Constituent × Option Fault
  | [], c => (c, none)
  | (name, arr) :: rest, c =>
    if h : iJet < arr.length then addExtraVars iJet rest (c.setExtraVar name arr[iJet])
    else (c, some (Fault.TTException
      ("Extra variable " ++ name ++ "[" ++ toString iJet ++ "] is not found!!!!!!!")))

/-- The truth-matching block for jet `iJet`. -/
def addGenMatches (R : Root) (inp : ConstAK4Inputs) (iJet : Nat) (c : Constituent) :
    Constituent × Option Fault :=
  match inp.hadGenTops_, inp.hadGenTopDaughters_ with
  | some tops, some daughters =>
    match readAt inp.jetsLVec_ iJet with
    | .ok jet => genMatchTops R jet daughters tops 0 c
    | .error x => (c, some x)
  | _, _ => (c, none)

/-- What the loop body does to the freshly appended constituent `c` of jet
`iJet`, up to the end of the body or to the fault that interrupts it. -/
def fill (R : Root) (inp : ConstAK4Inputs) (iJet : Nat) (c : Constituent) :
    Constituent × Option Fault :=
  match inp.addQGL iJet c with
  | (c1, some x) => (c1, some x)
  | (c1, none) =>
    match addExtraVars iJet inp.extraInputVariables_ c1 with
    | (c2, some x) => (c2, some x)
    | (c2, none) => inp.addGenMatches R iJet (c2.setIndex iJet)

/-- The loop `for(iJet = 0; iJet < jetsLVec_->size(); ++iJet)`, over the
indices still to visit. -/
def loop (R : Root) (inp : ConstAK4Inputs) : List Nat → List Constituent → Outcome
  | [], constituents => ⟨constituents, none⟩
  | iJet :: rest, constituents =>
    match skipJet inp.filter_ iJet with
    | .error x => ⟨constituents, some x⟩
    | .ok true => loop R inp rest constituents
    | .ok false =>
      match inp.emplace iJet with
      | .error x => ⟨constituents, some x⟩
      | .ok c =>
        match inp.fill R iJet c with
        | (c1, some x) => ⟨constituents ++ [c1], some x⟩
        | (c1, none) => loop R inp rest (constituents ++ [c1])

/-- `ConstAK4Inputs::packageConstituents(constituents)`. -/
def packageConstituents (R : Root) (inp : ConstAK4Inputs) (constituents : List Constituent) :
    Outcome :=
  match inp.lengthChecks with
  | some x => ⟨constituents, some x⟩
  | none => inp.loop R (List.range inp.jetsLVec_.length) constituents

end ConstAK4Inputs

/-! ## The AK8 packager -/

/-- Members of `ConstAK8Inputs` (with those of its base `ConstGenInputs`).
Every constructor sets `jetsLVec_` and `softDropMass_`; the other pointers
may be null. The three `TF1*` calibration curves are functions of the
transverse momentum. -/
structure ConstAK8Inputs where
  hadGenTops_ : Option (List TLorentzVector) := none
  hadGenTopDaughters_ : Option (List (List TLorentzVector)) := none
  jetsLVec_ : List TLorentzVector
  tau1_ : Option (List ℚ) := none
  tau2_ : Option (List ℚ) := none
  tau3_ : Option (List ℚ) := none
  deepAK8Top_ : Option (List ℚ) := none
  deepAK8W_ : Option (List ℚ) := none
  softDropMass_ : List ℚ
  subjetsBtag_ : Option (List ℚ) := none
  subjetsMult_ : Option (List ℚ) := none
  subjetsPtD_ : Option (List ℚ) := none
  subjetsAxis1_ : Option (List ℚ) := none
  subjetsAxis2_ : Option (List ℚ) := none
  subjetsLVec_ : Option (List TLorentzVector) := none
  vecSubjetsLVec_ : Option (List (List TLorentzVector)) := none
  vecSubjetsBtag_ : Option (List (List ℚ)) := none
  vecSubjetsMult_ : Option (List (List ℚ)) := none
  vecSubjetsPtD_ : Option (List (List ℚ)) := none
  vecSubjetsAxis1_ : Option (List (List ℚ)) := none
  vecSubjetsAxis2_ : Option (List (List ℚ)) := none
  puppisd_corrGEN_ : Option (ℚ → ℚ) := none
  puppisd_corrRECO_cen_ : Option (ℚ → ℚ) := none
  puppisd_corrRECO_for_ : Option (ℚ → ℚ) := none
  filter_ : Option (List Nat) := none

/-- State of the pair search: `min_diff`, `min_j`, `min_k`. -/
structure PairState where
  min_diff : ℚ
  min_j : Nat
  min_k : Nat
  deriving DecidableEq, Repr

/-- Inner loop of the pair search, `for(k = j+1; k < subjets.size(); ++k)`;
the list holds the subjets from position `j+1` on, each with its position. -/
def pairInner (R : Root) (jet : TLorentzVector) (j : Nat) (sj : Subjet) :
    List (Nat × Subjet) → PairState → PairState
  | [], st => st
  | (k, sk) :: rest, st =>
    pairInner R jet j sj rest
      (if |R.M (jet - sj.p - sk.p)| < st.min_diff then
        ⟨|R.M (jet - sj.p - sk.p)|, j, k⟩
      else st)

/-- Outer loop of the pair search, `for(j = 0; j < subjets.size(); ++j)`; the
list holds the subjets from position `j` on, each with its position. -/
def pairOuter (R : Root) (jet : TLorentzVector) : List (Nat × Subjet) → PairState → PairState
  | [], st => st
  | (j, sj) :: rest, st => pairOuter R jet rest (pairInner R jet j sj rest st)

/-- The search for the best combination of two subjets: the state after both
loops, started from `min_diff = 999999.`, `min_j = 0`, `min_k = 1`. -/
def pairSearch (R : Root) (jet : TLorentzVector) (subjets : List Subjet) : PairState :=
  pairOuter R jet subjets.enum ⟨999999, 0, 1⟩

/-- The statement `subjets = {subjets[min_j], subjets[min_k]}`. -/
def keepPair (subjets : List Subjet) (st : PairState) : Except Fault (List Subjet) :=
  match readAt subjets st.min_j, readAt subjets st.min_k with
  | .ok a, .ok b => .ok [a, b]
  | _, _ => .error Fault.undefinedBehaviour

/-- One optional attribute of a subjet: `if(attr) set(...(*attr)[iSJ])`. -/
def setFrom (attr : Option (List ℚ)) (iSJ : Nat) (set : Subjet → ℚ → Subjet) (sj : Subjet) :
    Except Fault Subjet :=
  match attr with
  | none => .ok sj
  | some a =>
    match readAt a iSJ with
    | .ok v => .ok (set sj v)
    | .error x => .error x

/-- One optional attribute of a subjet in the per-jet layout:
`if(attr) set(...(*attr)[iJet][iSJ])`. -/
def setFrom2 (attr : Option (List (List ℚ))) (iJet iSJ : Nat) (set : Subjet → ℚ → Subjet)
    (sj : Subjet) : Except Fault Subjet :=
  match attr with
  | none => .ok sj
  | some a =>
    match readAt a iJet with
    | .ok row => setFrom (some row) iSJ set sj
    | .error x => .error x

/-- The truth-matching loops of the AK8 packager for one daughter: one
`addGenMatch` for every kept subjet with `DeltaR` to the daughter below 0.4. -/
def genMatchSubjets (R : Root) (top d : TLorentzVector) : List Subjet → Constituent → Constituent
  | [], c => c
  | sj :: rest, c =>
    genMatchSubjets R top d rest (if R.DeltaR sj.p d < 0.4 then c.addGenMatch top d else c)

/-- Loop over the daughters of one generator top in the AK8 packager. -/
def genMatchDaughters8 (R : Root) (subjets : List Subjet) (top : TLorentzVector) :
    List TLorentzVector → Constituent → Constituent
  | [], c => c
  | d :: ds, c => genMatchDaughters8 R subjets top ds (genMatchSubjets R top d subjets c)

/-- Loop over `iGenTop` in the AK8 packager; `tops` is what remains of
`*hadGenTops_` from index `iGenTop` on. -/
def genMatchTops8 (R : Root) (subjets : List Subjet) (daughters : List (List TLorentzVector)) :
    List TLorentzVector → Nat → Constituent → Constituent × Option Fault
  | [], _, c => (c, none)
  | t :: ts, iGenTop, c =>
    match readAt daughters iGenTop with
    | .error x => (c, some x)
    | .ok ds =>
      genMatchTops8 R subjets daughters ts (iGenTop + 1) (genMatchDaughters8 R subjets t ds c)

namespace ConstAK8Inputs

/-- `ConstAK8Inputs::getPUPPIweight(puppipt, puppieta)`. -/
def getPUPPIweight (inp : ConstAK8Inputs) (puppipt puppieta : ℚ) : ℚ :=
  if puppipt < 200 then 1
  else
    match inp.puppisd_corrGEN_, inp.puppisd_corrRECO_cen_, inp.puppisd_corrRECO_for_ with
    | some gen, some cen, some fwd =>
      gen puppipt * (if |puppieta| ≤ 1.3 then cen puppipt else fwd puppipt)
    | _, _, _ => 1 * 1

/-- One disjunct `attr && subjetsLVec_->size() != attr->size()` of the subjet
safety check. -/
def subjetSizeDiffers (inp : ConstAK8Inputs) (attr : Option (List ℚ)) : Except Fault Bool :=
  match attr with
  | none => .ok false
  | some a =>
    match inp.subjetsLVec_ with
    | none => .error Fault.undefinedBehaviour
    | some pool => .ok (decide (pool.length ≠ a.length))

/-- Short-circuit disjunction of the subjet size tests. -/
def anySubjetSizeDiffers (inp : ConstAK8Inputs) : List (Option (List ℚ)) → Except Fault Bool
  | [] => .ok false
  | attr :: rest =>
    match inp.subjetSizeDiffers attr with
    | .error x => .error x
    | .ok true => .ok true
    | .ok false => anySubjetSizeDiffers inp rest

/-- First safety check: jets against soft-drop masses. -/
def checkSoftDrop (inp : ConstAK8Inputs) : Option Fault :=
  if inp.jetsLVec_.length ≠ inp.softDropMass_.length then
    some (Fault.TTException "Unequal AK8 vector size!!!!!!!\n")
  else none

/-- Second safety check: jets against a supplied filter. -/
def checkFilter (inp : ConstAK8Inputs) : Option Fault :=
  match inp.filter_ with
  | some f =>
    if inp.jetsLVec_.length ≠ f.length then
      some (Fault.TTException ("Unequal vector size between filter and jet vectors!!!!!!!\n"
        ++ toString inp.jetsLVec_.length ++ "\t" ++ toString f.length))
    else none
  | none => none

/-- Third safety check: the subjet attribute arrays against the subjet pool. -/
def checkSubjets (inp : ConstAK8Inputs) : Option Fault :=
  match inp.anySubjetSizeDiffers [inp.subjetsBtag_, inp.subjetsMult_, inp.subjetsPtD_,
      inp.subjetsAxis1_, inp.subjetsAxis2_] with
  | .error x => some x
  | .ok true => some (Fault.TTException "Unequal subjet vector size!!!!!!!\n")
  | .ok false => none

/-- The three safety checks that open `packageConstituents`, in order; the
result is the fault that ends the call, if any. -/
def lengthChecks (inp : ConstAK8Inputs) : Option Fault :=
  match inp.checkSoftDrop with
  | some x => some x
  | none =>
    match inp.checkFilter with
    | some x => some x
    | none => inp.checkSubjets

/-- Subjet built from entry `iSJ` of the per-jet list of jet `iJet`, with the
attributes that are supplied. -/
def explicitSubjet (inp : ConstAK8Inputs) (iJet iSJ : Nat) (p : TLorentzVector) :
    Except Fault Subjet := do
  let s0 : Subjet := ConstituentOf.mkTyped p ConstituentType.AK8SUBJET
  let s1 ← setFrom2 inp.vecSubjetsBtag_ iJet iSJ (fun s v => s.setBTag v) s0
  let s2 ← setFrom2 inp.vecSubjetsMult_ iJet iSJ (fun s v => s.setExtraVar "mult" v) s1
  let s3 ← setFrom2 inp.vecSubjetsPtD_ iJet iSJ (fun s v => s.setExtraVar "ptD" v) s2
  let s4 ← setFrom2 inp.vecSubjetsAxis1_ iJet iSJ (fun s v => s.setExtraVar "axis1" v) s3
  setFrom2 inp.vecSubjetsAxis2_ iJet iSJ (fun s v => s.setExtraVar "axis2" v) s4

/-- The loop over `iSJ` of the explicit policy; the list holds the entries of
`(*vecSubjetsLVec_)[iJet]` still to visit, each with its position. -/
def explicitLoop (inp : ConstAK8Inputs) (iJet : Nat) :
    List (Nat × TLorentzVector) → List Subjet → Except Fault (List Subjet)
  | [], subjets => .ok subjets
  | (iSJ, p) :: rest, subjets =>
    match inp.explicitSubjet iJet iSJ p with
    | .error x => .error x
    | .ok sj => explicitLoop inp iJet rest (subjets ++ [sj])

/-- Subjet built from entry `iSJ` of the shared pool, with the attributes
that are supplied. -/
def poolSubjet (inp : ConstAK8Inputs) (iSJ : Nat) (p : TLorentzVector) :
    Except Fault Subjet := do
  let s0 : Subjet := ConstituentOf.mkTyped p ConstituentType.AK8SUBJET
  let s1 ← setFrom inp.subjetsBtag_ iSJ (fun s v => s.setBTag v) s0
  let s2 ← setFrom inp.subjetsMult_ iSJ (fun s v => s.setExtraVar "mult" v) s1
  let s3 ← setFrom inp.subjetsPtD_ iSJ (fun s v => s.setExtraVar "ptD" v) s2
  let s4 ← setFrom inp.subjetsAxis1_ iSJ (fun s v => s.setExtraVar "axis1" v) s3
  setFrom inp.subjetsAxis2_ iSJ (fun s v => s.setExtraVar "axis2" v) s4

/-- The loop over `iSJ` of the shared-pool policy: a pool subjet is kept when
its `DeltaR` to the jet is below 0.8. The list holds the pool entries still to
visit, each with its position. -/
def poolLoop (R : Root) (inp : ConstAK8Inputs) (jet : TLorentzVector) :
    List (Nat × TLorentzVector) → List Subjet → Except Fault (List Subjet)
  | [], subjets => .ok subjets
  | (iSJ, p) :: rest, subjets =>
    if R.DeltaR jet p < 0.8 then
      match inp.poolSubjet iSJ p with
      | .error x => .error x
      | .ok sj => poolLoop R inp jet rest (subjets ++ [sj])
    else poolLoop R inp jet rest subjets

/-- The subjets found for jet `iJet`: the per-jet list under the explicit
policy; under the shared-pool policy the matched pool subjets, cut down to the
best pair when more than two match; none when neither is supplied. -/
def findSubjets (R : Root) (inp : ConstAK8Inputs) (iJet : Nat) : Except Fault (List Subjet) :=
  match inp.vecSubjetsLVec_ with
  | some vec =>
    match readAt vec iJet with
    | .error x => .error x
    | .ok own => inp.explicitLoop iJet own.enum []
  | none =>
    match inp.subjetsLVec_ with
    | some pool =>
      match readAt inp.jetsLVec_ iJet with
      | .error x => .error x
      | .ok jet =>
        match inp.poolLoop R jet pool.enum [] with
        | .error x => .error x
        | .ok subjets =>
          if subjets.length > 2 then keepPair subjets (pairSearch R jet subjets)
          else .ok subjets
    | none => .ok []

/-- The arguments of `constituents.emplace_back(...)` for jet `iJet` and the
constituent that is appended. -/
def emplace (R : Root) (inp : ConstAK8Inputs) (iJet : Nat) (subjets : List Subjet) :
    Except Fault Constituent :=
  match inp.tau1_, inp.tau2_, inp.tau3_ with
  | some t1, some t2, some t3 =>
    match readAt inp.jetsLVec_ iJet, readAt t1 iJet, readAt t2 iJet, readAt t3 iJet,
        readAt inp.softDropMass_ iJet with
    | .ok p, .ok v1, .ok v2, .ok v3, .ok m =>
      .ok (ConstituentOf.mkAK8 p v1 v2 v3 m subjets (inp.getPUPPIweight (R.Pt p) (R.Eta p)))
    | _, _, _, _, _ => .error Fault.undefinedBehaviour
  | _, _, _ =>
    match readAt inp.jetsLVec_ iJet, readAt inp.softDropMass_ iJet with
    | .ok p, .ok m =>
      .ok (ConstituentOf.mkAK8 p 0 0 0 m subjets (inp.getPUPPIweight (R.Pt p) (R.Eta p)))
    | _, _ => .error Fault.undefinedBehaviour

/-- One optional discriminator of the appended constituent:
`if(disc) constituents.back().set((*disc)[iJet])`. -/
def setDisc (disc : Option (List ℚ)) (iJet : Nat) (set : Constituent → ℚ → Constituent)
    (c : Constituent) : Constituent × Option Fault :=
  match disc with
  | none => (c, none)
  | some a =>
    match readAt a iJet with
    | .ok v => (set c v, none)
    | .error x => (c, some x)

/-- The truth-matching block for the subjets kept for one jet. -/
def addGenMatches (R : Root) (inp : ConstAK8Inputs) (subjets : List Subjet) (c : Constituent) :
    Constituent × Option Fault :=
  match inp.hadGenTops_, inp.hadGenTopDaughters_ with
  | some tops, some daughters => genMatchTops8 R subjets daughters tops 0 c
  | _, _ => (c, none)

/-- What the loop body does to the freshly appended constituent `c` of jet
`iJet`, up to the end of the body or to the fault that interrupts it. -/
def fill (R : Root) (inp : ConstAK8Inputs) (iJet : Nat) (subjets : List Subjet)
    (c : Constituent) : Constituent × Option Fault :=
  match setDisc inp.deepAK8Top_ iJet (fun k v => k.setTopDisc v) c with
  | (c1, some x) => (c1, some x)
  | (c1, none) =>
    match setDisc inp.deepAK8W_ iJet (fun k v => k.setWDisc v) c1 with
    | (c2, some x) => (c2, some x)
    | (c2, none) => inp.addGenMatches R subjets c2

/-- The loop `for(iJet = 0; iJet < jetsLVec_->size(); ++iJet)`, over the
indices still to visit. -/
def loop (R : Root) (inp : ConstAK8Inputs) : List Nat → List Constituent → Outcome
  | [], constituents => ⟨constituents, none⟩
  | iJet :: rest, constituents =>
    match skipJet inp.filter_ iJet with
    | .error x => ⟨constituents, some x⟩
    | .ok true => loop R inp rest constituents
    | .ok false =>
      match inp.findSubjets R iJet with
      | .error x => ⟨constituents, some x⟩
      | .ok subjets =>
        match inp.emplace R iJet subjets with
        | .error x => ⟨constituents, some x⟩
        | .ok c =>
          match inp.fill R iJet subjets c with
          | (c1, some x) => ⟨constituents ++ [c1], some x⟩
          | (c1, none) => loop R inp rest (constituents ++ [c1])

/-- `ConstAK8Inputs::packageConstituents(constituents)`. -/
def packageConstituents (R : Root) (inp : ConstAK8Inputs) (constituents : List Constituent) :
    Outcome :=
  match inp.lengthChecks with
  | some x => ⟨constituents, some x⟩
  | none => inp.loop R (List.range inp.jetsLVec_.length) constituents

end ConstAK8Inputs

/-! ## Calibration curves read from a file -/

/-- The ROOT file store behind `TFile::Open(fname, "READ")` and
`file->Get(name)`: a file name gives no file or a file, and a file gives for
an object name no object or a curve (`TF1`). It is outside the repository and
enters the embedding as a parameter. -/
structure TFileStore where
  Open : String → Option (String → Option (ℚ → ℚ))

namespace ConstAK8Inputs

set_option linter.unusedVariables false in
/-- `ConstAK8Inputs::prepHistosForWCorrectionFactors(fname, puppisd_corrGEN,
puppisd_corrRECO_cen, puppisd_corrRECO_for)`. The three `TF1*` parameters are
passed by value, so the assignments are made to the function's own copies; the
result holds those copies as they are when the function returns, and the
function returns nothing to its caller. -/
def prepHistosForWCorrectionFactors (F : TFileStore) (fname : String)
    (puppisd_corrGEN puppisd_corrRECO_cen puppisd_corrRECO_for : Option (ℚ → ℚ)) :
    Except Fault (Option (ℚ → ℚ) × Option (ℚ → ℚ) × Option (ℚ → ℚ)) :=
  match F.Open fname with
  | some file =>
    .ok (file "puppiJECcorr_gen", file "puppiJECcorr_reco_0eta1v3",
      file "puppiJECcorr_reco_1v3eta2v5")
  | none =>
    .error (Fault.TTException ("W mass correction file not found w mass!!!!!!!" ++ fname ++ "\n"))

/-- `ConstAK8Inputs::setWMassCorrHistos(puppisd_corrGEN, puppisd_corrRECO_cen,
puppisd_corrRECO_for)`: the three members are set from the arguments. -/
def setWMassCorrHistos (inp : ConstAK8Inputs)
    (puppisd_corrGEN puppisd_corrRECO_cen puppisd_corrRECO_for : Option (ℚ → ℚ)) :
    ConstAK8Inputs :=
  { inp with puppisd_corrGEN_ := puppisd_corrGEN, puppisd_corrRECO_cen_ := puppisd_corrRECO_cen,
             puppisd_corrRECO_for_ := puppisd_corrRECO_for }

/-- `ConstAK8Inputs::setWMassCorrHistos(fname)`: three local pointers start
null, `prepHistosForWCorrectionFactors` is called with copies of them, and the
locals, which the call cannot change, are handed to the three-pointer
overload. -/
def setWMassCorrHistosFile (F : TFileStore) (inp : ConstAK8Inputs) (fname : String) :
    Except Fault ConstAK8Inputs :=
  let puppisd_corrGEN : Option (ℚ → ℚ) := none
  let puppisd_corrRECO_cen : Option (ℚ → ℚ) := none
  let puppisd_corrRECO_for : Option (ℚ → ℚ) := none
  match prepHistosForWCorrectionFactors F fname puppisd_corrGEN puppisd_corrRECO_cen
      puppisd_corrRECO_for with
  | .error x => .error x
  | .ok _ => .ok (inp.setWMassCorrHistos puppisd_corrGEN puppisd_corrRECO_cen puppisd_corrRECO_for)

end ConstAK8Inputs

/-! ## The resolved-candidate packager and the composition of packagers -/

/-- Members of `ConstResolvedCandInputs`. -/
structure ConstResolvedCandInputs where
  topCandLVec_ : List TLorentzVector
  topCandDisc_ : List ℚ
  topCandJ1_ : List Int
  topCandJ2_ : List Int
  topCandJ3_ : List Int

namespace ConstResolvedCandInputs

/-- The check that opens `packageConstituents`: the exception thrown when the
five vectors are not of equal length. -/
def lengthCheck (inp : ConstResolvedCandInputs) : Option Fault :=
  if inp.topCandLVec_.length ≠ inp.topCandDisc_.length
      ∨ inp.topCandLVec_.length ≠ inp.topCandJ1_.length
      ∨ inp.topCandLVec_.length ≠ inp.topCandJ2_.length
      ∨ inp.topCandLVec_.length ≠ inp.topCandJ3_.length then
    some (Fault.TTException "Vector sizes are unequal!!!")
  else none

/-- The argument of `constituents.emplace_back((*topCandLVec_)[iTop],
Constituent::RESOLVEDTOPCAND)` and the constituent that is appended. -/
def emplace (inp : ConstResolvedCandInputs) (iTop : Nat) : Except Fault Constituent :=
  match readAt inp.topCandLVec_ iTop with
  | .ok p => .ok (ConstituentOf.mkTyped p ConstituentType.RESOLVEDTOPCAND)
  | .error x => .error x

/-- One setter call of the loop body on the appended constituent:
`constituent.set((*v)[iTop])`. -/
def setFromAt {α : Type} (v : List α) (iTop : Nat) (set : Constituent → α → Constituent)
    (s : Constituent × Option Fault) : Constituent × Option Fault :=
  match s with
  | (c, some x) => (c, some x)
  | (c, none) =>
    match readAt v iTop with
    | .ok a => (set c a, none)
    | .error x => (c, some x)

/-- What the loop body does to the freshly appended constituent `c` of
candidate `iTop`: `setTopDisc`, then `addJetRefIndex` three times. -/
def fill (inp : ConstResolvedCandInputs) (iTop : Nat) (c : Constituent) :
    Constituent × Option Fault :=
  setFromAt inp.topCandJ3_ iTop (fun k j => k.addJetRefIndex j)
    (setFromAt inp.topCandJ2_ iTop (fun k j => k.addJetRefIndex j)
      (setFromAt inp.topCandJ1_ iTop (fun k j => k.addJetRefIndex j)
        (setFromAt inp.topCandDisc_ iTop (fun k v => k.setTopDisc v) (c, none))))

/-- The loop `for(iTop = 0; iTop < topCandLVec_->size(); ++iTop)`, over the
indices still to visit. -/
def loop (inp : ConstResolvedCandInputs) : List Nat → List Constituent → Outcome
  | [], constituents => ⟨constituents, none⟩
  | iTop :: rest, constituents =>
    match inp.emplace iTop with
    | .error x => ⟨constituents, some x⟩
    | .ok c =>
      match inp.fill iTop c with
      | (c1, some x) => ⟨constituents ++ [c1], some x⟩
      | (c1, none) => loop inp rest (constituents ++ [c1])

/-- `ConstResolvedCandInputs::packageConstituents(constituents)`. -/
def packageConstituents (inp : ConstResolvedCandInputs) (constituents : List Constituent) :
    Outcome :=
  match inp.lengthCheck with
  | some x => ⟨constituents, some x⟩
  | none => inp.loop (List.range inp.topCandLVec_.length) constituents

end ConstResolvedCandInputs

/-- An argument of the variadic `ttUtility::packageConstituents`: an object of
one of the three input classes. -/
inductive Packager where
  | AK4 (inp : ConstAK4Inputs)
  | AK8 (inp : ConstAK8Inputs)
  | ResolvedCand (inp : ConstResolvedCandInputs)

/-- The call `input.packageConstituents(constituents)` on an argument. -/
def Packager.packageConstituents (R : Root) : Packager → List Constituent → Outcome
  | Packager.AK4 inp, constituents => inp.packageConstituents R constituents
  | Packager.AK8 inp, constituents => inp.packageConstituents R constituents
  | Packager.ResolvedCand inp, constituents => inp.packageConstituents constituents

/-- `ttUtility::packageConstituentsRecurse(constituents, input, args...)` with
its one-argument specialisation; an exception thrown by an argument ends the
recursion. The template has no instance for an empty argument list; the
embedding leaves the vector as it is there. -/
def packageConstituentsRecurse (R : Root) : List Packager → List Constituent → Outcome
  | [], constituents => ⟨constituents, none⟩
  | [input], constituents => input.packageConstituents R constituents
  | input :: arg :: args, constituents =>
    match input.packageConstituents R constituents with
    | ⟨constituents1, none⟩ => packageConstituentsRecurse R (arg :: args) constituents1
    | ⟨constituents1, some x⟩ => ⟨constituents1, some x⟩

/-- `ttUtility::packageConstituents(args...)`: the vector filled by the
arguments in order, or the exception that left the function. -/
def packageConstituents (R : Root) (args : List Packager) : Except Fault (List Constituent) :=
  match packageConstituentsRecurse R args [] with
  | ⟨constituents, none⟩ => .ok constituents
  | ⟨_, some x⟩ => .error x

/-! ## Results container and the merged-object filter -/

/-- Modelled from the spec: the enumeration `TopObject::Type` declared in
`TopObject.h` (absent). `MERGED_TOP` is named by the source; the others are
the candidate types section 3 of the spec lists. -/
inductive TopObjectType where
  | NONE
  | MERGED_TOP
  | MERGED_W
  | RESOLVED_TRIJET
  | RESOLVED_DIJET
  | RESOLVED_MONOJET
  | RESOLVED_CANDIDATE
  deriving DecidableEq, Repr

/-- Modelled from the spec: the class `TopObject` declared in `TopObject.h`
(absent): the constituents of the grouping, its summed four-momentum, its
type and its discriminator (`none` while unset). -/
structure TopObject where
  constituents : List Constituent
  p : TLorentzVector
  type : TopObjectType
  discriminator : Option ℚ := none
  deriving DecidableEq, Repr

/-- Modelled from the spec: the class `TopTaggerResults` declared in
`TopTaggerResults.h` (absent). `tops` is the `std::vector<TopObject*>` of final
tops; the pointer `&topCandidates[i]` is the index `i`. -/
structure TopTaggerResults where
  topCandidates : List TopObject
  tops : List Nat
  deriving DecidableEq, Repr

/-- Members of `TTMAK8TopFilter`. -/
structure TTMAK8TopFilter where
  type_ : TopObjectType

namespace TTMAK8TopFilter

/-- The loop `for(auto& topCand : topCandidates)` of `run`; the list holds the
candidates still to visit, each with its position, and the state is `tops`. -/
def runLoop (m : TTMAK8TopFilter) : List (Nat × TopObject) → List Nat → List Nat
  | [], tops => tops
  | (i, topCand) :: rest, tops =>
    runLoop m rest (if topCand.type = m.type_ then tops ++ [i] else tops)

/-- `TTMAK8TopFilter::run(ttResults)`. -/
def run (m : TTMAK8TopFilter) (ttResults : TopTaggerResults) : TopTaggerResults :=
  { ttResults with tops := m.runLoop ttResults.topCandidates.enum ttResults.tops }

end TTMAK8TopFilter

/-! ## The HEP requirements module

`pow(x, 2)` is the square. A quotient of two masses whose denominator is zero
is an infinity or NaN in C++; it is `none` in the embedding (`quotient`), and a
test that contains it is `false`, as it is in C++. -/

/-- What the HEP module takes from outside the sources at hand: `atan` of
`<cmath>`, and the value `Constituent::getBTagDisc()` returns for a
constituent whose b-tag was never set (fixed in the absent `Constituent.h`). -/
structure External where
  atan : ℚ → ℚ
  unsetBTagDisc : ℚ

/-- Modelled from the spec: `Constituent::getBTagDisc()`, declared in
`Constituent.h` (absent): the b-tag discriminator of the constituent. -/
def ConstituentOf.getBTagDisc {S : Type} (E : External) (c : ConstituentOf S) : ℚ :=
  c.bTagDisc.getD E.unsetBTagDisc

/-- Members of `TTMHEPRequirements`. -/
structure TTMHEPRequirements where
  mW_ : ℚ
  mt_ : ℚ
  Rmin_ : ℚ
  Rmax_ : ℚ
  csvThresh_ : ℚ
  bEtaCut_ : ℚ
  maxNbInTop_ : Int
  deriving DecidableEq, Repr

namespace TTMHEPRequirements

/-- The quotient `x / y` of two doubles as far as it is a number: the quotient
when `y` is not zero, and `none` when `y` is zero, where C++ gives an infinity
(`x` not zero) or NaN (`x` zero). -/
def quotient (x y : ℚ) : Option ℚ :=
  if y = 0 then none else some (x / y)

/-- `criterionA` of `run`. With `m12` or `m123` zero the criterion is `false`:
`atan` of an infinity is `π/2` or `-π/2`, outside `(0.2, 1.3)`; an infinite
`m23/m123` fails one of the two comparisons with the bounds; a comparison with
NaN is false. -/
def criterionA (E : External) (m : TTMHEPRequirements) (m12 m23 m13 m123 : ℚ) : Bool :=
  match quotient m13 m12, quotient m23 m123 with
  | some t, some r =>
    decide (0.2 < E.atan t) && decide (E.atan t < 1.3)
      && decide (m.Rmin_ < r) && decide (r < m.Rmax_)
  | _, _ => false

/-- `criterionB` of `run`. With `m12` or `m123` zero the criterion is `false`:
for an infinite or NaN `m13/m12` the left side of the first comparison,
`pow(Rmin_,2)*(1+pow(m13/m12,2))`, is `+inf` or NaN, which is below nothing; for
an infinite or NaN `m23/m123` its right side, `1 - pow(m23/m123,2)`, is `-inf`
or NaN, which nothing is below. -/
def criterionB (m : TTMHEPRequirements) (m12 m23 m13 m123 : ℚ) : Bool :=
  match quotient m13 m12, quotient m23 m123 with
  | some t, some r =>
    decide (m.Rmin_ ^ 2 * (1 + t ^ 2) < 1 - r ^ 2)
      && decide (1 - r ^ 2 < m.Rmax_ ^ 2 * (1 + t ^ 2))
  | _, _ => false

/-- `criterionC` of `run`: `criterionB` with `m12/m13` for `m13/m12`; `false`
with `m13` or `m123` zero, for the same reason. -/
def criterionC (m : TTMHEPRequirements) (m12 m23 m13 m123 : ℚ) : Bool :=
  match quotient m12 m13, quotient m23 m123 with
  | some t, some r =>
    decide (m.Rmin_ ^ 2 * (1 + t ^ 2) < 1 - r ^ 2)
      && decide (1 - r ^ 2 < m.Rmax_ ^ 2 * (1 + t ^ 2))
  | _, _ => false

/-- The value of `passHEPRequirments` for one candidate: the three criteria
for a trijet, the ratio test for a dijet, `true` otherwise. In the dijet test
a candidate of mass zero makes `m23/m123` an infinity or NaN, and the
conjunction `Rmin_ < m23/m123 && m23/m123 < Rmax_` is then false. -/
def passHEPRequirments (R : Root) (E : External) (m : TTMHEPRequirements)
    (topCand : TopObject) : Bool :=
  match topCand.constituents with
  | [j0, j1, j2] =>
    criterionA E m (R.M (j0.p + j1.p)) (R.M (j1.p + j2.p)) (R.M (j0.p + j2.p)) (R.M topCand.p)
      || criterionB m (R.M (j0.p + j1.p)) (R.M (j1.p + j2.p)) (R.M (j0.p + j2.p)) (R.M topCand.p)
      || criterionC m (R.M (j0.p + j1.p)) (R.M (j1.p + j2.p)) (R.M (j0.p + j2.p)) (R.M topCand.p)
  | [j0, _] =>
    match quotient (R.M j0.p) (R.M topCand.p) with
    | some r => decide (m.Rmin_ < r) && decide (r < m.Rmax_)
    | none => false
  | _ => true

/-- The loop `for(const auto& jet : jets) if(...) ++Nb`; the state is `Nb`. -/
def countNb (R : Root) (E : External) (m : TTMHEPRequirements) : List Constituent → Int → Int
  | [], Nb => Nb
  | jet :: rest, Nb =>
    countNb R E m rest
      (if jet.getBTagDisc E > m.csvThresh_ ∧ |R.Eta jet.p| < m.bEtaCut_ then Nb + 1 else Nb)

/-- The value of `passBrequirements` for one candidate. -/
def passBrequirements (R : Root) (E : External) (m : TTMHEPRequirements)
    (topCand : TopObject) : Bool :=
  decide (countNb R E m topCand.constituents 0 ≤ m.maxNbInTop_)

/-- The loop `for(auto& topCand : topCandidates)` of `run`; the list holds the
candidates still to visit, each with its position, and the state is `tops`. -/
def runLoop (R : Root) (E : External) (m : TTMHEPRequirements) :
    List (Nat × TopObject) → List Nat → List Nat
  | [], tops => tops
  | (i, topCand) :: rest, tops =>
    runLoop R E m rest
      (if passHEPRequirments R E m topCand && passBrequirements R E m topCand then tops ++ [i]
       else tops)

/-- `TTMHEPRequirements::run(ttResults)`. -/
def run (R : Root) (E : External) (m : TTMHEPRequirements) (ttResults : TopTaggerResults) :
    TopTaggerResults :=
  { ttResults with tops := runLoop R E m ttResults.topCandidates.enum ttResults.tops }

end TTMHEPRequirements

/-! ## The learned-discriminant evaluator -/

/-- The scoring backend of `TTMTMVA`, outside the sources at hand:
`ttUtility::createMVAInputs(topCand, csvThresh)`, giving the entries of a
`std::map` from variable name to value, and `TMVA::Reader::EvaluateMVA`, a
function of the model name and of the reader variables. -/
structure TMVABackend where
  createMVAInputs : TopObject → ℚ → List (String × ℚ)
  EvaluateMVA : String → List (String × ℚ) → ℚ

/-- Members of `TTMTMVA` read by `run` (`discriminator_` is the cut
`discCut`). -/
structure TTMTMVA where
  discriminator_ : ℚ
  modelName_ : String
  NConstituents_ : Int
  vars_ : List String

/-- Modelled from the spec: `TopObject::setDiscriminator`, declared in
`TopObject.h` (absent). -/
def TopObject.setDiscriminator (t : TopObject) (v : ℚ) : TopObject :=
  { t with discriminator := some v }

/-- Modelled from the spec: `TopObject::getNConstituents`, declared in
`TopObject.h` (absent). -/
def TopObject.getNConstituents (t : TopObject) : Int :=
  t.constituents.length

namespace TTMTMVA

/-- The reader variables after the loop `varMap_[var] = varMap[var]` over
`vars_` (`std::map::operator[]` gives 0 for a name that has no entry), and the
value `reader_->EvaluateMVA(modelName_)` computed from them. -/
def evaluate (B : TMVABackend) (m : TTMTMVA) (topCand : TopObject) : ℚ :=
  B.EvaluateMVA m.modelName_
    (m.vars_.map (fun var => (var, ((B.createMVAInputs topCand 0.8).lookup var).getD 0)))

/-- The loop `for(auto& topCand : topCandidates)` of `run` (compiled with
`SHOTTOPTAGGER_DO_TMVA`); the list holds the candidates still to visit, each
with its position, and the state is the candidates already visited, as `run`
leaves them, and `tops`. -/
def runLoop (B : TMVABackend) (m : TTMTMVA) :
    List (Nat × TopObject) → List TopObject × List Nat → List TopObject × List Nat
  | [], st => st
  | (i, topCand) :: rest, (visitedCands, tops) =>
    if topCand.getNConstituents = m.NConstituents_ then
      runLoop B m rest
        (visitedCands ++ [topCand.setDiscriminator (evaluate B m topCand)],
         if evaluate B m topCand > m.discriminator_ then tops ++ [i] else tops)
    else runLoop B m rest (visitedCands ++ [topCand], tops)

/-- `TTMTMVA::run(ttResults)`. -/
def run (B : TMVABackend) (m : TTMTMVA) (ttResults : TopTaggerResults) : TopTaggerResults :=
  { topCandidates := (runLoop B m ttResults.topCandidates.enum ([], ttResults.tops)).1
    tops := (runLoop B m ttResults.topCandidates.enum ([], ttResults.tops)).2 }

end TTMTMVA

/-! ## The Python interface: jet cleaning in the AK4 builder

`TopTaggerInterface_makeAK4Const` reads its arrays through
`ttPython::Py_buffer_wrapper`, declared in a header that is not among the
sources at hand; an element read is taken as a read of an array of the length
handed to the wrapper, out of range when the index is not below that length.
The integers are C `int` values, kept as integers; `&`, `|` and `>>` are
`Int.land`, `Int.lor` and the arithmetic shift. -/

/-- `NCUTS`. -/
def NCUTS : Nat := 10

/-- `BITSTRIDE`. -/
def BITSTRIDE : Nat := 3

/-- `BITMASK = 0x7`. -/
def BITMASK : Int := 0x7

/-- `ISOBITMASK = 070000000` (octal), the three relative-isolation bits. -/
def ISOBITMASK : Int := 0o70000000

/-- The loop `for(i = 0; i < NCUTS; ++i)` that takes the minimum of the 3-bit
fields; the first argument counts the iterations left and the state is
`elecID`, `cutBits`. -/
def elecIDLoop : Nat → Int → Int → Int
  | 0, elecID, _ => elecID
  | n + 1, elecID, cutBits =>
    elecIDLoop n (min elecID (Int.land cutBits BITMASK)) (cutBits >>> BITSTRIDE)

/-- The electron ID recomputed without isolation from the cut bitmap
`elecCutBits[elecIdx1[iJet]]`: `cutBits = bitmap | ISOBITMASK`, `elecID`
starts at `07`. -/
def elecID (bitmap : Int) : Int :=
  elecIDLoop NCUTS 0o7 (Int.lor bitmap ISOBITMASK)

/-- The optional lepton arguments of `TopTaggerInterface_makeAK4Const`. The
code tests the first and the last of them and assumes the others; they are
supplied together or not at all here. `muonID` is `none` when `pMuon_id` is
`Py_None`. -/
structure LeptonInputs where
  elecIdx1 : List Int
  muonIdx1 : List Int
  elecLV : List TLorentzVector
  elecCutBits : List Int
  elecMiniPFRelIso : List ℚ
  muonLV : List TLorentzVector
  muonID : Option (List Bool)
  muonPFRelIso : List ℚ

/-- The electron block for jet `iJet`: the value it leaves in `isLep`. -/
def electronMatch (R : Root) (L : LeptonInputs) (jet : TLorentzVector) (iJet : Nat) :
    Except Fault Bool :=
  match readAt L.elecIdx1 iJet with
  | .error x => .error x
  | .ok idx =>
    if idx ≥ 0 then
      match readAt L.elecLV idx.toNat with
      | .error x => .error x
      | .ok elec =>
        if R.Pt elec > 10 then
          match readAt L.elecCutBits idx.toNat with
          | .error x => .error x
          | .ok bitmap =>
            if elecID bitmap ≥ 1 then
              match readAt L.elecMiniPFRelIso idx.toNat with
              | .error x => .error x
              | .ok iso => .ok (decide (iso < 0.10) && decide (R.DeltaR jet elec < 0.2))
            else .ok false
        else .ok false
    else .ok false

/-- The value of `(pMuon_id == Py_None || muonID[idx])`. -/
def muonIsLoose (L : LeptonInputs) (idx : Nat) : Except Fault Bool :=
  match L.muonID with
  | none => .ok true
  | some ids => readAt ids idx

/-- The muon block for jet `iJet`: the value it leaves in `isLep`, which
enters as `isLep`. -/
def muonMatch (R : Root) (L : LeptonInputs) (jet : TLorentzVector) (iJet : Nat) (isLep : Bool) :
    Except Fault Bool :=
  match readAt L.muonIdx1 iJet with
  | .error x => .error x
  | .ok idx =>
    if idx ≥ 0 then
      match readAt L.muonLV idx.toNat with
      | .error x => .error x
      | .ok muon =>
        if R.Pt muon > 10 then
          if isLep then .ok true
          else
            match muonIsLoose L idx.toNat with
            | .error x => .error x
            | .ok false => .ok false
            | .ok true =>
              match readAt L.muonPFRelIso idx.toNat with
              | .error x => .error x
              | .ok iso => .ok (decide (iso < 0.2) && decide (R.DeltaR jet muon < 0.2))
        else .ok isLep
    else .ok isLep

/-- The value of `isLep` for jet `iJet` after the electron and the muon
block. -/
def isLep (R : Root) (L : LeptonInputs) (jet : TLorentzVector) (iJet : Nat) : Except Fault Bool :=
  match electronMatch R L jet iJet with
  | .error x => .error x
  | .ok e => muonMatch R L jet iJet e

/-- The value assigned to `filterVec[iJet]`:
`!isLep && jetsLV[iJet].Pt() >= 19.9`. -/
def filterEntry (R : Root) (L : LeptonInputs) (jetsLV : List TLorentzVector) (iJet : Nat) :
    Except Fault Bool :=
  match readAt jetsLV iJet with
  | .error x => .error x
  | .ok jet =>
    match isLep R L jet iJet with
    | .error x => .error x
    | .ok lep => .ok (!lep && decide (R.Pt jet ≥ 19.9))

/-- `std::vector::resize(n, x)`. -/
def resize (v : List Nat) (n x : Nat) : List Nat :=
  v.take n ++ List.replicate (n - v.length) x

/-- The loop `for(iJet = 0; iJet < jetsLV.size(); ++iJet)` over the indices
still to visit; the state is `filterVec` (`unsigned char` entries, `true`
stored as 1). Without the lepton arguments the body does nothing. -/
def filterLoop (R : Root) (leptons : Option LeptonInputs) (jetsLV : List TLorentzVector) :
    List Nat → List Nat → List Nat × Option Fault
  | [], filterVec => (filterVec, none)
  | iJet :: rest, filterVec =>
    match leptons with
    | none => filterLoop R leptons jetsLV rest filterVec
    | some L =>
      match filterEntry R L jetsLV iJet with
      | .error x => (filterVec, some x)
      | .ok b => filterLoop R leptons jetsLV rest (filterVec.set iJet (if b then 1 else 0))

/-- The filter `TopTaggerInterface_makeAK4Const` hands to `setFilterVector`:
`filterVec` after `resize(jetsLV.size(), true)` and the cleaning loop, with
the fault that interrupted the loop, if any. The packing of the b-tag array
and of the supplemental dictionaries that follows is not part of this
function. -/
def TopTaggerInterface_makeAK4Const (R : Root) (jetsLV : List TLorentzVector)
    (leptons : Option LeptonInputs) (filterVec : List Nat) : List Nat × Option Fault :=
  filterLoop R leptons jetsLV (List.range jetsLV.length) (resize filterVec jetsLV.length 1)

/-! ## Views of the packaging loops used in the proofs -/

/-- What one iteration of a packaging loop does to the output vector. -/
inductive Step where
  /-- The jet is skipped (`continue`). -/
  | skip
  /-- The body completes and leaves `c` appended. -/
  | push (c : Constituent)
  /-- The body is interrupted by `x` before anything is appended. -/
  | stopBefore (x : Fault)
  /-- The body is interrupted by `x` after `c` has been appended. -/
  | stopAfter (c : Constituent) (x : Fault)

namespace Step

/-- The constituent the iteration leaves in the output vector, if any. -/
def appended : Step → Option Constituent
  | skip => none
  | push c => some c
  | stopBefore _ => none
  | stopAfter c _ => some c

/-- The fault that interrupts the iteration, if any. -/
def fault : Step → Option Fault
  | skip => none
  | push _ => none
  | stopBefore x => some x
  | stopAfter _ x => some x

end Step

/-- A loop over jet indices that performs `step i` at index `i` and stops at
the first fault. -/
def runSteps (step : Nat → Step) : List Nat → List Constituent → Outcome
  | [], constituents => ⟨constituents, none⟩
  | i :: rest, constituents =>
    match step i with
    | Step.skip => runSteps step rest constituents
    | Step.push c => runSteps step rest (constituents ++ [c])
    | Step.stopBefore x => ⟨constituents, some x⟩
    | Step.stopAfter c x => ⟨constituents ++ [c], some x⟩

/-- The indices a loop visits: all of them up to and including the first one
whose iteration is interrupted. -/
def visited (step : Nat → Step) : List Nat → List Nat
  | [] => []
  | i :: rest => if (step i).fault = none then i :: visited step rest else [i]

/-- One iteration of the AK4 loop at `iJet`. -/
def ConstAK4Inputs.step (R : Root) (inp : ConstAK4Inputs) (iJet : Nat) : Step :=
  match skipJet inp.filter_ iJet with
  | .error x => Step.stopBefore x
  | .ok true => Step.skip
  | .ok false =>
    match inp.emplace iJet with
    | .error x => Step.stopBefore x
    | .ok c =>
      match inp.fill R iJet c with
      | (c1, some x) => Step.stopAfter c1 x
      | (c1, none) => Step.push c1

/-- One iteration of the AK8 loop at `iJet`. -/
def ConstAK8Inputs.step (R : Root) (inp : ConstAK8Inputs) (iJet : Nat) : Step :=
  match skipJet inp.filter_ iJet with
  | .error x => Step.stopBefore x
  | .ok true => Step.skip
  | .ok false =>
    match inp.findSubjets R iJet with
    | .error x => Step.stopBefore x
    | .ok subjets =>
      match inp.emplace R iJet subjets with
      | .error x => Step.stopBefore x
      | .ok c =>
        match inp.fill R iJet subjets c with
        | (c1, some x) => Step.stopAfter c1 x
        | (c1, none) => Step.push c1

/-- One iteration of the resolved-candidate loop at `iTop`. -/
def ConstResolvedCandInputs.step (inp : ConstResolvedCandInputs) (iTop : Nat) : Step :=
  match inp.emplace iTop with
  | .error x => Step.stopBefore x
  | .ok c =>
    match inp.fill iTop c with
    | (c1, some x) => Step.stopAfter c1 x
    | (c1, none) => Step.push c1

/-- Whether a filter keeps jet `i`: always when no filter is set, else when
the filter entry at `i` is not zero. -/
def isKept (filter : Option (List Nat)) (i : Nat) : Bool :=
  match filter with
  | none => true
  | some f => decide (f.getD i 0 ≠ 0)

/-- Indices of the jets a filter keeps among the first `n`, in increasing
order. -/
def keptIndices (filter : Option (List Nat)) (n : Nat) : List Nat :=
  (List.range n).filter (isKept filter)

/-- Text of the exception thrown for a missing row of an extra variable. -/
def missingExtraVar (name : String) (iJet : Nat) : Fault :=
  Fault.TTException ("Extra variable " ++ name ++ "[" ++ toString iJet ++ "] is not found!!!!!!!")

/-- The truth associations expected for `jet`: one pair (top, daughter) for
every generator top and every daughter of it at `DeltaR` below 0.4 from the
jet, tops in order and, within a top, daughters in order. -/
def truthPairs (R : Root) (jet : TLorentzVector) (tops : List TLorentzVector)
    (daughters : List (List TLorentzVector)) : List (TLorentzVector × TLorentzVector) :=
  ((tops.zip daughters).map
    (fun td => (td.2.filter (fun d => decide (R.DeltaR jet d < 0.4))).map (fun d => (td.1, d)))).flatten

/-- The truth associations expected for a merged jet with kept subjets
`subjets`: one pair (top, daughter) for every generator top, every daughter of
it and every kept subjet at `DeltaR` below 0.4 from the daughter; tops in
order, daughters in order within a top, subjets in order within a daughter. -/
def truthPairs8 (R : Root) (subjets : List Subjet) (tops : List TLorentzVector)
    (daughters : List (List TLorentzVector)) : List (TLorentzVector × TLorentzVector) :=
  ((tops.zip daughters).map
    (fun td => (td.2.map
      (fun d => (subjets.filter (fun s => decide (R.DeltaR s.p d < 0.4))).map
        (fun _ => (td.1, d)))).flatten)).flatten

/-- The pool subjets matched to a fat jet, each with its pool index, in pool
order: those at `DeltaR` below 0.8 from the jet. -/
def poolMatches (R : Root) (jet : TLorentzVector) (pool : List TLorentzVector) :
    List (Nat × TLorentzVector) :=
  pool.enum.filter (fun e => decide (R.DeltaR jet e.2 < 0.8))

/-- The residual of a pair of subjets in the pair search,
`fabs((jet - subjets[j].p() - subjets[k].p()).M())`. -/
def pairResidual (R : Root) (jet : TLorentzVector) (sj sk : Subjet) : ℚ :=
  |R.M (jet - sj.p - sk.p)|

/-- The pairs the two loops of the pair search visit, in the order of the
visit, each with its residual; the argument holds the subjets from some
position on, each with its position. -/
def pairItems (R : Root) (jet : TLorentzVector) : List (Nat × Subjet) → List (Nat × Nat × ℚ)
  | [] => []
  | (j, sj) :: rest =>
    rest.map (fun e => (j, e.1, pairResidual R jet sj e.2)) ++ pairItems R jet rest

/-- The update `if(diff < min_diff)` of the pair search run over a list of
pairs with their residuals. -/
def pairFold : List (Nat × Nat × ℚ) → PairState → PairState
  | [], st => st
  | (j, k, d) :: rest, st => pairFold rest (if d < st.min_diff then ⟨d, j, k⟩ else st)

/-- Lexicographic order of index pairs. -/
def pairBefore (a b : Nat × Nat) : Prop :=
  a.1 < b.1 ∨ (a.1 = b.1 ∧ a.2 < b.2)

/-! ## Example inputs -/

/-- One jet along the x axis. -/
def jetX : TLorentzVector := ⟨1, 0, 0, 1⟩

/-- AK4 input with one jet, an empty b-tag array and a filter that keeps the
jet. -/
def exAK4NoBtag : ConstAK4Inputs :=
  { jetsLVec_ := [jetX], btagFactors_ := [], filter_ := some [1] }

/-- AK4 input with three jets of which the filter keeps the first and the
last. -/
def exAK4Filtered : ConstAK4Inputs :=
  { jetsLVec_ := [⟨1, 0, 0, 1⟩, ⟨2, 0, 0, 2⟩, ⟨3, 0, 0, 3⟩], btagFactors_ := [5, 6, 7],
    filter_ := some [1, 0, 2] }

/-- AK8 input with three jets of which the filter keeps the first and the
last; the subjet pool is empty. -/
def exAK8Filtered : ConstAK8Inputs :=
  { jetsLVec_ := [⟨1, 0, 0, 1⟩, ⟨2, 0, 0, 2⟩, ⟨3, 0, 0, 3⟩], softDropMass_ := [5, 6, 7],
    tau1_ := some [1, 1, 1], tau2_ := some [2, 2, 2], tau3_ := some [3, 3, 3],
    subjetsLVec_ := some [], filter_ := some [1, 0, 2] }

/-- A generator top. -/
def genTopA : TLorentzVector := ⟨0, 0, 0, 173⟩

/-- Three daughters of `genTopA`, told apart by their energy. -/
def daughterNear : TLorentzVector := ⟨1, 0, 0, 10⟩

/-- Second daughter of `genTopA`. -/
def daughterEdge : TLorentzVector := ⟨1, 0, 0, 20⟩

/-- Third daughter of `genTopA`. -/
def daughterFar : TLorentzVector := ⟨1, 0, 0, 30⟩

/-- Angular separations for the truth-matching example: 0.3 to
`daughterNear`, exactly 0.4 to `daughterEdge`, 0.5 to anything else. -/
def exDeltaR (_ d : TLorentzVector) : ℚ :=
  if d = daughterNear then 0.3 else if d = daughterEdge then 0.4 else 0.5

/-- AK4 input with one jet, one generator top and its three daughters. -/
def exAK4Truth : ConstAK4Inputs :=
  { jetsLVec_ := [jetX], btagFactors_ := [1], qgLikelihood_ := some [1],
    hadGenTops_ := some [genTopA],
    hadGenTopDaughters_ := some [[daughterNear, daughterEdge, daughterFar]] }

/-- AK4 input with three jets, a filter that drops the last one, and two
extra variables: `"a"` has a row for every jet, `"b"` only for the first
two. -/
def exAK4ExtraOk : ConstAK4Inputs :=
  { jetsLVec_ := [⟨1, 0, 0, 1⟩, ⟨2, 0, 0, 2⟩, ⟨3, 0, 0, 3⟩], btagFactors_ := [5, 6, 7],
    filter_ := some [1, 1, 0],
    extraInputVariables_ := [("a", [10, 11, 12]), ("b", [20, 21])] }

/-- The same input without the filter: row 2 of `"b"` is missing. -/
def exAK4ExtraShort : ConstAK4Inputs :=
  { exAK4ExtraOk with filter_ := none }

/-- AK8 input under the explicit policy: one fat jet whose own subjet list has
three entries. -/
def exAK8ThreeSubjets : ConstAK8Inputs :=
  { jetsLVec_ := [⟨9, 0, 0, 10⟩], softDropMass_ := [1],
    tau1_ := some [1], tau2_ := some [2], tau3_ := some [3],
    vecSubjetsLVec_ := some [[⟨1, 0, 0, 1⟩, ⟨2, 0, 0, 2⟩, ⟨3, 0, 0, 3⟩]] }

/-- AK8 input built with the N-subjettiness constructor: one fat jet, one
soft-drop mass, an empty `tau1` array and an empty subjet pool. -/
def exAK8ShortTau : ConstAK8Inputs :=
  { jetsLVec_ := [⟨9, 0, 0, 10⟩], softDropMass_ := [1],
    tau1_ := some [], tau2_ := some [1], tau3_ := some [1], subjetsLVec_ := some [] }

/-- AK8 input under the shared-pool policy: one fat jet of energy 3000000 and
three pool subjets, all along the x axis. The residual masses of the three
pairs are 2999997 for (0,1), 1999999 for (0,2) and 1999998 for (1,2). -/
def exAK8Heavy : ConstAK8Inputs :=
  { jetsLVec_ := [⟨2, 0, 0, 3000000⟩], softDropMass_ := [1],
    tau1_ := some [1], tau2_ := some [2], tau3_ := some [3],
    subjetsLVec_ := some [⟨1, 0, 0, 1⟩, ⟨1, 0, 0, 2⟩, ⟨1, 0, 0, 1000000⟩] }

/-- Stand-in for the external values in the examples: the identity in place
of `atan` (no example depends on it) and -999 for an unset b-tag. -/
def exExternal : External :=
  { atan := fun x => x, unsetBTagDisc := -999 }

/-- An AK4 constituent with b-tag 0 and quark-gluon likelihood 0. -/
def exJet (p : TLorentzVector) : Constituent :=
  ConstituentOf.mkAK4 p 0 0

/-- The synthetic symmetric trijet: the three pairs of constituents have mass
18 each and the candidate, their sum, has mass 54. -/
def exSymmetricTrijet : TopObject :=
  { constituents := [exJet ⟨-42, -11, 0, 7⟩, exJet ⟨6, -1, 0, 35⟩, exJet ⟨36, 12, 0, 12⟩],
    p := ⟨0, 0, 0, 54⟩, type := TopObjectType.RESOLVED_TRIJET }

/-- HEP module with effective bounds `Rmin_ = 0` and `Rmax_ = 1`. -/
def exHEPUnit : TTMHEPRequirements :=
  { mW_ := 80, mt_ := 173, Rmin_ := 0, Rmax_ := 1, csvThresh_ := 1, bEtaCut_ := 3,
    maxNbInTop_ := 1 }

/-- HEP module with inverted bounds `Rmin_ = 1 > Rmax_ = 0`. -/
def exHEPInverted : TTMHEPRequirements :=
  { exHEPUnit with Rmin_ := 1, Rmax_ := 0 }

/-- HEP module with inverted bounds of which the upper one is negative:
`Rmin_ = 0 > Rmax_ = -1`. -/
def exHEPNegative : TTMHEPRequirements :=
  { exHEPUnit with Rmin_ := 0, Rmax_ := -1 }

/-- A candidate of one constituent. -/
def exMonojet : TopObject :=
  { constituents := [exJet ⟨3, 0, 0, 5⟩], p := ⟨3, 0, 0, 5⟩,
    type := TopObjectType.RESOLVED_MONOJET }

/-- A candidate of three constituents at rest with energies 2, 1 and 1:
`m12 = 3`, `m23 = 2`, `m13 = 3`, `m123 = 4`. -/
def exRestTrijet : TopObject :=
  { constituents := [exJet ⟨0, 0, 0, 2⟩, exJet ⟨0, 0, 0, 1⟩, exJet ⟨0, 0, 0, 1⟩],
    p := ⟨0, 0, 0, 4⟩, type := TopObjectType.RESOLVED_TRIJET }

/-- Results container with a monojet and a trijet candidate and no final
top. -/
def exTwoCandidates : TopTaggerResults :=
  { topCandidates := [exMonojet, exRestTrijet], tops := [] }

/-- AK4 input built with the quark-gluon constructor: two jets, two b-tag
values and three quark-gluon likelihoods. -/
def exAK4QglLong : ConstAK4Inputs :=
  { jetsLVec_ := [⟨1, 0, 0, 1⟩, ⟨2, 0, 0, 2⟩], btagFactors_ := [5, 6],
    qgLikelihood_ := some [7, 8, 9] }

/-- Resolved-candidate input with two candidates. -/
def exResolved : ConstResolvedCandInputs :=
  { topCandLVec_ := [⟨1, 0, 0, 10⟩, ⟨2, 0, 0, 20⟩], topCandDisc_ := [3, 4],
    topCandJ1_ := [0, 3], topCandJ2_ := [1, 4], topCandJ3_ := [2, 5] }

/-- AK4 input with two jets and their b-tag values. -/
def exAK4Two : ConstAK4Inputs :=
  { jetsLVec_ := [⟨1, 0, 0, 1⟩, ⟨2, 0, 0, 2⟩], btagFactors_ := [5, 6] }

/-- Resolved-candidate input whose J3 array is one entry short. -/
def exResolvedShort : ConstResolvedCandInputs :=
  { topCandLVec_ := [⟨1, 0, 0, 10⟩, ⟨2, 0, 0, 20⟩], topCandDisc_ := [3, 4],
    topCandJ1_ := [0, 3], topCandJ2_ := [1, 4], topCandJ3_ := [2] }

/-- A candidate of two constituents at rest with energies 1 and 3: the first
constituent has mass 1 and the candidate mass 4. -/
def exDijet : TopObject :=
  { constituents := [exJet ⟨0, 0, 0, 1⟩, exJet ⟨0, 0, 0, 3⟩], p := ⟨0, 0, 0, 4⟩,
    type := TopObjectType.RESOLVED_DIJET }

/-- HEP module with bounds on either side of zero: `Rmin_ = -1`,
`Rmax_ = 1`. -/
def exHEPWide : TTMHEPRequirements :=
  { exHEPUnit with Rmin_ := -1, Rmax_ := 1 }

/-- A candidate of two massless collinear constituents: the first constituent
and the candidate both have mass 0. -/
def exMasslessDijet : TopObject :=
  { constituents := [exJet ⟨1, 0, 0, 1⟩, exJet ⟨2, 0, 0, 2⟩], p := ⟨3, 0, 0, 3⟩,
    type := TopObjectType.RESOLVED_DIJET }

/-- A file store with the one file `wcorr.root`, which holds the three named
curves: the constants 2 (gen), 3 (reco, central) and 5 (reco, forward). -/
def exCurveStore : TFileStore :=
  { Open := fun fname =>
      if fname = "wcorr.root" then
        some (fun name =>
          if name = "puppiJECcorr_gen" then some (fun _ => 2)
          else if name = "puppiJECcorr_reco_0eta1v3" then some (fun _ => 3)
          else if name = "puppiJECcorr_reco_1v3eta2v5" then some (fun _ => 5)
          else none)
      else none }

/-- AK4 input built with the quark-gluon constructor: one jet, one b-tag value
and an empty quark-gluon likelihood array. -/
def exAK4EmptyQgl : ConstAK4Inputs :=
  { jetsLVec_ := [jetX], btagFactors_ := [5], qgLikelihood_ := some [] }

/-- The values of ROOT on four-vectors along the non-negative x axis, with the
transverse momentum written as `px` (its value there). -/
def exPtRoot : Root :=
  { xAxisRoot with Pt := fun v => v.px }

/-- Lepton arguments for two jets that are linked to no electron and no muon
(all indices are -1). -/
def exNoLeptons : LeptonInputs :=
  { elecIdx1 := [-1, -1], muonIdx1 := [-1, -1], elecLV := [], elecCutBits := [],
    elecMiniPFRelIso := [], muonLV := [], muonID := none, muonPFRelIso := [] }

/-- Two jets along the x axis with transverse momenta 19.95 and 19.5. -/
def exJets20 : List TLorentzVector :=
  [⟨19.95, 0, 0, 20⟩, ⟨19.5, 0, 0, 20⟩]

/-- AK8 input under the shared-pool policy with subjet attributes: one fat
jet at rest of energy 10 and three pool subjets at rest of energies 2, 2 and
5; b-tag and the four shape values are given for every pool entry. -/
def exAK8Pool : ConstAK8Inputs :=
  { jetsLVec_ := [⟨0, 0, 0, 10⟩], softDropMass_ := [1],
    tau1_ := some [1], tau2_ := some [2], tau3_ := some [3],
    subjetsLVec_ := some [⟨0, 0, 0, 2⟩, ⟨0, 0, 0, 2⟩, ⟨0, 0, 0, 5⟩],
    subjetsBtag_ := some [10, 11, 12], subjetsMult_ := some [20, 21, 22],
    subjetsPtD_ := some [30, 31, 32], subjetsAxis1_ := some [40, 41, 42],
    subjetsAxis2_ := some [50, 51, 52] }

/-- Angular separations for `exAK8Pool`: 0.5 to the pool subjet of energy 5,
exactly 0.8 to anything else. -/
def exDeltaRPool (_ s : TLorentzVector) : ℚ :=
  if s = ⟨0, 0, 0, 5⟩ then 0.5 else 0.8

/-- AK8 input under the shared-pool policy with generator truth: one fat jet,
two pool subjets, one generator top and its two daughters. -/
def exAK8Truth : ConstAK8Inputs :=
  { jetsLVec_ := [⟨0, 0, 0, 10⟩], softDropMass_ := [1],
    tau1_ := some [1], tau2_ := some [2], tau3_ := some [3],
    subjetsLVec_ := some [⟨0, 0, 0, 2⟩, ⟨0, 0, 0, 5⟩],
    hadGenTops_ := some [genTopA],
    hadGenTopDaughters_ := some [[daughterNear, daughterFar]] }

/-- Angular separations for `exAK8Truth`: 0.3 from anything to `daughterNear`,
0.5 to anything else. -/
def exDeltaRTruth (_ d : TLorentzVector) : ℚ :=
  if d = daughterNear then 0.3 else 0.5

/-- AK8 input under the shared-pool policy: one fat jet at rest of energy 10
and three pool subjets at rest of energies 2, 2 and 5. The residual masses of
the three pairs are 6 for (0,1), 3 for (0,2) and 3 for (1,2). -/
def exAK8Tie : ConstAK8Inputs :=
  { jetsLVec_ := [⟨0, 0, 0, 10⟩], softDropMass_ := [1],
    tau1_ := some [1], tau2_ := some [2], tau3_ := some [3],
    subjetsLVec_ := some [⟨0, 0, 0, 2⟩, ⟨0, 0, 0, 2⟩, ⟨0, 0, 0, 5⟩] }

/-! ## Generic facts about the loops -/

theorem runSteps_fault (step : Nat → Step) (idxs : List Nat) (cs : List Constituent) :
    (runSteps step idxs cs).fault = idxs.findSome? (fun i => (step i).fault) := by
  induction idxs generalizing cs with
  | nil => rfl
  | cons i rest ih =>
    cases h : step i <;> simp [runSteps, h, Step.fault, List.findSome?, ih]

theorem runSteps_constituents (step : Nat → Step) (idxs : List Nat) (cs : List Constituent) :
    (runSteps step idxs cs).constituents
      = cs ++ (visited step idxs).filterMap (fun i => (step i).appended) := by
  induction idxs generalizing cs with
  | nil => simp [runSteps, visited]
  | cons i rest ih =>
    cases h : step i <;> simp [runSteps, visited, h, Step.fault, Step.appended, ih]

theorem visited_of_no_fault (step : Nat → Step) (idxs : List Nat)
    (h : idxs.findSome? (fun i => (step i).fault) = none) : visited step idxs = idxs := by
  induction idxs with
  | nil => rfl
  | cons i rest ih =>
    simp only [List.findSome?_cons] at h
    cases hf : (step i).fault with
    | none => rw [hf] at h; simp [visited, hf, ih h]
    | some x => rw [hf] at h; simp at h

theorem ak4_loop_eq_runSteps (R : Root) (inp : ConstAK4Inputs) (idxs : List Nat)
    (cs : List Constituent) : inp.loop R idxs cs = runSteps (inp.step R) idxs cs := by
  induction idxs generalizing cs with
  | nil => rfl
  | cons i rest ih =>
    simp only [ConstAK4Inputs.loop, runSteps, ConstAK4Inputs.step]
    split <;> try rfl
    · simp [ih]
    · split <;> try rfl
      split <;> simp [*]

theorem ak8_loop_eq_runSteps (R : Root) (inp : ConstAK8Inputs) (idxs : List Nat)
    (cs : List Constituent) : inp.loop R idxs cs = runSteps (inp.step R) idxs cs := by
  induction idxs generalizing cs with
  | nil => rfl
  | cons i rest ih =>
    simp only [ConstAK8Inputs.loop, runSteps, ConstAK8Inputs.step]
    split <;> try rfl
    · simp [ih]
    · split <;> try rfl
      split <;> try rfl
      split <;> simp [*]

/-! ## Length checks of the AK4 packager -/

theorem ak4_checkBtagQGL_none (inp : ConstAK4Inputs) :
    inp.checkBtagQGL = none
      ↔ inp.btagFactors_.length = inp.jetsLVec_.length
        ∧ ∀ q, inp.qgLikelihood_ = some q → q.length = inp.jetsLVec_.length := by
  unfold ConstAK4Inputs.checkBtagQGL presentAndDiffers
  constructor
  · intro h
    split at h
    · exact absurd h (by simp)
    · rename_i hn
      push_neg at hn
      refine ⟨hn.1.symm, fun q hq => ?_⟩
      have h2 := hn.2
      rw [hq] at h2
      have h3 : ¬ (inp.jetsLVec_.length ≠ q.length) := by simpa using h2
      exact (not_not.mp h3).symm
  · rintro ⟨hb, hq⟩
    rw [if_neg]
    rintro (h | h)
    · exact h hb.symm
    · cases hq2 : inp.qgLikelihood_ with
      | none => simp [hq2] at h
      | some q =>
        simp only [hq2, decide_eq_true_eq] at h
        exact h (hq q hq2).symm

theorem ak4_checkFilter_none (inp : ConstAK4Inputs) :
    inp.checkFilter = none ↔ ∀ f, inp.filter_ = some f → f.length = inp.jetsLVec_.length := by
  unfold ConstAK4Inputs.checkFilter
  cases hf : inp.filter_ with
  | none => simp
  | some f =>
    by_cases h1 : inp.jetsLVec_.length = f.length
    · simp [h1]
    · simp only [ne_eq, h1, not_false_eq_true, ↓reduceIte, Option.some.injEq, forall_eq']
      constructor
      · intro h; exact absurd h (by simp)
      · intro e; exact absurd e.symm h1

theorem ak4_checkQGLShape_none (inp : ConstAK4Inputs) :
    inp.checkQGLShape = none
      ↔ ∀ m d a1 a2, inp.qgMult_ = some m → inp.qgPtD_ = some d → inp.qgAxis1_ = some a1 →
          inp.qgAxis2_ = some a2 →
          m.length = inp.jetsLVec_.length ∧ d.length = inp.jetsLVec_.length
            ∧ a1.length = inp.jetsLVec_.length ∧ a2.length = inp.jetsLVec_.length := by
  unfold ConstAK4Inputs.checkQGLShape
  split
  · rename_i m d a1 a2 hm hd h1 h2
    simp only [hm, hd, h1, h2, Option.some.injEq]
    constructor
    · intro h m2 d2 b1 b2 e1 e2 e3 e4
      subst e1 e2 e3 e4
      by_contra hne
      rw [if_pos] at h
      · exact absurd h (by simp)
      · by_contra hall
        push_neg at hall
        exact hne ⟨hall.1.symm, hall.2.1.symm, hall.2.2.1.symm, hall.2.2.2.symm⟩
    · intro h
      obtain ⟨e1, e2, e3, e4⟩ := h m d a1 a2 rfl rfl rfl rfl
      simp [e1, e2, e3, e4]
  · rename_i hno
    constructor
    · intro _ m d a1 a2 hm hd h1 h2
      exact (hno m d a1 a2 hm hd h1 h2).elim
    · intro _; rfl

theorem ak4_lengthChecks_throws (inp : ConstAK4Inputs) (x : Fault)
    (h : inp.lengthChecks = some x) : ∃ msg, x = Fault.TTException msg := by
  unfold ConstAK4Inputs.lengthChecks at h
  split at h
  · rename_i y hy
    simp only [ConstAK4Inputs.checkBtagQGL] at hy
    split at hy
    · exact ⟨_, by rw [← Option.some.inj h, ← Option.some.inj hy]⟩
    · exact absurd hy (by simp)
  · split at h
    · rename_i y hy
      simp only [ConstAK4Inputs.checkFilter] at hy
      split at hy
      · split at hy
        · exact ⟨_, by rw [← Option.some.inj h, ← Option.some.inj hy]⟩
        · exact absurd hy (by simp)
      · exact absurd hy (by simp)
    · simp only [ConstAK4Inputs.checkQGLShape] at h
      split at h
      · split at h
        · exact ⟨_, (Option.some.inj h).symm⟩
        · exact absurd h (by simp)
      · exact absurd h (by simp)

theorem ak4_lengthChecks_none (inp : ConstAK4Inputs) :
    inp.lengthChecks = none
      ↔ inp.checkBtagQGL = none ∧ inp.checkFilter = none ∧ inp.checkQGLShape = none := by
  unfold ConstAK4Inputs.lengthChecks
  cases h1 : inp.checkBtagQGL with
  | some x => simp
  | none =>
    cases h2 : inp.checkFilter with
    | some x => simp
    | none => simp

/-- C1. AK4 packager: when the b-tag array, a supplied quark-gluon likelihood
array, a supplied filter array, or one of the four quark-gluon shape arrays
(supplied together by `addQGLVectors`) differs in length from the jet array,
`packageConstituents` ends with a thrown `TTException` and the output vector is
exactly the vector it was given: nothing is appended. -/
theorem ak4_length_mismatch_throws (R : Root) (inp : ConstAK4Inputs) (cs : List Constituent)
    (h : inp.btagFactors_.length ≠ inp.jetsLVec_.length
      ∨ (∃ q, inp.qgLikelihood_ = some q ∧ q.length ≠ inp.jetsLVec_.length)
      ∨ (∃ f, inp.filter_ = some f ∧ f.length ≠ inp.jetsLVec_.length)
      ∨ (∃ m d a1 a2, inp.qgMult_ = some m ∧ inp.qgPtD_ = some d ∧ inp.qgAxis1_ = some a1
          ∧ inp.qgAxis2_ = some a2
          ∧ (m.length ≠ inp.jetsLVec_.length ∨ d.length ≠ inp.jetsLVec_.length
              ∨ a1.length ≠ inp.jetsLVec_.length ∨ a2.length ≠ inp.jetsLVec_.length))) :
    ∃ msg, inp.packageConstituents R cs = ⟨cs, some (Fault.TTException msg)⟩ := by
  cases hc : inp.lengthChecks with
  | some x =>
    obtain ⟨msg, rfl⟩ := ak4_lengthChecks_throws inp x hc
    exact ⟨msg, by simp [ConstAK4Inputs.packageConstituents, hc]⟩
  | none =>
    exfalso
    obtain ⟨h1, h2, h3⟩ := (ak4_lengthChecks_none inp).1 hc
    rw [ak4_checkBtagQGL_none] at h1
    rw [ak4_checkFilter_none] at h2
    rw [ak4_checkQGLShape_none] at h3
    rcases h with h | ⟨q, hq, hne⟩ | ⟨f, hf, hne⟩ | ⟨m, d, a1, a2, hm, hd, h1a, h2a, hne⟩
    · exact h h1.1
    · exact hne (h1.2 q hq)
    · exact hne (h2 f hf)
    · obtain ⟨e1, e2, e3, e4⟩ := h3 m d a1 a2 hm hd h1a h2a
      rcases hne with hne | hne | hne | hne
      · exact hne e1
      · exact hne e2
      · exact hne e3
      · exact hne e4

/-- Witness of C1: one jet, no b-tag. -/
theorem ak4_length_mismatch_throws_witness :
    ([] : List ℚ).length ≠ [(⟨1, 0, 0, 1⟩ : TLorentzVector)].length
    ∧ ∃ msg, ConstAK4Inputs.packageConstituents xAxisRoot
        { jetsLVec_ := [⟨1, 0, 0, 1⟩], btagFactors_ := [] } []
        = ⟨[], some (Fault.TTException msg)⟩ :=
  ⟨by decide,
   ak4_length_mismatch_throws xAxisRoot { jetsLVec_ := [⟨1, 0, 0, 1⟩], btagFactors_ := [] } []
     (Or.inl (by decide))⟩

/-! ## The PUPPI soft-drop mass correction -/

/-- C8. `getPUPPIweight` returns exactly 1 for every transverse momentum below
200 and every pseudorapidity, whatever the three calibration curves are and
whether they are set or not. -/
theorem getPUPPIweight_below_200 (inp : ConstAK8Inputs) (puppipt puppieta : ℚ)
    (h : puppipt < 200) : inp.getPUPPIweight puppipt puppieta = 1 := by
  simp [ConstAK8Inputs.getPUPPIweight, h]

/-- Witness of C8: curves set, transverse momentum 150. -/
theorem getPUPPIweight_below_200_witness :
    (150 : ℚ) < 200
    ∧ ConstAK8Inputs.getPUPPIweight
        { jetsLVec_ := [], softDropMass_ := [], puppisd_corrGEN_ := some (fun x => x + 2),
          puppisd_corrRECO_cen_ := some (fun x => 3 * x),
          puppisd_corrRECO_for_ := some (fun _ => 0) } 150 (1 / 2) = 1 :=
  ⟨by norm_num, getPUPPIweight_below_200 _ 150 (1 / 2) (by norm_num)⟩

/-- C9. For a transverse momentum of 200 or more, `getPUPPIweight` returns 1
when one of the calibration curves is not set, and when the three are set it
returns `gen(pt) * recoCentral(pt)` for `|eta| <= 1.3` and
`gen(pt) * recoForward(pt)` for `|eta| > 1.3`. -/
theorem getPUPPIweight_from_200 (inp : ConstAK8Inputs) (puppipt puppieta : ℚ)
    (h : 200 ≤ puppipt) :
    ((inp.puppisd_corrGEN_ = none ∨ inp.puppisd_corrRECO_cen_ = none
        ∨ inp.puppisd_corrRECO_for_ = none) → inp.getPUPPIweight puppipt puppieta = 1)
    ∧ ∀ gen cen fwd, inp.puppisd_corrGEN_ = some gen → inp.puppisd_corrRECO_cen_ = some cen →
        inp.puppisd_corrRECO_for_ = some fwd →
        (|puppieta| ≤ 1.3 → inp.getPUPPIweight puppipt puppieta = gen puppipt * cen puppipt)
        ∧ (1.3 < |puppieta| → inp.getPUPPIweight puppipt puppieta = gen puppipt * fwd puppipt) := by
  have hlt : ¬ puppipt < 200 := not_lt.mpr h
  refine ⟨?_, ?_⟩
  · intro hnone
    unfold ConstAK8Inputs.getPUPPIweight
    rw [if_neg hlt]
    rcases hnone with h1 | h1 | h1
    · rw [h1]; simp
    · rw [h1]; split <;> simp_all
    · rw [h1]; split <;> simp_all
  · intro gen cen fwd hg hc hf
    unfold ConstAK8Inputs.getPUPPIweight
    rw [if_neg hlt, hg, hc, hf]
    refine ⟨fun he => ?_, fun he => ?_⟩
    · simp [he]
    · simp [not_le.mpr he]

/-- Witness of C9: transverse momentum exactly 200, pseudorapidity exactly
-1.3, curves `x + 2`, `3 x` and `0`: the weight is `202 * 600`. -/
theorem getPUPPIweight_from_200_witness :
    (200 : ℚ) ≤ 200
    ∧ ConstAK8Inputs.getPUPPIweight
        { jetsLVec_ := [], softDropMass_ := [], puppisd_corrGEN_ := some (fun x => x + 2),
          puppisd_corrRECO_cen_ := some (fun x => 3 * x),
          puppisd_corrRECO_for_ := some (fun _ => 0) } 200 (-1.3) = 202 * 600 := by
  refine ⟨le_refl _, ?_⟩
  have h := ((getPUPPIweight_from_200
    { jetsLVec_ := [], softDropMass_ := [], puppisd_corrGEN_ := some (fun x => x + 2),
      puppisd_corrRECO_cen_ := some (fun x => 3 * x),
      puppisd_corrRECO_for_ := some (fun _ => 0) } 200 (-1.3) (le_refl _)).2
      (fun x => x + 2) (fun x => 3 * x) (fun _ => 0) rfl rfl rfl).1 (by rw [abs_neg]; norm_num [abs_of_pos])
  rw [h]; norm_num

/-! ## The merged-object filter -/

theorem ak8TopFilter_runLoop (m : TTMAK8TopFilter) (cands : List TopObject) (k : Nat)
    (tops : List Nat) :
    m.runLoop (cands.enumFrom k) tops
      = tops ++ ((List.range cands.length).filter
          (fun i => decide ((cands[i]?).map (fun c => c.type) = some m.type_))).map (· + k) := by
  induction cands generalizing k tops with
  | nil => simp [TTMAK8TopFilter.runLoop]
  | cons c rest ih =>
    simp only [List.enumFrom_cons, TTMAK8TopFilter.runLoop, ih, List.length_cons,
      List.range_succ_eq_map, List.filter_cons, List.filter_map, List.map_map]
    by_cases hc : c.type = m.type_
    · simp [hc, Function.comp_def, Nat.add_comm, Nat.add_left_comm]
    · simp [hc, Function.comp_def, Nat.add_comm, Nat.add_left_comm]

/-- C10. Merged-object filter: after `run`, the final-tops list is the list
before the run followed by the candidates whose type equals the configured
type, in candidate order and each once (a candidate is named by its position
in the candidate list); the candidate list, discriminators included, is
unchanged. -/
theorem ak8TopFilter_run_appends_matching (m : TTMAK8TopFilter) (tt : TopTaggerResults) :
    (m.run tt).tops
        = tt.tops ++ (List.range tt.topCandidates.length).filter
            (fun i => decide ((tt.topCandidates[i]?).map (fun c => c.type) = some m.type_))
    ∧ ((List.range tt.topCandidates.length).filter
            (fun i => decide ((tt.topCandidates[i]?).map (fun c => c.type) = some m.type_))).Nodup
    ∧ (m.run tt).topCandidates = tt.topCandidates := by
  refine ⟨?_, (List.nodup_range _).filter _, rfl⟩
  simp [TTMAK8TopFilter.run, List.enum, ak8TopFilter_runLoop]

/-! ## The body of the AK4 loop -/

theorem readAt_of_lt {α : Type} (v : List α) (i : Nat) (h : i < v.length) :
    readAt v i = .ok v[i] := by
  simp [readAt, List.getElem?_eq_getElem h]

theorem readAt_ok {α : Type} (v : List α) (i : Nat) (x : α) (h : readAt v i = .ok x) :
    v[i]? = some x := by
  unfold readAt at h
  split at h
  · rename_i y hy; rw [hy]; cases h; rfl
  · cases h

theorem skipJet_of_lt (filter : Option (List Nat)) (i : Nat)
    (h : ∀ f, filter = some f → i < f.length) :
    skipJet filter i = .ok (!isKept filter i) := by
  cases hf : filter with
  | none => rfl
  | some f =>
    have hi := h f hf
    simp [skipJet, isKept, readAt_of_lt f i hi, List.getD_eq_getElem?_getD,
      List.getElem?_eq_getElem hi]

theorem genMatchDaughters_frame (R : Root) (jet top : TLorentzVector)
    (ds : List TLorentzVector) (c : Constituent) :
    (genMatchDaughters R jet top ds c)
      = { c with genMatches := c.genMatches
            ++ (ds.filter (fun d => decide (R.DeltaR jet d < 0.4))).map (fun d => (top, d)) } := by
  induction ds generalizing c with
  | nil => simp [genMatchDaughters]
  | cons d ds ih =>
    simp only [genMatchDaughters, ih]
    by_cases hd : R.DeltaR jet d < 0.4
    · simp [hd, ConstituentOf.addGenMatch]
    · simp [hd]

theorem genMatchTops_frame (R : Root) (jet : TLorentzVector)
    (daughters : List (List TLorentzVector)) (tops : List TLorentzVector) (k : Nat)
    (c : Constituent) :
    ∃ g, (genMatchTops R jet daughters tops k c).1 = { c with genMatches := g } := by
  induction tops generalizing k c with
  | nil => exact ⟨c.genMatches, rfl⟩
  | cons t ts ih =>
    simp only [genMatchTops]
    split
    · exact ⟨c.genMatches, rfl⟩
    · rename_i ds hds
      obtain ⟨g, hg⟩ := ih (k + 1) (genMatchDaughters R jet t ds c)
      exact ⟨g, by rw [hg, genMatchDaughters_frame]⟩

theorem genMatchTops_ok (R : Root) (jet : TLorentzVector)
    (daughters : List (List TLorentzVector)) (tops : List TLorentzVector) (k : Nat)
    (c : Constituent) (h : (genMatchTops R jet daughters tops k c).2 = none) :
    (genMatchTops R jet daughters tops k c).1
      = { c with genMatches := c.genMatches ++ truthPairs R jet tops (daughters.drop k) } := by
  induction tops generalizing k c with
  | nil => simp [genMatchTops, truthPairs]
  | cons t ts ih =>
    simp only [genMatchTops] at h ⊢
    split at h
    · cases h
    · rename_i ds hds
      rw [ih (k + 1) _ h, genMatchDaughters_frame]
      have hk := readAt_ok _ _ _ hds
      have hdrop : daughters.drop k = ds :: daughters.drop (k + 1) := by
        have hlt : k < daughters.length := by
          by_contra hge
          rw [List.getElem?_eq_none (not_lt.mp hge)] at hk
          cases hk
        rw [List.getElem?_eq_getElem hlt] at hk
        cases hk
        exact List.drop_eq_getElem_cons hlt
      simp [truthPairs, hdrop]

theorem genMatchTops_no_fault (R : Root) (jet : TLorentzVector)
    (daughters : List (List TLorentzVector)) (tops : List TLorentzVector) (k : Nat)
    (c : Constituent) (h : tops.length + k ≤ daughters.length) :
    (genMatchTops R jet daughters tops k c).2 = none := by
  induction tops generalizing k c with
  | nil => rfl
  | cons t ts ih =>
    have hk : k < daughters.length := by simp at h; omega
    simp only [genMatchTops, readAt_of_lt daughters k hk]
    exact ih (k + 1) _ (by simp at h ⊢; omega)

theorem skipJet_ok_false (filter : Option (List Nat)) (i : Nat)
    (h : skipJet filter i = .ok false) : isKept filter i = true := by
  cases hf : filter with
  | none => rfl
  | some f =>
    rw [hf] at h
    simp only [skipJet] at h
    split at h
    · rename_i b hb
      have hb2 := readAt_ok _ _ _ hb
      have hne : b ≠ 0 := by
        intro hz
        rw [hz] at h
        simp at h
      simp [isKept, List.getD_eq_getElem?_getD, hb2, hne]
    · cases h

theorem skipJet_ok_true (filter : Option (List Nat)) (i : Nat)
    (h : skipJet filter i = .ok true) : isKept filter i = false := by
  cases hf : filter with
  | none => rw [hf] at h; simp [skipJet] at h
  | some f =>
    rw [hf] at h
    simp only [skipJet] at h
    split at h
    · rename_i b hb
      have hb2 := readAt_ok _ _ _ hb
      have hz : b = 0 := by
        by_contra hne
        simp [hne] at h
      simp [isKept, List.getD_eq_getElem?_getD, hb2, hz]
    · cases h

theorem ak4_emplace_ok (inp : ConstAK4Inputs) (i : Nat) (c : Constituent)
    (h : inp.emplace i = .ok c) :
    ∃ p b q, inp.jetsLVec_[i]? = some p ∧ inp.btagFactors_[i]? = some b
      ∧ c = ConstituentOf.mkAK4 p b q := by
  unfold ConstAK4Inputs.emplace at h
  split at h
  · rename_i p b q hp hb hq
    exact ⟨p, b, q, readAt_ok _ _ _ hp, readAt_ok _ _ _ hb, by cases h; rfl⟩
  · cases h

theorem ak4_emplace_of_lt (inp : ConstAK4Inputs) (i : Nat) (hi : i < inp.jetsLVec_.length)
    (hc : inp.checkBtagQGL = none) : ∃ c, inp.emplace i = .ok c := by
  obtain ⟨hb, hq⟩ := (ak4_checkBtagQGL_none inp).1 hc
  unfold ConstAK4Inputs.emplace ConstAK4Inputs.qglAt
  rw [readAt_of_lt _ _ hi, readAt_of_lt _ _ (by rw [hb]; exact hi)]
  cases hqg : inp.qgLikelihood_ with
  | none => exact ⟨_, rfl⟩
  | some qg =>
    have hlen := hq qg hqg
    simp only
    rw [readAt_of_lt _ _ (by rw [hlen]; exact hi)]
    exact ⟨_, rfl⟩

theorem ak4_addQGL_frame (inp : ConstAK4Inputs) (i : Nat) (c : Constituent) :
    ∃ m d a1 a2, (inp.addQGL i c).1
      = { c with qgMult := m, qgPtD := d, qgAxis1 := a1, qgAxis2 := a2 } := by
  unfold ConstAK4Inputs.addQGL
  split
  · split
    · exact ⟨_, _, _, _, rfl⟩
    · exact ⟨_, _, _, _, rfl⟩
  · exact ⟨_, _, _, _, rfl⟩

theorem ak4_addQGL_of_lt (inp : ConstAK4Inputs) (i : Nat) (c : Constituent)
    (hi : i < inp.jetsLVec_.length) (hc : inp.checkQGLShape = none) :
    (inp.addQGL i c).2 = none := by
  unfold ConstAK4Inputs.addQGL
  split
  · rename_i m d a1 a2 hm hd h1 h2
    obtain ⟨e1, e2, e3, e4⟩ := (ak4_checkQGLShape_none inp).1 hc m d a1 a2 hm hd h1 h2
    rw [readAt_of_lt _ _ (by rw [e1]; exact hi), readAt_of_lt _ _ (by rw [e2]; exact hi),
      readAt_of_lt _ _ (by rw [e3]; exact hi), readAt_of_lt _ _ (by rw [e4]; exact hi)]
  · rfl

theorem addExtraVars_frame (i : Nat) (extra : List (String × List ℚ)) (c : Constituent) :
    ∃ ev, (ConstAK4Inputs.addExtraVars i extra c).1 = { c with extraVars := ev } := by
  induction extra generalizing c with
  | nil => exact ⟨c.extraVars, rfl⟩
  | cons e rest ih =>
    obtain ⟨name, arr⟩ := e
    simp only [ConstAK4Inputs.addExtraVars]
    split
    · obtain ⟨ev, hev⟩ := ih (c.setExtraVar name arr[i])
      exact ⟨ev, by rw [hev]; rfl⟩
    · exact ⟨c.extraVars, rfl⟩

theorem addExtraVars_fault (i : Nat) (extra : List (String × List ℚ)) (c : Constituent) :
    (ConstAK4Inputs.addExtraVars i extra c).2
      = (extra.find? (fun e => decide (e.2.length ≤ i))).map (fun e => missingExtraVar e.1 i) := by
  induction extra generalizing c with
  | nil => rfl
  | cons e rest ih =>
    obtain ⟨name, arr⟩ := e
    simp only [ConstAK4Inputs.addExtraVars]
    split
    · rename_i hlt
      rw [ih, List.find?_cons_of_neg]
      simpa using hlt
    · rename_i hge
      rw [List.find?_cons_of_pos]
      · rfl
      · simpa using hge

theorem lookup_assign_self (name : String) (v : ℚ) (l : List (String × ℚ)) :
    (ConstituentOf.assign name v l).lookup name = some v := by
  induction l with
  | nil => simp [ConstituentOf.assign, List.lookup]
  | cons e rest ih =>
    obtain ⟨n, w⟩ := e
    by_cases hn : n = name
    · simp [ConstituentOf.assign, hn, List.lookup]
    · have hne : (name == n) = false := by simpa using fun e => hn e.symm
      simp [ConstituentOf.assign, hn, List.lookup, hne, ih]

theorem lookup_assign_ne (name n : String) (v : ℚ) (l : List (String × ℚ)) (h : n ≠ name) :
    (ConstituentOf.assign name v l).lookup n = l.lookup n := by
  induction l with
  | nil =>
    have hne : (n == name) = false := by simpa using h
    simp [ConstituentOf.assign, List.lookup, hne]
  | cons e rest ih =>
    obtain ⟨k, w⟩ := e
    by_cases hk : k = name
    · subst hk
      have hne : (n == k) = false := by simpa using h
      simp [ConstituentOf.assign, List.lookup, hne]
    · simp only [ConstituentOf.assign, hk, ↓reduceIte, List.lookup]
      rw [ih]

theorem addExtraVars_other (i : Nat) (extra : List (String × List ℚ)) (c : Constituent)
    (n : String) (h : ∀ e ∈ extra, e.1 ≠ n) :
    ((ConstAK4Inputs.addExtraVars i extra c).1).getExtraVar n = c.getExtraVar n := by
  induction extra generalizing c with
  | nil => rfl
  | cons e rest ih =>
    obtain ⟨name, arr⟩ := e
    simp only [ConstAK4Inputs.addExtraVars]
    split
    · rw [ih _ (fun e he => h e (List.mem_cons_of_mem _ he))]
      have hne : n ≠ name := fun e => h (name, arr) (List.mem_cons_self _ _) e.symm
      simp [ConstituentOf.getExtraVar, ConstituentOf.setExtraVar, lookup_assign_ne _ _ _ _ hne]
    · rfl

theorem addExtraVars_values (i : Nat) (extra : List (String × List ℚ)) (c : Constituent)
    (hnd : (extra.map Prod.fst).Nodup)
    (hok : (ConstAK4Inputs.addExtraVars i extra c).2 = none) :
    ∀ e ∈ extra, ((ConstAK4Inputs.addExtraVars i extra c).1).getExtraVar e.1 = e.2[i]? := by
  induction extra generalizing c with
  | nil => intro e he; cases he
  | cons e0 rest ih =>
    obtain ⟨name, arr⟩ := e0
    simp only [List.map_cons, List.nodup_cons] at hnd
    simp only [ConstAK4Inputs.addExtraVars] at hok ⊢
    split at hok
    · rename_i hlt
      simp only [hlt, ↓reduceDIte]
      intro e he
      rcases List.mem_cons.1 he with rfl | hmem
      · rw [addExtraVars_other i rest _ name]
        · simp [ConstituentOf.getExtraVar, ConstituentOf.setExtraVar, lookup_assign_self,
            List.getElem?_eq_getElem hlt]
        · intro e2 he2 heq
          exact hnd.1 (List.mem_map.2 ⟨e2, he2, heq⟩)
      · exact ih _ hnd.2 hok e hmem
    · cases hok

theorem ak4_addGenMatches_frame (R : Root) (inp : ConstAK4Inputs) (i : Nat) (c : Constituent) :
    ∃ g, (inp.addGenMatches R i c).1 = { c with genMatches := g } := by
  unfold ConstAK4Inputs.addGenMatches
  split
  · split
    · exact genMatchTops_frame R _ _ _ 0 c
    · exact ⟨c.genMatches, rfl⟩
  · exact ⟨c.genMatches, rfl⟩

theorem ak4_fill_frame (R : Root) (inp : ConstAK4Inputs) (i : Nat) (c : Constituent) :
    ∃ m d a1 a2 ev idx g, (inp.fill R i c).1
      = { c with qgMult := m, qgPtD := d, qgAxis1 := a1, qgAxis2 := a2, extraVars := ev,
                 index := idx, genMatches := g } := by
  obtain ⟨m, d, a1, a2, h1⟩ := ak4_addQGL_frame inp i c
  unfold ConstAK4Inputs.fill
  split
  · rename_i c1 x hq
    rw [hq] at h1
    exact ⟨m, d, a1, a2, c.extraVars, c.index, c.genMatches, by rw [h1]⟩
  · rename_i c1 hq
    rw [hq] at h1
    simp only at h1
    obtain ⟨ev, h2⟩ := addExtraVars_frame i inp.extraInputVariables_ c1
    split
    · rename_i c2 x he
      rw [he] at h2
      exact ⟨m, d, a1, a2, ev, c.index, c.genMatches, by rw [h2, h1]⟩
    · rename_i c2 he
      rw [he] at h2
      simp only at h2
      obtain ⟨g, h3⟩ := ak4_addGenMatches_frame R inp i (c2.setIndex i)
      exact ⟨m, d, a1, a2, ev, some i, g, by rw [h3, h2, h1]; rfl⟩

theorem ak4_fill_ok (R : Root) (inp : ConstAK4Inputs) (i : Nat) (c0 c : Constituent)
    (h : inp.fill R i c0 = (c, none)) :
    ∃ c1 c2, inp.addQGL i c0 = (c1, none)
      ∧ ConstAK4Inputs.addExtraVars i inp.extraInputVariables_ c1 = (c2, none)
      ∧ inp.addGenMatches R i (c2.setIndex i) = (c, none) := by
  unfold ConstAK4Inputs.fill at h
  split at h
  · cases h
  · rename_i c1 hq
    split at h
    · cases h
    · rename_i c2 he
      exact ⟨c1, c2, hq, he, h⟩

theorem ak4_step_skip (R : Root) (inp : ConstAK4Inputs) (i : Nat)
    (h : inp.step R i = Step.skip) : isKept inp.filter_ i = false := by
  unfold ConstAK4Inputs.step at h
  split at h
  · cases h
  · rename_i hs; exact skipJet_ok_true _ _ hs
  · split at h
    · cases h
    · split at h <;> cases h

theorem ak4_step_appended (R : Root) (inp : ConstAK4Inputs) (i : Nat) (c : Constituent)
    (h : (inp.step R i).appended = some c) :
    isKept inp.filter_ i = true ∧ some c.p = inp.jetsLVec_[i]?
      ∧ c.bTagDisc = inp.btagFactors_[i]? := by
  unfold ConstAK4Inputs.step at h
  split at h
  · cases h
  · cases h
  · rename_i hs
    split at h
    · cases h
    · rename_i c0 he
      obtain ⟨p, b, q, hp, hb, hc0⟩ := ak4_emplace_ok inp i c0 he
      obtain ⟨m, d, a1, a2, ev, idx, g, hfr⟩ := ak4_fill_frame R inp i c0
      have hc : c = (inp.fill R i c0).1 := by
        split at h
        · rename_i c1 x hf; rw [hf]; simp [Step.appended] at h; exact h.symm
        · rename_i c1 hf; rw [hf]; simp [Step.appended] at h; exact h.symm
      refine ⟨skipJet_ok_false _ _ hs, ?_, ?_⟩
      · rw [hc, hfr, hp, hc0]; rfl
      · rw [hc, hfr, hb, hc0]; rfl

theorem ak4_step_push (R : Root) (inp : ConstAK4Inputs) (i : Nat) (c : Constituent)
    (h : inp.step R i = Step.push c) :
    c.index = some i
    ∧ ((inp.extraInputVariables_.map Prod.fst).Nodup →
        ∀ e ∈ inp.extraInputVariables_, c.getExtraVar e.1 = e.2[i]?)
    ∧ (∀ tops daughters jet, inp.hadGenTops_ = some tops →
        inp.hadGenTopDaughters_ = some daughters → inp.jetsLVec_[i]? = some jet →
        c.genMatches = truthPairs R jet tops daughters) := by
  unfold ConstAK4Inputs.step at h
  split at h
  · cases h
  · cases h
  · split at h
    · cases h
    · rename_i c0 he
      split at h
      · cases h
      · rename_i c1 hf
        cases h
        obtain ⟨p, b, q, hp, hb, hc0⟩ := ak4_emplace_ok inp i c0 he
        obtain ⟨k1, k2, hq, hx, hg⟩ := ak4_fill_ok R inp i c0 c hf
        obtain ⟨m, d, a1, a2, hqf⟩ := ak4_addQGL_frame inp i c0
        rw [hq] at hqf
        simp only at hqf
        obtain ⟨ev, hxf⟩ := addExtraVars_frame i inp.extraInputVariables_ k1
        rw [hx] at hxf
        simp only at hxf
        obtain ⟨g, hgf⟩ := ak4_addGenMatches_frame R inp i (k2.setIndex i)
        rw [hg] at hgf
        simp only at hgf
        refine ⟨by rw [hgf]; rfl, ?_, ?_⟩
        · intro hnd e he2
          have hv := addExtraVars_values i inp.extraInputVariables_ k1 hnd (by rw [hx]) e he2
          rw [hx] at hv
          rw [← hv, hgf]
          rfl
        · intro tops daughters jet ht hd hj
          unfold ConstAK4Inputs.addGenMatches at hg
          rw [ht, hd] at hg
          simp only at hg
          have hjl : i < inp.jetsLVec_.length := by
            by_contra hge
            rw [List.getElem?_eq_none (not_lt.mp hge)] at hj
            cases hj
          rw [readAt_of_lt _ _ hjl] at hg
          simp only at hg
          have hjet : inp.jetsLVec_[i] = jet := by
            rw [List.getElem?_eq_getElem hjl] at hj
            exact Option.some.inj hj
          rw [hjet] at hg
          have hok := genMatchTops_ok R jet daughters tops 0 (k2.setIndex i) (by rw [hg])
          rw [hg] at hok
          simp only at hok
          rw [hok, hxf, hqf, hc0]
          simp [ConstituentOf.setIndex, ConstituentOf.mkAK4]

/-! ## The body of the AK8 loop -/

theorem genMatchSubjets_frame (R : Root) (top d : TLorentzVector) (subjets : List Subjet)
    (c : Constituent) :
    ∃ g, genMatchSubjets R top d subjets c = { c with genMatches := g } := by
  induction subjets generalizing c with
  | nil => exact ⟨c.genMatches, rfl⟩
  | cons sj rest ih =>
    simp only [genMatchSubjets]
    split
    · obtain ⟨g, hg⟩ := ih (c.addGenMatch top d)
      exact ⟨g, by rw [hg]; rfl⟩
    · exact ih c

theorem genMatchDaughters8_frame (R : Root) (subjets : List Subjet) (top : TLorentzVector)
    (ds : List TLorentzVector) (c : Constituent) :
    ∃ g, genMatchDaughters8 R subjets top ds c = { c with genMatches := g } := by
  induction ds generalizing c with
  | nil => exact ⟨c.genMatches, rfl⟩
  | cons d rest ih =>
    simp only [genMatchDaughters8]
    obtain ⟨g1, h1⟩ := genMatchSubjets_frame R top d subjets c
    obtain ⟨g, hg⟩ := ih (genMatchSubjets R top d subjets c)
    exact ⟨g, by rw [hg, h1]⟩

theorem genMatchTops8_frame (R : Root) (subjets : List Subjet)
    (daughters : List (List TLorentzVector)) (tops : List TLorentzVector) (k : Nat)
    (c : Constituent) :
    ∃ g, (genMatchTops8 R subjets daughters tops k c).1 = { c with genMatches := g } := by
  induction tops generalizing k c with
  | nil => exact ⟨c.genMatches, rfl⟩
  | cons t ts ih =>
    simp only [genMatchTops8]
    split
    · exact ⟨c.genMatches, rfl⟩
    · rename_i ds hds
      obtain ⟨g1, h1⟩ := genMatchDaughters8_frame R subjets t ds c
      obtain ⟨g, hg⟩ := ih (k + 1) (genMatchDaughters8 R subjets t ds c)
      exact ⟨g, by rw [hg, h1]⟩

theorem ak8_fill_frame (R : Root) (inp : ConstAK8Inputs) (i : Nat) (subjets : List Subjet)
    (c : Constituent) :
    ∃ td wd g, (inp.fill R i subjets c).1 = { c with topDisc := td, wDisc := wd, genMatches := g } := by
  have hset : ∀ (disc : Option (List ℚ)) (k : Constituent),
      (ConstAK8Inputs.setDisc disc i (fun k v => k.setTopDisc v) k).1 = k
      ∨ ∃ v, (ConstAK8Inputs.setDisc disc i (fun k v => k.setTopDisc v) k).1 = k.setTopDisc v := by
    intro disc k
    unfold ConstAK8Inputs.setDisc
    split
    · exact Or.inl rfl
    · split
      · exact Or.inr ⟨_, rfl⟩
      · exact Or.inl rfl
  have hsetW : ∀ (disc : Option (List ℚ)) (k : Constituent),
      (ConstAK8Inputs.setDisc disc i (fun k v => k.setWDisc v) k).1 = k
      ∨ ∃ v, (ConstAK8Inputs.setDisc disc i (fun k v => k.setWDisc v) k).1 = k.setWDisc v := by
    intro disc k
    unfold ConstAK8Inputs.setDisc
    split
    · exact Or.inl rfl
    · split
      · exact Or.inr ⟨_, rfl⟩
      · exact Or.inl rfl
  have h1 : ∃ td, (ConstAK8Inputs.setDisc inp.deepAK8Top_ i (fun k v => k.setTopDisc v) c).1
      = { c with topDisc := td } := by
    rcases hset inp.deepAK8Top_ c with h | ⟨v, h⟩
    · exact ⟨c.topDisc, by rw [h]⟩
    · exact ⟨some v, by rw [h]; rfl⟩
  obtain ⟨td, h1⟩ := h1
  unfold ConstAK8Inputs.fill
  split
  · rename_i c1 x hq
    rw [hq] at h1
    exact ⟨td, c.wDisc, c.genMatches, by rw [h1]⟩
  · rename_i c1 hq
    rw [hq] at h1
    simp only at h1
    have h2 : ∃ wd, (ConstAK8Inputs.setDisc inp.deepAK8W_ i (fun k v => k.setWDisc v) c1).1
        = { c1 with wDisc := wd } := by
      rcases hsetW inp.deepAK8W_ c1 with h | ⟨v, h⟩
      · exact ⟨c1.wDisc, by rw [h]⟩
      · exact ⟨some v, by rw [h]; rfl⟩
    obtain ⟨wd, h2⟩ := h2
    split
    · rename_i c2 x he
      rw [he] at h2
      exact ⟨td, wd, c.genMatches, by rw [h2, h1]⟩
    · rename_i c2 he
      rw [he] at h2
      simp only at h2
      have h3 : ∃ g, (inp.addGenMatches R subjets c2).1 = { c2 with genMatches := g } := by
        unfold ConstAK8Inputs.addGenMatches
        split
        · exact genMatchTops8_frame R subjets _ _ 0 c2
        · exact ⟨c2.genMatches, rfl⟩
      obtain ⟨g, h3⟩ := h3
      exact ⟨td, wd, g, by rw [h3, h2, h1]⟩

theorem ak8_emplace_ok (R : Root) (inp : ConstAK8Inputs) (i : Nat) (subjets : List Subjet)
    (c : Constituent) (h : inp.emplace R i subjets = .ok c) :
    ∃ p t1 t2 t3 m w, inp.jetsLVec_[i]? = some p ∧ inp.softDropMass_[i]? = some m
      ∧ c = ConstituentOf.mkAK8 p t1 t2 t3 m subjets w := by
  unfold ConstAK8Inputs.emplace at h
  split at h
  · split at h
    · rename_i p v1 v2 v3 m hp h1 h2 h3 hm
      exact ⟨p, v1, v2, v3, m, _, readAt_ok _ _ _ hp, readAt_ok _ _ _ hm, by cases h; rfl⟩
    · cases h
  · split at h
    · rename_i p m hp hm
      exact ⟨p, 0, 0, 0, m, _, readAt_ok _ _ _ hp, readAt_ok _ _ _ hm, by cases h; rfl⟩
    · cases h

theorem ak8_step_skip (R : Root) (inp : ConstAK8Inputs) (i : Nat)
    (h : inp.step R i = Step.skip) : isKept inp.filter_ i = false := by
  unfold ConstAK8Inputs.step at h
  split at h
  · cases h
  · rename_i hs; exact skipJet_ok_true _ _ hs
  · split at h
    · cases h
    · split at h
      · cases h
      · split at h <;> cases h

theorem ak8_step_appended (R : Root) (inp : ConstAK8Inputs) (i : Nat) (c : Constituent)
    (h : (inp.step R i).appended = some c) :
    isKept inp.filter_ i = true ∧ some c.p = inp.jetsLVec_[i]?
      ∧ c.softDropMass = inp.softDropMass_[i]?
      ∧ inp.findSubjets R i = .ok c.subjets := by
  unfold ConstAK8Inputs.step at h
  split at h
  · cases h
  · cases h
  · rename_i hs
    split at h
    · cases h
    · rename_i subjets hsub
      split at h
      · cases h
      · rename_i c0 he
        obtain ⟨p, t1, t2, t3, m, w, hp, hm, hc0⟩ := ak8_emplace_ok R inp i subjets c0 he
        obtain ⟨td, wd, g, hfr⟩ := ak8_fill_frame R inp i subjets c0
        have hc : c = (inp.fill R i subjets c0).1 := by
          split at h
          · rename_i c1 x hf; rw [hf]; simp [Step.appended] at h; exact h.symm
          · rename_i c1 hf; rw [hf]; simp [Step.appended] at h; exact h.symm
        refine ⟨skipJet_ok_false _ _ hs, ?_, ?_, ?_⟩
        · rw [hc, hfr, hp, hc0]; rfl
        · rw [hc, hfr, hm, hc0]; rfl
        · rw [hc, hfr, hc0]; exact hsub

/-! ## Filtering -/

theorem visited_sublist (step : Nat → Step) (idxs : List Nat) :
    (visited step idxs).Sublist idxs := by
  induction idxs with
  | nil => exact List.Sublist.slnil
  | cons i rest ih =>
    simp only [visited]
    split
    · exact ih.cons₂ i
    · exact (List.singleton_sublist.2 (List.mem_cons_self _ _))

theorem forall₂_filter_filterMap (P : Nat → Constituent → Prop) (kept : Nat → Bool)
    (step : Nat → Step) (idxs : List Nat)
    (h : ∀ i ∈ idxs, (kept i = false ∧ (step i).appended = none)
      ∨ (kept i = true ∧ ∃ c, (step i).appended = some c ∧ P i c)) :
    List.Forall₂ P (idxs.filter kept) (idxs.filterMap (fun i => (step i).appended)) := by
  induction idxs with
  | nil => exact List.Forall₂.nil
  | cons i rest ih =>
    have ih2 := ih (fun j hj => h j (List.mem_cons_of_mem _ hj))
    rcases h i (List.mem_cons_self _ _) with ⟨hk, ha⟩ | ⟨hk, c, ha, hp⟩
    · simpa [List.filter_cons, hk, List.filterMap_cons, ha] using ih2
    · simpa [List.filter_cons, hk, List.filterMap_cons, ha] using List.Forall₂.cons hp ih2

theorem keptIndices_length (f : List Nat) :
    (keptIndices (some f) f.length).length = f.countP (fun b => decide (b ≠ 0)) := by
  have hmap : (List.range f.length).map (fun i => f.getD i 0) = f := by
    apply List.ext_getElem
    · simp
    · intro n h1 h2
      simp [List.getD_eq_getElem?_getD, List.getElem?_eq_getElem h2]
  have hfm : ((List.range f.length).filter (isKept (some f))).map (fun i => f.getD i 0)
      = f.filter (fun b => decide (b ≠ 0)) := by
    conv_rhs => rw [← hmap]
    rw [List.filter_map]
    rfl
  rw [List.countP_eq_length_filter, ← hfm, List.length_map]
  rfl

theorem mem_keptIndices (filter : Option (List Nat)) (n i : Nat) :
    i ∈ keptIndices filter n ↔ i < n ∧ isKept filter i = true := by
  simp [keptIndices, List.mem_filter]

/-- What every run of a packaging loop leaves in the output vector, stated for
a loop given by its iterations: the constituents appended correspond, in
order, to a sublist `ks` of the kept indices, each satisfying `P`; and after a
run without fault `ks` is the whole list of kept indices and each satisfies
`Q` as well. -/
theorem runSteps_kept (P Q : Nat → Constituent → Prop) (filter : Option (List Nat))
    (step : Nat → Step) (n : Nat) (cs : List Constituent)
    (hskip : ∀ i, step i = Step.skip → isKept filter i = false)
    (happ : ∀ i c, (step i).appended = some c → isKept filter i = true ∧ P i c)
    (hpush : ∀ i c, step i = Step.push c → Q i c) :
    ∃ L ks, (runSteps step (List.range n) cs).constituents = cs ++ L
      ∧ ks.Sublist (keptIndices filter n)
      ∧ List.Forall₂ P ks L
      ∧ ((runSteps step (List.range n) cs).fault = none →
          ks = keptIndices filter n ∧ List.Forall₂ (fun i c => P i c ∧ Q i c) ks L) := by
  refine ⟨(visited step (List.range n)).filterMap (fun i => (step i).appended),
    (visited step (List.range n)).filter (fun i => ((step i).appended).isSome),
    runSteps_constituents step _ cs, ?_, ?_, ?_⟩
  · refine ((visited_sublist step _).filter _).trans ?_
    apply List.monotone_filter_right
    intro i hi
    cases ha : (step i).appended with
    | none => rw [ha] at hi; cases hi
    | some c => exact (happ i c ha).1
  · apply forall₂_filter_filterMap
    intro i _
    cases ha : (step i).appended with
    | none => exact Or.inl ⟨rfl, rfl⟩
    | some c => exact Or.inr ⟨rfl, c, rfl, (happ i c ha).2⟩
  · intro hnf
    rw [runSteps_fault] at hnf
    rw [visited_of_no_fault step _ hnf]
    have hall := List.findSome?_eq_none_iff.1 hnf
    have hcase : ∀ i ∈ List.range n, (isKept filter i = false ∧ (step i).appended = none)
        ∨ (isKept filter i = true ∧ ∃ c, (step i).appended = some c ∧ (P i c ∧ Q i c)) := by
      intro i hi
      have hf := hall i hi
      cases hs : step i with
      | skip => exact Or.inl ⟨hskip i hs, rfl⟩
      | push c =>
        have ha : (step i).appended = some c := by rw [hs]; rfl
        exact Or.inr ⟨(happ i c ha).1, c, by first | exact ha | rfl, (happ i c ha).2, hpush i c hs⟩
      | stopBefore x => rw [hs] at hf; cases hf
      | stopAfter c x => rw [hs] at hf; cases hf
    have hfilter : (List.range n).filter (fun i => ((step i).appended).isSome)
        = keptIndices filter n := by
      apply List.filter_congr
      intro i hi
      rcases hcase i hi with ⟨hk, ha⟩ | ⟨hk, c, ha, _⟩
      · rw [hk, ha]; rfl
      · rw [hk, ha]; rfl
    rw [hfilter]
    exact ⟨rfl, forall₂_filter_filterMap _ _ step _ hcase⟩

theorem ak4_package_kept (R : Root) (inp : ConstAK4Inputs) (cs : List Constituent) :
    ∃ L ks, (inp.packageConstituents R cs).constituents = cs ++ L
      ∧ ks.Sublist (keptIndices inp.filter_ inp.jetsLVec_.length)
      ∧ List.Forall₂ (fun i c => some c.p = inp.jetsLVec_[i]? ∧ c.bTagDisc = inp.btagFactors_[i]?)
          ks L
      ∧ ((inp.packageConstituents R cs).fault = none →
          ks = keptIndices inp.filter_ inp.jetsLVec_.length
          ∧ List.Forall₂ (fun i c =>
              (some c.p = inp.jetsLVec_[i]? ∧ c.bTagDisc = inp.btagFactors_[i]?)
              ∧ (c.index = some i
                ∧ ((inp.extraInputVariables_.map Prod.fst).Nodup →
                    ∀ e ∈ inp.extraInputVariables_, c.getExtraVar e.1 = e.2[i]?)
                ∧ (∀ tops daughters jet, inp.hadGenTops_ = some tops →
                    inp.hadGenTopDaughters_ = some daughters → inp.jetsLVec_[i]? = some jet →
                    c.genMatches = truthPairs R jet tops daughters))) ks L) := by
  unfold ConstAK4Inputs.packageConstituents
  cases hc : inp.lengthChecks with
  | some x =>
    exact ⟨[], [], by simp, List.nil_sublist _, List.Forall₂.nil, fun h => by simp at h⟩
  | none =>
    simp only [ak4_loop_eq_runSteps]
    exact runSteps_kept _ _ inp.filter_ (inp.step R) inp.jetsLVec_.length cs
      (ak4_step_skip R inp)
      (fun i c h => ⟨(ak4_step_appended R inp i c h).1, (ak4_step_appended R inp i c h).2⟩)
      (ak4_step_push R inp)

theorem ak8_package_kept (R : Root) (inp : ConstAK8Inputs) (cs : List Constituent) :
    ∃ L ks, (inp.packageConstituents R cs).constituents = cs ++ L
      ∧ ks.Sublist (keptIndices inp.filter_ inp.jetsLVec_.length)
      ∧ List.Forall₂ (fun i c => some c.p = inp.jetsLVec_[i]?
          ∧ c.softDropMass = inp.softDropMass_[i]? ∧ inp.findSubjets R i = .ok c.subjets) ks L
      ∧ ((inp.packageConstituents R cs).fault = none →
          ks = keptIndices inp.filter_ inp.jetsLVec_.length) := by
  unfold ConstAK8Inputs.packageConstituents
  cases hc : inp.lengthChecks with
  | some x =>
    exact ⟨[], [], by simp, List.nil_sublist _, List.Forall₂.nil, fun h => by simp at h⟩
  | none =>
    simp only [ak8_loop_eq_runSteps]
    obtain ⟨L, ks, h1, h2, h3, h4⟩ := runSteps_kept
      (fun i c => some c.p = inp.jetsLVec_[i]?
          ∧ c.softDropMass = inp.softDropMass_[i]? ∧ inp.findSubjets R i = .ok c.subjets)
      (fun _ _ => True) inp.filter_ (inp.step R) inp.jetsLVec_.length cs
      (ak8_step_skip R inp)
      (fun i c h => ⟨(ak8_step_appended R inp i c h).1, (ak8_step_appended R inp i c h).2⟩)
      (fun _ _ _ => trivial)
    exact ⟨L, ks, h1, h2, h3, fun h => (h4 h).1⟩

/-- C3 as stated fails: with one jet, no b-tag value and the filter `[1]` the
AK4 packager throws and appends nothing, although the filter has one non-zero
entry. -/
theorem filter_count_fails_on_throw :
    exAK4NoBtag.filter_ = some [1]
    ∧ [1].length = exAK4NoBtag.jetsLVec_.length
    ∧ (exAK4NoBtag.packageConstituents xAxisRoot []).constituents.length
        ≠ [1].countP (fun b => decide (b ≠ 0)) := by
  decide

/-- C3, amended. Filtering in the AK4 and AK8 packagers, for an input whose
filter array `f` has the length `N` of the jet array. Whatever the other
arrays hold and however the call ends, the constituents appended correspond in
order to indices `ks` at which the filter entry is not zero, the one of index
`i` carrying `jets[i]`: no constituent comes from an index whose entry is zero.
When the call completes without error, `ks` is the list of all indices with a
non-zero entry in increasing order, so the number of constituents appended is
the number of non-zero filter entries, and for AK4 the k-th appended
constituent carries `jets[i]`, `btag[i]` and index `i` for the k-th such
index `i`. -/
theorem filter_skips_exactly_the_zero_entries (R : Root) :
    (∀ (inp : ConstAK4Inputs) (cs : List Constituent) (f : List Nat),
      inp.filter_ = some f → f.length = inp.jetsLVec_.length →
      ∃ L ks, (inp.packageConstituents R cs).constituents = cs ++ L
        ∧ ks.Sublist ((List.range f.length).filter (fun i => decide (f.getD i 0 ≠ 0)))
        ∧ List.Forall₂ (fun i c => some c.p = inp.jetsLVec_[i]?) ks L
        ∧ ((inp.packageConstituents R cs).fault = none →
            ks = (List.range f.length).filter (fun i => decide (f.getD i 0 ≠ 0))
            ∧ L.length = f.countP (fun b => decide (b ≠ 0))
            ∧ List.Forall₂ (fun i c => some c.p = inp.jetsLVec_[i]?
                ∧ c.bTagDisc = inp.btagFactors_[i]? ∧ c.index = some i) ks L))
    ∧ (∀ (inp : ConstAK8Inputs) (cs : List Constituent) (f : List Nat),
      inp.filter_ = some f → f.length = inp.jetsLVec_.length →
      ∃ L ks, (inp.packageConstituents R cs).constituents = cs ++ L
        ∧ ks.Sublist ((List.range f.length).filter (fun i => decide (f.getD i 0 ≠ 0)))
        ∧ List.Forall₂ (fun i c => some c.p = inp.jetsLVec_[i]?) ks L
        ∧ ((inp.packageConstituents R cs).fault = none →
            ks = (List.range f.length).filter (fun i => decide (f.getD i 0 ≠ 0))
            ∧ L.length = f.countP (fun b => decide (b ≠ 0)))) := by
  constructor
  · intro inp cs f hf hlen
    obtain ⟨L, ks, h1, h2, h3, h4⟩ := ak4_package_kept R inp cs
    rw [hf, ← hlen] at h2 h4
    refine ⟨L, ks, h1, h2, h3.imp (fun _ _ h => h.1), fun hnf => ?_⟩
    obtain ⟨hks, hall⟩ := h4 hnf
    refine ⟨hks, ?_, hall.imp (fun _ _ h => ⟨h.1.1, h.1.2, h.2.1⟩)⟩
    rw [← h3.length_eq, hks]
    exact keptIndices_length f
  · intro inp cs f hf hlen
    obtain ⟨L, ks, h1, h2, h3, h4⟩ := ak8_package_kept R inp cs
    rw [hf, ← hlen] at h2 h4
    refine ⟨L, ks, h1, h2, h3.imp (fun _ _ h => h.1), fun hnf => ?_⟩
    have hks := h4 hnf
    refine ⟨hks, ?_⟩
    rw [← h3.length_eq, hks]
    exact keptIndices_length f

/-- Witness of C3 (amended): three jets and the filter `[1, 0, 2]`; both
packagers complete and append two constituents. -/
theorem filter_skips_exactly_the_zero_entries_witness :
    (exAK4Filtered.filter_ = some [1, 0, 2]
      ∧ [1, 0, 2].length = exAK4Filtered.jetsLVec_.length
      ∧ (exAK4Filtered.packageConstituents xAxisRoot []).fault = none
      ∧ (exAK4Filtered.packageConstituents xAxisRoot []).constituents.length = 2)
    ∧ (exAK8Filtered.filter_ = some [1, 0, 2]
      ∧ [1, 0, 2].length = exAK8Filtered.jetsLVec_.length
      ∧ (exAK8Filtered.packageConstituents xAxisRoot []).fault = none
      ∧ (exAK8Filtered.packageConstituents xAxisRoot []).constituents.length = 2) := by
  have h4ok : (exAK4Filtered.packageConstituents xAxisRoot []).fault = none := by decide
  have h8ok : (exAK8Filtered.packageConstituents xAxisRoot []).fault = none := by decide
  refine ⟨⟨rfl, rfl, h4ok, ?_⟩, ⟨rfl, rfl, h8ok, ?_⟩⟩
  · obtain ⟨L, ks, h1, _, _, h4⟩ :=
      (filter_skips_exactly_the_zero_entries xAxisRoot).1 exAK4Filtered [] [1, 0, 2] rfl rfl
    rw [h1, List.nil_append, (h4 h4ok).2.1]
    decide
  · obtain ⟨L, ks, h1, _, _, h4⟩ :=
      (filter_skips_exactly_the_zero_entries xAxisRoot).2 exAK8Filtered [] [1, 0, 2] rfl rfl
    rw [h1, List.nil_append, (h4 h8ok).2]
    decide

/-! ## Completed and interrupted iterations -/

/-- The output of a packaging loop splits into the constituents of the
iterations that ran to their end (`Lc`, from the kept indices `ksc`, each
satisfying `Q`) and at most one constituent left behind by the iteration a
fault interrupted (`Lp`, from `ksp`, satisfying `P`). Without fault nothing is
left behind and `ksc` is the whole list of kept indices. -/
theorem runSteps_split (P Q : Nat → Constituent → Prop) (kept : Nat → Bool)
    (step : Nat → Step) (idxs : List Nat) (cs : List Constituent)
    (hskip : ∀ i, step i = Step.skip → kept i = false)
    (happ : ∀ i c, (step i).appended = some c → kept i = true ∧ P i c)
    (hpush : ∀ i c, step i = Step.push c → Q i c) :
    ∃ Lc Lp ksc ksp, (runSteps step idxs cs).constituents = cs ++ (Lc ++ Lp)
      ∧ (ksc ++ ksp).Sublist (idxs.filter kept)
      ∧ List.Forall₂ Q ksc Lc
      ∧ List.Forall₂ P ksp Lp
      ∧ Lp.length ≤ 1
      ∧ ((runSteps step idxs cs).fault = none → Lp = [] ∧ ksc = idxs.filter kept) := by
  induction idxs generalizing cs with
  | nil =>
    exact ⟨[], [], [], [], by simp [runSteps], by simp, List.Forall₂.nil, List.Forall₂.nil,
      by simp, fun _ => ⟨rfl, rfl⟩⟩
  | cons i rest ih =>
    cases hs : step i with
    | skip =>
      have hk := hskip i hs
      obtain ⟨Lc, Lp, ksc, ksp, h1, h2, h3, h4, h5, h6⟩ := ih cs
      refine ⟨Lc, Lp, ksc, ksp, ?_, ?_, h3, h4, h5, ?_⟩
      · simpa [runSteps, hs] using h1
      · simpa [List.filter_cons, hk] using h2
      · intro hf
        simpa [List.filter_cons, hk] using h6 (by simpa [runSteps, hs] using hf)
    | push c =>
      have ha : (step i).appended = some c := by rw [hs]; rfl
      have hk := (happ i c ha).1
      obtain ⟨Lc, Lp, ksc, ksp, h1, h2, h3, h4, h5, h6⟩ := ih (cs ++ [c])
      refine ⟨c :: Lc, Lp, i :: ksc, ksp, ?_, ?_, List.Forall₂.cons (hpush i c hs) h3, h4, h5, ?_⟩
      · simpa [runSteps, hs] using h1
      · simpa [List.filter_cons, hk] using h2.cons₂ i
      · intro hf
        obtain ⟨e1, e2⟩ := h6 (by simpa [runSteps, hs] using hf)
        exact ⟨e1, by simp [List.filter_cons, hk, e2]⟩
    | stopBefore x =>
      exact ⟨[], [], [], [], by simp [runSteps, hs], by simp, List.Forall₂.nil, List.Forall₂.nil,
        by simp, fun hf => by simp [runSteps, hs] at hf⟩
    | stopAfter c x =>
      have ha : (step i).appended = some c := by rw [hs]; rfl
      obtain ⟨hk, hp⟩ := happ i c ha
      refine ⟨[], [c], [], [i], by simp [runSteps, hs], ?_, List.Forall₂.nil,
        List.Forall₂.cons hp List.Forall₂.nil, by simp, fun hf => by simp [runSteps, hs] at hf⟩
      simp [List.filter_cons, hk]

/-! ## Truth association in the AK4 packager -/

/-- C7. Truth association in the AK4 packager, generator-truth arrays
supplied. Every constituent whose loop iteration ran to its end, built from
jet `i`, holds exactly the associations `truthPairs`: one pair
(gen top `t`, daughter `d`) for each generator top `t` and each daughter `d`
of `t` with `DeltaR(jet_i, d) < 0.4`, tops in order and daughters in order
within a top, and no other pair; the comparison is strict, so a daughter at
`DeltaR` exactly 0.4 is left out. These constituents `Lc` are all that is
appended, but for at most one constituent `Lp` left behind by the iteration a
fault interrupted; a call that completes leaves none behind and builds one
constituent for every kept jet. -/
theorem ak4_truth_association (R : Root) (inp : ConstAK4Inputs) (cs : List Constituent)
    (tops : List TLorentzVector) (daughters : List (List TLorentzVector))
    (ht : inp.hadGenTops_ = some tops) (hd : inp.hadGenTopDaughters_ = some daughters) :
    (∃ Lc Lp ksc, (inp.packageConstituents R cs).constituents = cs ++ (Lc ++ Lp)
      ∧ List.Forall₂ (fun i c => ∃ jet, inp.jetsLVec_[i]? = some jet ∧ c.p = jet
          ∧ c.genMatches = truthPairs R jet tops daughters) ksc Lc
      ∧ Lp.length ≤ 1
      ∧ ((inp.packageConstituents R cs).fault = none →
          Lp = [] ∧ ksc = keptIndices inp.filter_ inp.jetsLVec_.length))
    ∧ (∀ jet t d : TLorentzVector, R.DeltaR jet d = 0.4 → truthPairs R jet [t] [[d]] = []) := by
  constructor
  · unfold ConstAK4Inputs.packageConstituents
    cases hc : inp.lengthChecks with
    | some x =>
      exact ⟨[], [], [], by simp, List.Forall₂.nil, by simp, fun h => by simp at h⟩
    | none =>
      simp only [ak4_loop_eq_runSteps]
      obtain ⟨Lc, Lp, ksc, ksp, h1, _, h3, _, h5, h6⟩ := runSteps_split
        (fun _ _ => True)
        (fun i c => ∃ jet, inp.jetsLVec_[i]? = some jet ∧ c.p = jet
          ∧ c.genMatches = truthPairs R jet tops daughters)
        (isKept inp.filter_) (inp.step R) (List.range inp.jetsLVec_.length) cs
        (ak4_step_skip R inp)
        (fun i c h => ⟨(ak4_step_appended R inp i c h).1, trivial⟩)
        (fun i c h => by
          have ha : (inp.step R i).appended = some c := by rw [h]; rfl
          have hp := (ak4_step_appended R inp i c ha).2.1
          exact ⟨c.p, hp.symm, rfl, (ak4_step_push R inp i c h).2.2 tops daughters c.p ht hd hp.symm⟩)
      exact ⟨Lc, Lp, ksc, h1, h3, h5, h6⟩
  · intro jet t d h
    have hnot : ¬ R.DeltaR jet d < 0.4 := by rw [h]; exact lt_irrefl _
    simp [truthPairs, hnot]

/-- Witness of C7: one jet and one generator top whose daughters lie at
`DeltaR` 0.3, exactly 0.4 and 0.5 from the jet. The call completes and the one
constituent built holds the single association with the daughter at 0.3. -/
theorem ak4_truth_association_witness :
    exAK4Truth.hadGenTops_ = some [genTopA]
    ∧ exAK4Truth.hadGenTopDaughters_ = some [[daughterNear, daughterEdge, daughterFar]]
    ∧ (exAK4Truth.packageConstituents (tableRoot exDeltaR) []).fault = none
    ∧ ∃ c, (exAK4Truth.packageConstituents (tableRoot exDeltaR) []).constituents = [c]
        ∧ c.genMatches = [(genTopA, daughterNear)] := by
  have hok : (exAK4Truth.packageConstituents (tableRoot exDeltaR) []).fault = none := by decide
  refine ⟨rfl, rfl, hok, ?_⟩
  obtain ⟨⟨Lc, Lp, ksc, h1, h2, _, h4⟩, _⟩ :=
    ak4_truth_association (tableRoot exDeltaR) exAK4Truth []
      [genTopA] [[daughterNear, daughterEdge, daughterFar]] rfl rfl
  obtain ⟨hLp, hks⟩ := h4 hok
  have hk : keptIndices exAK4Truth.filter_ exAK4Truth.jetsLVec_.length = [0] := by decide
  rw [hk] at hks
  subst hks hLp
  obtain ⟨c, rest, hc, hrest, rfl⟩ := List.forall₂_cons_left_iff.1 h2
  have hnil : rest = [] := by cases hrest; rfl
  subst hnil
  obtain ⟨jet, hj, _, hg⟩ := hc
  have hjet : jet = jetX := by
    have : exAK4Truth.jetsLVec_[0]? = some jetX := rfl
    rw [this] at hj
    exact (Option.some.inj hj).symm
  refine ⟨c, by simpa using h1, ?_⟩
  rw [hg, hjet]
  simp [truthPairs, tableRoot, exDeltaR, daughterNear, daughterEdge, daughterFar]
  norm_num

/-! ## Extra variables in the AK4 packager -/

theorem findSome?_range_first {β : Type} (g : Nat → Option β) (n i : Nat) (x : β)
    (hi : i < n) (hx : g i = some x) (hprev : ∀ j, j < i → g j = none) :
    (List.range n).findSome? g = some x := by
  induction n with
  | zero => omega
  | succ n ih =>
    rw [List.range_succ, List.findSome?_append]
    by_cases hlt : i < n
    · rw [ih hlt]; rfl
    · have hin : i = n := by omega
      subst hin
      have hnone : (List.range i).findSome? g = none :=
        List.findSome?_eq_none_iff.2 (fun j hj => hprev j (List.mem_range.1 hj))
      rw [hnone]
      simp [List.findSome?_cons, hx]

theorem ak4_step_fault (R : Root) (inp : ConstAK4Inputs) (i : Nat)
    (hi : i < inp.jetsLVec_.length) (hc : inp.lengthChecks = none)
    (hg : ∀ tops daughters, inp.hadGenTops_ = some tops →
      inp.hadGenTopDaughters_ = some daughters → tops.length ≤ daughters.length) :
    (inp.step R i).fault
      = if isKept inp.filter_ i = true then
          (inp.extraInputVariables_.find? (fun e => decide (e.2.length ≤ i))).map
            (fun e => missingExtraVar e.1 i)
        else none := by
  obtain ⟨h1, h2, h3⟩ := (ak4_lengthChecks_none inp).1 hc
  have hskip := skipJet_of_lt inp.filter_ i (fun f hf => by
    rw [(ak4_checkFilter_none inp).1 h2 f hf]; exact hi)
  unfold ConstAK4Inputs.step
  rw [hskip]
  cases hk : isKept inp.filter_ i with
  | false => simp [Step.fault]
  | true =>
    obtain ⟨c0, he⟩ := ak4_emplace_of_lt inp i hi h1
    simp only [Bool.not_true, he, ↓reduceIte]
    have hq := ak4_addQGL_of_lt inp i c0 hi h3
    have hx := addExtraVars_fault i inp.extraInputVariables_ (inp.addQGL i c0).1
    unfold ConstAK4Inputs.fill
    cases hqq : inp.addQGL i c0 with
    | mk c1 f1 =>
      rw [hqq] at hq hx
      simp only at hq hx
      subst hq
      simp only
      cases hxx : ConstAK4Inputs.addExtraVars i inp.extraInputVariables_ c1 with
      | mk c2 f2 =>
        rw [hxx] at hx
        simp only at hx
        cases f2 with
        | some x => simp only [Step.fault]; exact hx
        | none =>
          simp only
          rw [← hx]
          have hgen : (inp.addGenMatches R i (c2.setIndex i)).2 = none := by
            unfold ConstAK4Inputs.addGenMatches
            split
            · rename_i tops daughters ht hd
              rw [readAt_of_lt _ _ hi]
              exact genMatchTops_no_fault R _ daughters tops 0 _ (by
                simpa using hg tops daughters ht hd)
            · rfl
          cases hgg : inp.addGenMatches R i (c2.setIndex i) with
          | mk c3 f3 =>
            rw [hgg] at hgen
            simp only at hgen
            subst hgen
            rfl

/-- C4. Extra variables in the AK4 packager, for an input whose b-tag,
quark-gluon and filter arrays have the length `N` of the jet array (and whose
generator-truth arrays, if supplied, list daughters for every top), the
registered names being distinct as in a `std::map`.

* The call ends with a fault, and equally with the missing-extra-variable
  `TTException`, if and only if some jet index `i < N` that is not filtered out
  has a registered array of length `<= i`.
* For the smallest such index `i`, the fault is the `TTException` whose text
  names `i` and the first registered variable (in map order) whose array has
  length `<= i`.
* Rows at filtered-out indices are never read: when every index at or beyond
  the length of an array is filtered out, there is no fault.
* On success the constituents appended match the kept indices in order, and
  the one from index `i` holds `extraVar[name] = array[i]` for every
  registered name. -/
theorem ak4_extra_variables (R : Root) (inp : ConstAK4Inputs) (cs : List Constituent)
    (hb : inp.btagFactors_.length = inp.jetsLVec_.length)
    (hq : ∀ q, inp.qgLikelihood_ = some q → q.length = inp.jetsLVec_.length)
    (hf : ∀ f, inp.filter_ = some f → f.length = inp.jetsLVec_.length)
    (hs : ∀ m d a1 a2, inp.qgMult_ = some m → inp.qgPtD_ = some d → inp.qgAxis1_ = some a1 →
      inp.qgAxis2_ = some a2 →
      m.length = inp.jetsLVec_.length ∧ d.length = inp.jetsLVec_.length
        ∧ a1.length = inp.jetsLVec_.length ∧ a2.length = inp.jetsLVec_.length)
    (hg : ∀ tops daughters, inp.hadGenTops_ = some tops →
      inp.hadGenTopDaughters_ = some daughters → tops.length ≤ daughters.length)
    (hnd : (inp.extraInputVariables_.map Prod.fst).Nodup) :
    (((inp.packageConstituents R cs).fault ≠ none
        ↔ ∃ i, i < inp.jetsLVec_.length ∧ isKept inp.filter_ i = true
            ∧ ∃ e ∈ inp.extraInputVariables_, e.2.length ≤ i)
      ∧ ((∃ (name : String) (i : Nat), (inp.packageConstituents R cs).fault
            = some (Fault.TTException
                ("Extra variable " ++ name ++ "[" ++ toString i ++ "] is not found!!!!!!!")))
        ↔ ∃ i, i < inp.jetsLVec_.length ∧ isKept inp.filter_ i = true
            ∧ ∃ e ∈ inp.extraInputVariables_, e.2.length ≤ i))
    ∧ (∀ i, i < inp.jetsLVec_.length → isKept inp.filter_ i = true →
        (∃ e ∈ inp.extraInputVariables_, e.2.length ≤ i) →
        (∀ j, j < i → isKept inp.filter_ j = true →
          ∀ e ∈ inp.extraInputVariables_, j < e.2.length) →
        ∃ name arr,
          inp.extraInputVariables_.find? (fun e => decide (e.2.length ≤ i)) = some (name, arr)
          ∧ (inp.packageConstituents R cs).fault
            = some (Fault.TTException
                ("Extra variable " ++ name ++ "[" ++ toString i ++ "] is not found!!!!!!!")))
    ∧ ((∀ e ∈ inp.extraInputVariables_, ∀ i, e.2.length ≤ i → i < inp.jetsLVec_.length →
          isKept inp.filter_ i = false) →
        (inp.packageConstituents R cs).fault = none)
    ∧ ((inp.packageConstituents R cs).fault = none →
        ∃ L, (inp.packageConstituents R cs).constituents = cs ++ L
          ∧ List.Forall₂ (fun i c => c.index = some i
              ∧ ∀ e ∈ inp.extraInputVariables_, c.getExtraVar e.1 = e.2[i]?)
            (keptIndices inp.filter_ inp.jetsLVec_.length) L) := by
  have hc : inp.lengthChecks = none :=
    (ak4_lengthChecks_none inp).2 ⟨(ak4_checkBtagQGL_none inp).2 ⟨hb, hq⟩,
      (ak4_checkFilter_none inp).2 hf, (ak4_checkQGLShape_none inp).2 hs⟩
  have hfault : (inp.packageConstituents R cs).fault
      = (List.range inp.jetsLVec_.length).findSome? (fun i => (inp.step R i).fault) := by
    simp only [ConstAK4Inputs.packageConstituents, hc, ak4_loop_eq_runSteps, runSteps_fault]
  have hstep := fun i hi => ak4_step_fault R inp i hi hc hg
  have hiff : (inp.packageConstituents R cs).fault ≠ none
      ↔ ∃ i, i < inp.jetsLVec_.length ∧ isKept inp.filter_ i = true
          ∧ ∃ e ∈ inp.extraInputVariables_, e.2.length ≤ i := by
    rw [hfault, ne_eq, List.findSome?_eq_none_iff]
    push_neg
    constructor
    · rintro ⟨i, hi, hne⟩
      have hi2 := List.mem_range.1 hi
      rw [hstep i hi2] at hne
      by_cases hk : isKept inp.filter_ i = true
      · rw [if_pos hk] at hne
        cases hfind : inp.extraInputVariables_.find? (fun e => decide (e.2.length ≤ i)) with
        | none => rw [hfind] at hne; exact absurd rfl hne
        | some e =>
          exact ⟨i, hi2, hk, e, List.mem_of_find?_eq_some hfind,
            by simpa using List.find?_some hfind⟩
      · rw [if_neg hk] at hne; exact absurd rfl hne
    · rintro ⟨i, hi, hk, e, he, hlen⟩
      refine ⟨i, List.mem_range.2 hi, ?_⟩
      rw [hstep i hi, if_pos hk]
      cases hfind : inp.extraInputVariables_.find? (fun e => decide (e.2.length ≤ i)) with
      | none =>
        have := List.find?_eq_none.1 hfind e he
        simp at this
        omega
      | some e2 => simp
  have hmsg : ∀ i, i < inp.jetsLVec_.length → isKept inp.filter_ i = true →
      (∃ e ∈ inp.extraInputVariables_, e.2.length ≤ i) →
      (∀ j, j < i → isKept inp.filter_ j = true →
        ∀ e ∈ inp.extraInputVariables_, j < e.2.length) →
      ∃ name arr,
        inp.extraInputVariables_.find? (fun e => decide (e.2.length ≤ i)) = some (name, arr)
        ∧ (inp.packageConstituents R cs).fault
          = some (Fault.TTException
              ("Extra variable " ++ name ++ "[" ++ toString i ++ "] is not found!!!!!!!")) := by
    intro i hi hk hex hmin
    obtain ⟨e, he, hlen⟩ := hex
    cases hfind : inp.extraInputVariables_.find? (fun e => decide (e.2.length ≤ i)) with
    | none =>
      have := List.find?_eq_none.1 hfind e he
      simp at this
      omega
    | some e2 =>
      refine ⟨e2.1, e2.2, rfl, ?_⟩
      rw [hfault]
      apply findSome?_range_first _ _ i _ hi
      · rw [hstep i hi, if_pos hk, hfind]; rfl
      · intro j hj
        rw [hstep j (lt_trans hj hi)]
        by_cases hkj : isKept inp.filter_ j = true
        · rw [if_pos hkj]
          have hnone : inp.extraInputVariables_.find? (fun e => decide (e.2.length ≤ j)) = none := by
            apply List.find?_eq_none.2
            intro e3 he3
            have := hmin j hj hkj e3 he3
            simp
            omega
          rw [hnone]; rfl
        · rw [if_neg hkj]
  have hiff2 : (∃ (name : String) (i : Nat), (inp.packageConstituents R cs).fault
        = some (Fault.TTException
            ("Extra variable " ++ name ++ "[" ++ toString i ++ "] is not found!!!!!!!")))
      ↔ ∃ i, i < inp.jetsLVec_.length ∧ isKept inp.filter_ i = true
          ∧ ∃ e ∈ inp.extraInputVariables_, e.2.length ≤ i := by
    constructor
    · rintro ⟨name, i, h⟩
      exact hiff.1 (by rw [h]; simp)
    · intro hex
      classical
      have hi0 := Nat.find_spec hex
      obtain ⟨name, arr, _, hfl⟩ := hmsg (Nat.find hex) hi0.1 hi0.2.1 hi0.2.2 (by
        intro j hj hkj e he
        by_contra hge
        exact Nat.find_min hex hj ⟨lt_trans hj hi0.1, hkj, e, he, not_lt.mp hge⟩)
      exact ⟨name, Nat.find hex, hfl⟩
  refine ⟨⟨hiff, hiff2⟩, hmsg, ?_, ?_⟩
  · intro hall
    by_contra hne
    obtain ⟨i, hi, hk, e, he, hlen⟩ := hiff.1 hne
    rw [hall e he i hlen hi] at hk
    cases hk
  · intro hok
    obtain ⟨L, ks, h1, _, _, h4⟩ := ak4_package_kept R inp cs
    obtain ⟨hks, hall⟩ := h4 hok
    subst hks
    exact ⟨L, h1, hall.imp (fun i c h => ⟨h.2.1, h.2.2.1 hnd⟩)⟩

/-- Witness of C4: three jets, `"a"` with three rows and `"b"` with two. With
the last jet filtered out the call completes; without filter it throws,
naming `b` and index 2. -/
theorem ak4_extra_variables_witness :
    ((exAK4ExtraOk.packageConstituents xAxisRoot []).fault = none
      ∧ ∃ L, (exAK4ExtraOk.packageConstituents xAxisRoot []).constituents = [] ++ L
          ∧ List.Forall₂ (fun i c => c.index = some i
              ∧ ∀ e ∈ exAK4ExtraOk.extraInputVariables_, c.getExtraVar e.1 = e.2[i]?)
            (keptIndices exAK4ExtraOk.filter_ exAK4ExtraOk.jetsLVec_.length) L)
    ∧ (exAK4ExtraShort.packageConstituents xAxisRoot []).fault
        = some (Fault.TTException "Extra variable b[2] is not found!!!!!!!") := by
  have hok := ak4_extra_variables xAxisRoot exAK4ExtraOk [] (by decide)
    (by intro q h; cases h) (by intro f h; cases h; rfl)
    (by intro m d a1 a2 h; cases h) (by intro t d h; cases h) (by decide)
  have hshort := ak4_extra_variables xAxisRoot exAK4ExtraShort [] (by decide)
    (by intro q h; cases h) (by intro f h; cases h)
    (by intro m d a1 a2 h; cases h) (by intro t d h; cases h) (by decide)
  have hnone : (exAK4ExtraOk.packageConstituents xAxisRoot []).fault = none :=
    hok.2.2.1 (by decide)
  refine ⟨⟨hnone, hok.2.2.2 hnone⟩, ?_⟩
  obtain ⟨name, arr, hfind, hfault⟩ :=
    hshort.2.1 2 (by decide) (by decide) (by decide) (by decide)
  have hb : exAK4ExtraShort.extraInputVariables_.find? (fun e => decide (e.2.length ≤ 2))
      = some ("b", [20, 21]) := by decide
  rw [hb] at hfind
  have hname : name = "b" := by
    have := Option.some.inj hfind
    exact (congrArg Prod.fst this).symm
  rw [hfault, hname]
  decide

/-! ## Subjets of the merged-jet constituents -/

theorem explicitLoop_length (inp : ConstAK8Inputs) (i : Nat) (l : List (Nat × TLorentzVector))
    (acc r : List Subjet) (h : inp.explicitLoop i l acc = .ok r) :
    r.length = acc.length + l.length := by
  induction l generalizing acc with
  | nil => simp only [ConstAK8Inputs.explicitLoop] at h; cases h; simp
  | cons e rest ih =>
    obtain ⟨iSJ, p⟩ := e
    simp only [ConstAK8Inputs.explicitLoop] at h
    split at h
    · cases h
    · rw [ih _ h]; simp; omega

theorem keepPair_length (subjets : List Subjet) (st : PairState) (r : List Subjet)
    (h : keepPair subjets st = .ok r) : r.length = 2 := by
  unfold keepPair at h
  split at h
  · cases h; rfl
  · cases h

theorem ak8_findSubjets_length (R : Root) (inp : ConstAK8Inputs) (i : Nat)
    (subjets : List Subjet) (h : inp.findSubjets R i = .ok subjets) :
    (inp.vecSubjetsLVec_ = none → subjets.length ≤ 2)
    ∧ (∀ vec, inp.vecSubjetsLVec_ = some vec →
        ∃ own, vec[i]? = some own ∧ subjets.length = own.length) := by
  unfold ConstAK8Inputs.findSubjets at h
  cases hv : inp.vecSubjetsLVec_ with
  | some vec =>
    refine ⟨fun hn => (by cases hn), fun vec2 hvec => ?_⟩
    cases hvec
    rw [hv] at h
    simp only at h
    split at h
    · cases h
    · rename_i own hown
      exact ⟨own, readAt_ok _ _ _ hown, by
        rw [explicitLoop_length inp i _ _ _ h]; simp [List.enum]⟩
  | none =>
    refine ⟨fun _ => ?_, fun vec hvec => (by cases hvec)⟩
    rw [hv] at h
    simp only at h
    split at h
    · split at h
      · cases h
      · split at h
        · cases h
        · split at h
          · rw [keepPair_length _ _ _ h]
          · rename_i hle
            cases h
            omega
    · cases h; simp

/-- C6 as stated fails: under the explicit policy a fat jet supplied with
three subjets yields, without any fault, a constituent with three subjets. -/
theorem explicit_policy_keeps_three_subjets :
    (exAK8ThreeSubjets.packageConstituents xAxisRoot []).fault = none
    ∧ (exAK8ThreeSubjets.packageConstituents xAxisRoot []).constituents.map
        (fun c => c.subjets.length) = [3] := by
  decide

/-- C6, amended. Every merged-jet constituent the AK8 packager appends comes
from a kept jet index `i`; under the shared-pool policy (and when no subjets
are supplied) its subjet list has length 0, 1 or 2, and under the explicit
policy it has exactly as many subjets as the list supplied for jet `i`, so
its length is 0, 1 or 2 whenever that list has at most two entries. -/
theorem ak8_subjet_count (R : Root) (inp : ConstAK8Inputs) (cs : List Constituent) :
    ∃ L ks, (inp.packageConstituents R cs).constituents = cs ++ L
      ∧ ks.Sublist (keptIndices inp.filter_ inp.jetsLVec_.length)
      ∧ List.Forall₂ (fun i c =>
          (inp.vecSubjetsLVec_ = none → c.subjets.length ≤ 2)
          ∧ (∀ vec, inp.vecSubjetsLVec_ = some vec →
              ∃ own, vec[i]? = some own ∧ c.subjets.length = own.length
                ∧ (own.length ≤ 2 → c.subjets.length ≤ 2))) ks L := by
  obtain ⟨L, ks, h1, h2, h3, _⟩ := ak8_package_kept R inp cs
  refine ⟨L, ks, h1, h2, h3.imp (fun i c h => ?_)⟩
  obtain ⟨ha, hb⟩ := ak8_findSubjets_length R inp i c.subjets h.2.2
  refine ⟨ha, fun vec hvec => ?_⟩
  obtain ⟨own, ho, hl⟩ := hb vec hvec
  exact ⟨own, ho, hl, fun h2 => by omega⟩

/-! ## Unchecked array lengths in the AK8 packager -/

theorem ak8_anySubjetSizeDiffers_of_mem (inp : ConstAK8Inputs) (pool : List TLorentzVector)
    (hp : inp.subjetsLVec_ = some pool) (attrs : List (Option (List ℚ))) (a : List ℚ)
    (ha : some a ∈ attrs) (hne : a.length ≠ pool.length) :
    inp.anySubjetSizeDiffers attrs = .ok true := by
  induction attrs with
  | nil => cases ha
  | cons attr rest ih =>
    simp only [ConstAK8Inputs.anySubjetSizeDiffers]
    cases hattr : attr with
    | none =>
      have hmem : some a ∈ rest := by
        rcases List.mem_cons.1 ha with h | h
        · rw [hattr] at h; cases h
        · exact h
      simp only [ConstAK8Inputs.subjetSizeDiffers]
      exact ih hmem
    | some b =>
      simp only [ConstAK8Inputs.subjetSizeDiffers, hp]
      by_cases hb : pool.length = b.length
      · have hmem : some a ∈ rest := by
          rcases List.mem_cons.1 ha with h | h
          · rw [hattr] at h
            cases h
            exact absurd hb.symm hne
          · exact h
        simp only [ne_eq, hb, not_true_eq_false, decide_False]
        exact ih hmem
      · simp [hb]

/-- Checked mismatches in the AK8 packager: a soft-drop mass array or a filter
whose length differs from the jet array, or a subjet attribute array whose
length differs from the subjet pool, makes `packageConstituents` throw before
anything is appended. -/
theorem ak8_checked_mismatch_throws (R : Root) (inp : ConstAK8Inputs) (cs : List Constituent)
    (h : inp.softDropMass_.length ≠ inp.jetsLVec_.length
      ∨ (∃ f, inp.filter_ = some f ∧ f.length ≠ inp.jetsLVec_.length)
      ∨ (∃ pool a, inp.subjetsLVec_ = some pool
          ∧ some a ∈ [inp.subjetsBtag_, inp.subjetsMult_, inp.subjetsPtD_, inp.subjetsAxis1_,
              inp.subjetsAxis2_]
          ∧ a.length ≠ pool.length)) :
    ∃ msg, inp.packageConstituents R cs = ⟨cs, some (Fault.TTException msg)⟩ := by
  unfold ConstAK8Inputs.packageConstituents ConstAK8Inputs.lengthChecks
  by_cases h1 : inp.jetsLVec_.length = inp.softDropMass_.length
  · have hc1 : inp.checkSoftDrop = none := by simp [ConstAK8Inputs.checkSoftDrop, h1]
    rw [hc1]
    simp only
    cases hf : inp.filter_ with
    | some f =>
      by_cases h2 : inp.jetsLVec_.length = f.length
      · have hc2 : inp.checkFilter = none := by simp [ConstAK8Inputs.checkFilter, hf, h2]
        rw [hc2]
        simp only
        rcases h with h | ⟨f2, hf2, hne⟩ | ⟨pool, a, hp, ha, hne⟩
        · exact absurd h1.symm h
        · rw [hf] at hf2; cases hf2; exact absurd h2.symm hne
        · simp [ConstAK8Inputs.checkSubjets,
            ak8_anySubjetSizeDiffers_of_mem inp pool hp _ a ha hne]
      · exact ⟨"Unequal vector size between filter and jet vectors!!!!!!!\n"
          ++ toString inp.jetsLVec_.length ++ "\t" ++ toString f.length,
          by simp [ConstAK8Inputs.checkFilter, hf, h2]⟩
    | none =>
      have hc2 : inp.checkFilter = none := by simp [ConstAK8Inputs.checkFilter, hf]
      rw [hc2]
      simp only
      rcases h with h | ⟨f2, hf2, hne⟩ | ⟨pool, a, hp, ha, hne⟩
      · exact absurd h1.symm h
      · rw [hf] at hf2; cases hf2
      · simp [ConstAK8Inputs.checkSubjets,
          ak8_anySubjetSizeDiffers_of_mem inp pool hp _ a ha hne]
  · exact ⟨"Unequal AK8 vector size!!!!!!!\n", by simp [ConstAK8Inputs.checkSoftDrop, h1]⟩

/-- C2, evaluation at the failing input: with one fat jet, one soft-drop mass
and an empty `tau1` array the three safety checks pass, no `TTException` is
thrown, and the loop reads `(*tau1_)[0]` past the end of the array. -/
theorem ak8_short_tau_is_not_checked :
    exAK8ShortTau.lengthChecks = none
    ∧ exAK8ShortTau.packageConstituents xAxisRoot []
        = ⟨[], some Fault.undefinedBehaviour⟩ := by
  decide

/-! ## The subjet pair search -/

theorem xAxisRoot_M_at_rest (e : ℚ) : xAxisRoot.M ⟨0, 0, 0, e⟩ = |e| := by
  have h : ¬ e * e < 0 := not_lt.mpr (mul_self_nonneg e)
  simp [xAxisRoot, signedSqrt, TLorentzVector.M2, h, Rat.sqrt_eq]

/-- C5, evaluation at the failing input: one fat jet and three pool subjets,
all matched. The residual mass is 2999997 for the pair (0,1), 1999999 for
(0,2) and 1999998 for (1,2); none is below the initial `min_diff = 999999`, so
the search keeps the pair (0,1), whose residual is the largest of the three. -/
theorem pair_search_keeps_non_minimal_pair :
    exAK8Heavy.poolLoop xAxisRoot ⟨2, 0, 0, 3000000⟩
        [(0, ⟨1, 0, 0, 1⟩), (1, ⟨1, 0, 0, 2⟩), (2, ⟨1, 0, 0, 1000000⟩)] []
      = .ok [ConstituentOf.mkTyped ⟨1, 0, 0, 1⟩ ConstituentType.AK8SUBJET,
             ConstituentOf.mkTyped ⟨1, 0, 0, 2⟩ ConstituentType.AK8SUBJET,
             ConstituentOf.mkTyped ⟨1, 0, 0, 1000000⟩ ConstituentType.AK8SUBJET]
    ∧ exAK8Heavy.findSubjets xAxisRoot 0
      = .ok [ConstituentOf.mkTyped ⟨1, 0, 0, 1⟩ ConstituentType.AK8SUBJET,
             ConstituentOf.mkTyped ⟨1, 0, 0, 2⟩ ConstituentType.AK8SUBJET]
    ∧ |xAxisRoot.M ((⟨2, 0, 0, 3000000⟩ : TLorentzVector) - ⟨1, 0, 0, 1⟩ - ⟨1, 0, 0, 2⟩)|
        = 2999997
    ∧ |xAxisRoot.M ((⟨2, 0, 0, 3000000⟩ : TLorentzVector) - ⟨1, 0, 0, 1⟩ - ⟨1, 0, 0, 1000000⟩)|
        = 1999999
    ∧ |xAxisRoot.M ((⟨2, 0, 0, 3000000⟩ : TLorentzVector) - ⟨1, 0, 0, 2⟩ - ⟨1, 0, 0, 1000000⟩)|
        = 1999998 := by
  have r01 : ((⟨2, 0, 0, 3000000⟩ : TLorentzVector) - ⟨1, 0, 0, 1⟩ - ⟨1, 0, 0, 2⟩)
      = ⟨0, 0, 0, 2999997⟩ := by
    show TLorentzVector.sub (TLorentzVector.sub _ _) _ = _
    simp only [TLorentzVector.sub]; norm_num
  have r02 : ((⟨2, 0, 0, 3000000⟩ : TLorentzVector) - ⟨1, 0, 0, 1⟩ - ⟨1, 0, 0, 1000000⟩)
      = ⟨0, 0, 0, 1999999⟩ := by
    show TLorentzVector.sub (TLorentzVector.sub _ _) _ = _
    simp only [TLorentzVector.sub]; norm_num
  have r12 : ((⟨2, 0, 0, 3000000⟩ : TLorentzVector) - ⟨1, 0, 0, 2⟩ - ⟨1, 0, 0, 1000000⟩)
      = ⟨0, 0, 0, 1999998⟩ := by
    show TLorentzVector.sub (TLorentzVector.sub _ _) _ = _
    simp only [TLorentzVector.sub]; norm_num
  have hpool : exAK8Heavy.poolLoop xAxisRoot ⟨2, 0, 0, 3000000⟩
        [(0, ⟨1, 0, 0, 1⟩), (1, ⟨1, 0, 0, 2⟩), (2, ⟨1, 0, 0, 1000000⟩)] []
      = .ok [ConstituentOf.mkTyped ⟨1, 0, 0, 1⟩ ConstituentType.AK8SUBJET,
             ConstituentOf.mkTyped ⟨1, 0, 0, 2⟩ ConstituentType.AK8SUBJET,
             ConstituentOf.mkTyped ⟨1, 0, 0, 1000000⟩ ConstituentType.AK8SUBJET] := by
    have h08 : (0 : ℚ) < 0.8 := by norm_num
    simp [ConstAK8Inputs.poolLoop, xAxisRoot, h08, ConstAK8Inputs.poolSubjet, exAK8Heavy,
      setFrom, bind, Except.bind]
  refine ⟨hpool, ?_, ?_, ?_, ?_⟩
  · have hsearch : pairSearch xAxisRoot ⟨2, 0, 0, 3000000⟩
        [ConstituentOf.mkTyped ⟨1, 0, 0, 1⟩ ConstituentType.AK8SUBJET,
         ConstituentOf.mkTyped ⟨1, 0, 0, 2⟩ ConstituentType.AK8SUBJET,
         ConstituentOf.mkTyped ⟨1, 0, 0, 1000000⟩ ConstituentType.AK8SUBJET]
        = ⟨999999, 0, 1⟩ := by
      simp only [pairSearch, List.enum, List.enumFrom, pairOuter, pairInner,
        ConstituentOf.mkTyped, r01, r02, r12, xAxisRoot_M_at_rest]
      norm_num
    have hjet : readAt exAK8Heavy.jetsLVec_ 0 = .ok ⟨2, 0, 0, 3000000⟩ := rfl
    have hpool2 : exAK8Heavy.poolLoop xAxisRoot ⟨2, 0, 0, 3000000⟩
        (List.enum [⟨1, 0, 0, 1⟩, ⟨1, 0, 0, 2⟩, ⟨1, 0, 0, 1000000⟩]) [] = _ := hpool
    simp only [ConstAK8Inputs.findSubjets, exAK8Heavy, readAt, List.getElem?_cons_zero]
    have hpool3 := hpool2
    simp only [exAK8Heavy] at hpool3
    rw [hpool3]
    simp only [List.length_cons, List.length_nil]
    rw [if_pos (by norm_num), hsearch]
    rfl
  · rw [r01, xAxisRoot_M_at_rest]; norm_num
  · rw [r02, xAxisRoot_M_at_rest]; norm_num
  · rw [r12, xAxisRoot_M_at_rest]; norm_num

/-! ## The HEP requirements module: what `run` appends -/

theorem promoteLoop_eq (f : TopObject → Bool)
    (loop : List (Nat × TopObject) → List Nat → List Nat)
    (hnil : ∀ tops, loop [] tops = tops)
    (hcons : ∀ i c rest tops,
      loop ((i, c) :: rest) tops = loop rest (if f c = true then tops ++ [i] else tops))
    (cands : List TopObject) (k : Nat) (tops : List Nat) :
    loop (cands.enumFrom k) tops
      = tops ++ ((List.range cands.length).filter
          (fun i => decide ((cands[i]?).map f = some true))).map (· + k) := by
  induction cands generalizing k tops with
  | nil => simp [hnil]
  | cons c rest ih =>
    simp only [List.enumFrom_cons, hcons, ih, List.length_cons,
      List.range_succ_eq_map, List.filter_cons, List.filter_map, List.map_map]
    cases hc : f c
    · simp [Function.comp_def, hc, Nat.add_comm, Nat.add_left_comm]
    · simp [Function.comp_def, hc, Nat.add_comm, Nat.add_left_comm]

theorem hep_runLoop_eq (R : Root) (E : External) (m : TTMHEPRequirements)
    (cands : List TopObject) (k : Nat) (tops : List Nat) :
    TTMHEPRequirements.runLoop R E m (cands.enumFrom k) tops
      = tops ++ ((List.range cands.length).filter
          (fun i => decide ((cands[i]?).map (fun c =>
            TTMHEPRequirements.passHEPRequirments R E m c
              && TTMHEPRequirements.passBrequirements R E m c) = some true))).map (· + k) :=
  promoteLoop_eq _ (TTMHEPRequirements.runLoop R E m) (fun _ => rfl)
    (fun _ _ _ _ => rfl) cands k tops

theorem hep_run_tops (R : Root) (E : External) (m : TTMHEPRequirements)
    (tt : TopTaggerResults) :
    (TTMHEPRequirements.run R E m tt).tops
      = tt.tops ++ (List.range tt.topCandidates.length).filter
          (fun i => decide ((tt.topCandidates[i]?).map (fun c =>
            TTMHEPRequirements.passHEPRequirments R E m c
              && TTMHEPRequirements.passBrequirements R E m c) = some true)) := by
  simp [TTMHEPRequirements.run, List.enum, hep_runLoop_eq]

/-! ## Quotients of masses -/

theorem quotient_of_ne (x y : ℚ) (h : y ≠ 0) :
    TTMHEPRequirements.quotient x y = some (x / y) := by
  simp [TTMHEPRequirements.quotient, h]

theorem quotient_zero (x : ℚ) : TTMHEPRequirements.quotient x 0 = none := by
  simp [TTMHEPRequirements.quotient]

theorem hep_criterionA_iff (E : External) (m : TTMHEPRequirements) (m12 m23 m13 m123 : ℚ) :
    TTMHEPRequirements.criterionA E m m12 m23 m13 m123 = true
      ↔ m12 ≠ 0 ∧ m123 ≠ 0 ∧ 0.2 < E.atan (m13 / m12) ∧ E.atan (m13 / m12) < 1.3
          ∧ m.Rmin_ < m23 / m123 ∧ m23 / m123 < m.Rmax_ := by
  by_cases h1 : m12 = 0
  · simp [TTMHEPRequirements.criterionA, quotient_zero, h1]
  · by_cases h2 : m123 = 0
    · simp [TTMHEPRequirements.criterionA, quotient_zero, quotient_of_ne _ _ h1, h2]
    · simp [TTMHEPRequirements.criterionA, quotient_of_ne _ _ h1, quotient_of_ne _ _ h2, h1, h2,
        and_assoc]

theorem hep_criterionB_iff (m : TTMHEPRequirements) (m12 m23 m13 m123 : ℚ) :
    TTMHEPRequirements.criterionB m m12 m23 m13 m123 = true
      ↔ m12 ≠ 0 ∧ m123 ≠ 0
          ∧ m.Rmin_ ^ 2 * (1 + (m13 / m12) ^ 2) < 1 - (m23 / m123) ^ 2
          ∧ 1 - (m23 / m123) ^ 2 < m.Rmax_ ^ 2 * (1 + (m13 / m12) ^ 2) := by
  by_cases h1 : m12 = 0
  · simp [TTMHEPRequirements.criterionB, quotient_zero, h1]
  · by_cases h2 : m123 = 0
    · simp [TTMHEPRequirements.criterionB, quotient_zero, quotient_of_ne _ _ h1, h2]
    · simp [TTMHEPRequirements.criterionB, quotient_of_ne _ _ h1, quotient_of_ne _ _ h2, h1, h2]

theorem hep_criterionC_iff (m : TTMHEPRequirements) (m12 m23 m13 m123 : ℚ) :
    TTMHEPRequirements.criterionC m m12 m23 m13 m123 = true
      ↔ m13 ≠ 0 ∧ m123 ≠ 0
          ∧ m.Rmin_ ^ 2 * (1 + (m12 / m13) ^ 2) < 1 - (m23 / m123) ^ 2
          ∧ 1 - (m23 / m123) ^ 2 < m.Rmax_ ^ 2 * (1 + (m12 / m13) ^ 2) := by
  by_cases h1 : m13 = 0
  · simp [TTMHEPRequirements.criterionC, quotient_zero, h1]
  · by_cases h2 : m123 = 0
    · simp [TTMHEPRequirements.criterionC, quotient_zero, quotient_of_ne _ _ h1, h2]
    · simp [TTMHEPRequirements.criterionC, quotient_of_ne _ _ h1, quotient_of_ne _ _ h2, h1, h2]

theorem hep_dijet_iff (R : Root) (E : External) (m : TTMHEPRequirements)
    (topCand : TopObject) (j0 j1 : Constituent) (hc : topCand.constituents = [j0, j1]) :
    TTMHEPRequirements.passHEPRequirments R E m topCand = true
      ↔ R.M topCand.p ≠ 0
          ∧ m.Rmin_ < R.M j0.p / R.M topCand.p ∧ R.M j0.p / R.M topCand.p < m.Rmax_ := by
  by_cases h : R.M topCand.p = 0
  · simp [TTMHEPRequirements.passHEPRequirments, hc, quotient_zero, h]
  · simp [TTMHEPRequirements.passHEPRequirments, hc, quotient_of_ne _ _ h, h]

theorem hep_dijet_zero_mass (R : Root) (E : External) (m : TTMHEPRequirements)
    (topCand : TopObject) (j0 j1 : Constituent) (hc : topCand.constituents = [j0, j1])
    (h0 : R.M topCand.p = 0) :
    TTMHEPRequirements.passHEPRequirments R E m topCand = false := by
  simp [TTMHEPRequirements.passHEPRequirments, hc, quotient_zero, h0]

/-- C12. HEP requirements module: after `run` the final-tops list is the list
before the run followed by the candidates that pass both the kinematic test
and the b-tag veto, in candidate order and each once (a candidate is named by
its position); the kinematic test is `criterionA || criterionB || criterionC`
on the masses `m12, m23, m13, m123` for a candidate of three constituents, the
single test `Rmin < M(first constituent) / M(candidate) < Rmax` for one of two
constituents (for a candidate of mass zero the quotient is an infinity or NaN
and the test fails), and true for one of one constituent; the candidate list,
discriminators included, is unchanged. -/
theorem hep_run_promotes_passing (R : Root) (E : External) (m : TTMHEPRequirements)
    (tt : TopTaggerResults) :
    (TTMHEPRequirements.run R E m tt).tops
        = tt.tops ++ (List.range tt.topCandidates.length).filter
            (fun i => decide ((tt.topCandidates[i]?).map (fun c =>
              TTMHEPRequirements.passHEPRequirments R E m c
                && TTMHEPRequirements.passBrequirements R E m c) = some true))
    ∧ ((List.range tt.topCandidates.length).filter
            (fun i => decide ((tt.topCandidates[i]?).map (fun c =>
              TTMHEPRequirements.passHEPRequirments R E m c
                && TTMHEPRequirements.passBrequirements R E m c) = some true))).Nodup
    ∧ (TTMHEPRequirements.run R E m tt).topCandidates = tt.topCandidates
    ∧ (∀ (topCand : TopObject) (j0 j1 j2 : Constituent), topCand.constituents = [j0, j1, j2] →
        TTMHEPRequirements.passHEPRequirments R E m topCand
          = (TTMHEPRequirements.criterionA E m (R.M (j0.p + j1.p)) (R.M (j1.p + j2.p))
                (R.M (j0.p + j2.p)) (R.M topCand.p)
              || TTMHEPRequirements.criterionB m (R.M (j0.p + j1.p)) (R.M (j1.p + j2.p))
                (R.M (j0.p + j2.p)) (R.M topCand.p)
              || TTMHEPRequirements.criterionC m (R.M (j0.p + j1.p)) (R.M (j1.p + j2.p))
                (R.M (j0.p + j2.p)) (R.M topCand.p)))
    ∧ (∀ (topCand : TopObject) (j0 j1 : Constituent), topCand.constituents = [j0, j1] →
        (R.M topCand.p ≠ 0 →
          (TTMHEPRequirements.passHEPRequirments R E m topCand = true
            ↔ m.Rmin_ < R.M j0.p / R.M topCand.p ∧ R.M j0.p / R.M topCand.p < m.Rmax_))
        ∧ (R.M topCand.p = 0 →
            TTMHEPRequirements.passHEPRequirments R E m topCand = false))
    ∧ (∀ (topCand : TopObject) (j0 : Constituent), topCand.constituents = [j0] →
        TTMHEPRequirements.passHEPRequirments R E m topCand = true) := by
  refine ⟨hep_run_tops R E m tt, (List.nodup_range _).filter _, rfl, ?_, ?_, ?_⟩
  · intro topCand j0 j1 j2 h
    simp [TTMHEPRequirements.passHEPRequirments, h]
  · intro topCand j0 j1 h
    refine ⟨fun hne => ?_, hep_dijet_zero_mass R E m topCand j0 j1 h⟩
    rw [hep_dijet_iff R E m topCand j0 j1 h]
    exact ⟨fun hh => hh.2, fun hh => ⟨hne, hh⟩⟩
  · intro topCand j0 h
    simp [TTMHEPRequirements.passHEPRequirments, h]

/-! ## The b-tag veto -/

theorem hep_countNb_eq (R : Root) (E : External) (m : TTMHEPRequirements)
    (jets : List Constituent) (Nb : Int) :
    TTMHEPRequirements.countNb R E m jets Nb
      = Nb + (jets.countP (fun jet =>
          decide (jet.getBTagDisc E > m.csvThresh_ ∧ |R.Eta jet.p| < m.bEtaCut_)) : Nat) := by
  induction jets generalizing Nb with
  | nil => simp [TTMHEPRequirements.countNb]
  | cons jet rest ih =>
    simp only [TTMHEPRequirements.countNb, ih, List.countP_cons]
    by_cases h : jet.getBTagDisc E > m.csvThresh_ ∧ |R.Eta jet.p| < m.bEtaCut_
    · simp only [h, and_self, ↓reduceIte, decide_True]
      push_cast
      ring
    · simp only [h, ↓reduceIte, decide_False]
      simp

/-- C15. HEP b-tag veto: the count `Nb` the loop computes is the number of
the candidate's constituents whose b-tag discriminator is strictly greater
than `csvThresh_` and whose `|eta|` is strictly less than `bEtaCut_`; the veto
passes if and only if `Nb <= maxNbInTop_`, so it passes with exactly
`maxNbInTop_` counted constituents and fails with `maxNbInTop_ + 1`. -/
theorem hep_btag_veto (R : Root) (E : External) (m : TTMHEPRequirements) (topCand : TopObject) :
    TTMHEPRequirements.countNb R E m topCand.constituents 0
        = (topCand.constituents.countP (fun jet =>
            decide (m.csvThresh_ < jet.getBTagDisc E ∧ |R.Eta jet.p| < m.bEtaCut_)) : Nat)
    ∧ (TTMHEPRequirements.passBrequirements R E m topCand = true
        ↔ ((topCand.constituents.countP (fun jet =>
            decide (m.csvThresh_ < jet.getBTagDisc E ∧ |R.Eta jet.p| < m.bEtaCut_)) : Nat) : Int)
          ≤ m.maxNbInTop_)
    ∧ (((topCand.constituents.countP (fun jet =>
            decide (m.csvThresh_ < jet.getBTagDisc E ∧ |R.Eta jet.p| < m.bEtaCut_)) : Nat) : Int)
          = m.maxNbInTop_ → TTMHEPRequirements.passBrequirements R E m topCand = true)
    ∧ (((topCand.constituents.countP (fun jet =>
            decide (m.csvThresh_ < jet.getBTagDisc E ∧ |R.Eta jet.p| < m.bEtaCut_)) : Nat) : Int)
          = m.maxNbInTop_ + 1 → TTMHEPRequirements.passBrequirements R E m topCand = false) := by
  have hcount := hep_countNb_eq R E m topCand.constituents 0
  simp only [zero_add, gt_iff_lt] at hcount
  have hiff : TTMHEPRequirements.passBrequirements R E m topCand = true
      ↔ ((topCand.constituents.countP (fun jet =>
          decide (m.csvThresh_ < jet.getBTagDisc E ∧ |R.Eta jet.p| < m.bEtaCut_)) : Nat) : Int)
        ≤ m.maxNbInTop_ := by
    unfold TTMHEPRequirements.passBrequirements
    rw [hcount, decide_eq_true_iff]
  refine ⟨hcount, hiff, ?_, ?_⟩
  · intro h
    exact hiff.2 (le_of_eq h)
  · intro h
    cases hp : TTMHEPRequirements.passBrequirements R E m topCand with
    | false => rfl
    | true =>
      have := hiff.1 hp
      omega

/-! ## The kinematic test -/

theorem xAxisRoot_M_of_sq (v : TLorentzVector) (r : ℚ) (hr : 0 ≤ r) (h : v.M2 = r * r) :
    xAxisRoot.M v = r := by
  have hn : ¬ r * r < 0 := not_lt.mpr (mul_self_nonneg r)
  simp [xAxisRoot, signedSqrt, h, hn, Rat.sqrt_eq, abs_of_nonneg hr]

theorem hep_pass_of_criterionB (R : Root) (E : External) (m : TTMHEPRequirements)
    (topCand : TopObject) (j0 j1 j2 : Constituent) (h : topCand.constituents = [j0, j1, j2])
    (hB : TTMHEPRequirements.criterionB m (R.M (j0.p + j1.p)) (R.M (j1.p + j2.p))
      (R.M (j0.p + j2.p)) (R.M topCand.p) = true) :
    TTMHEPRequirements.passHEPRequirments R E m topCand = true := by
  simp [TTMHEPRequirements.passHEPRequirments, h, hB]

theorem hep_criterionB_symmetric (m : TTMHEPRequirements) (x : ℚ) (hx : 0 < x)
    (hmin : m.Rmin_ = 0) (hmax : m.Rmax_ = 1) :
    TTMHEPRequirements.criterionB m x x x (3 * x) = true := by
  have hx0 : x ≠ 0 := ne_of_gt hx
  have h1 : x / x = 1 := div_self hx0
  have h3 : x / (3 * x) = 1 / 3 := by field_simp; ring
  rw [hep_criterionB_iff, hmin, hmax, h1, h3]
  refine ⟨hx0, mul_ne_zero (by norm_num) hx0, ?_, ?_⟩ <;> norm_num

theorem hep_mem_run_tops (R : Root) (E : External) (m : TTMHEPRequirements)
    (tt : TopTaggerResults) (i : Nat) (topCand : TopObject)
    (hi : tt.topCandidates[i]? = some topCand)
    (hk : TTMHEPRequirements.passHEPRequirments R E m topCand = true)
    (hb : TTMHEPRequirements.passBrequirements R E m topCand = true) :
    i ∈ ((TTMHEPRequirements.run R E m tt).tops.drop tt.tops.length) := by
  rw [hep_run_tops]
  simp only [List.drop_left, List.mem_filter, List.mem_range, decide_eq_true_eq]
  refine ⟨?_, ?_⟩
  · by_contra hge
    rw [List.getElem?_eq_none (not_lt.mp hge)] at hi
    cases hi
  · rw [hi]; simp [hk, hb]

/-- C13. HEP kinematic test, symmetric case: a candidate of three
constituents with `m12 = m13 = m23 = m123 / 3` and `m123 > 0` passes the
kinematic test under the effective bounds `Rmin_ = 0` and `Rmax_ = 1`
(`criterionB` holds, whatever `atan` returns), and `run` appends it to the
final tops whenever it passes the b-tag veto. -/
theorem hep_symmetric_trijet_passes (R : Root) (E : External) (m : TTMHEPRequirements)
    (topCand : TopObject) (j0 j1 j2 : Constituent)
    (hc : topCand.constituents = [j0, j1, j2])
    (h12 : R.M (j0.p + j1.p) = R.M topCand.p / 3)
    (h13 : R.M (j0.p + j2.p) = R.M topCand.p / 3)
    (h23 : R.M (j1.p + j2.p) = R.M topCand.p / 3)
    (hpos : 0 < R.M topCand.p)
    (hmin : m.Rmin_ = 0) (hmax : m.Rmax_ = 1) :
    TTMHEPRequirements.passHEPRequirments R E m topCand = true
    ∧ ∀ (tt : TopTaggerResults) (i : Nat), tt.topCandidates[i]? = some topCand →
        TTMHEPRequirements.passBrequirements R E m topCand = true →
        i ∈ ((TTMHEPRequirements.run R E m tt).tops.drop tt.tops.length) := by
  have hpass : TTMHEPRequirements.passHEPRequirments R E m topCand = true := by
    apply hep_pass_of_criterionB R E m topCand j0 j1 j2 hc
    rw [h12, h13, h23]
    have h := hep_criterionB_symmetric m (R.M topCand.p / 3) (by linarith) hmin hmax
    have h3 : 3 * (R.M topCand.p / 3) = R.M topCand.p := by ring
    rw [h3] at h
    exact h
  exact ⟨hpass, fun tt i hi hb => hep_mem_run_tops R E m tt i topCand hi hpass hb⟩

/-- Witness of C13: the synthetic trijet with pair masses 18 and candidate
mass 54, effective bounds 0 and 1. -/
theorem hep_symmetric_trijet_passes_witness :
    (xAxisRoot.M exSymmetricTrijet.p = 54
      ∧ xAxisRoot.M ((⟨-42, -11, 0, 7⟩ : TLorentzVector) + ⟨6, -1, 0, 35⟩) = 18
      ∧ xAxisRoot.M ((⟨-42, -11, 0, 7⟩ : TLorentzVector) + ⟨36, 12, 0, 12⟩) = 18
      ∧ xAxisRoot.M ((⟨6, -1, 0, 35⟩ : TLorentzVector) + ⟨36, 12, 0, 12⟩) = 18)
    ∧ TTMHEPRequirements.passHEPRequirments xAxisRoot exExternal exHEPUnit exSymmetricTrijet
        = true
    ∧ 0 ∈ (TTMHEPRequirements.run xAxisRoot exExternal exHEPUnit
        { topCandidates := [exSymmetricTrijet], tops := [] }).tops := by
  have hp : xAxisRoot.M exSymmetricTrijet.p = 54 :=
    xAxisRoot_M_of_sq _ 54 (by norm_num) (by norm_num [exSymmetricTrijet, TLorentzVector.M2])
  have h12 : xAxisRoot.M ((⟨-42, -11, 0, 7⟩ : TLorentzVector) + ⟨6, -1, 0, 35⟩) = 18 :=
    xAxisRoot_M_of_sq _ 18 (by norm_num) (by
      show TLorentzVector.M2 (TLorentzVector.add _ _) = _
      norm_num [TLorentzVector.add, TLorentzVector.M2])
  have h13 : xAxisRoot.M ((⟨-42, -11, 0, 7⟩ : TLorentzVector) + ⟨36, 12, 0, 12⟩) = 18 :=
    xAxisRoot_M_of_sq _ 18 (by norm_num) (by
      show TLorentzVector.M2 (TLorentzVector.add _ _) = _
      norm_num [TLorentzVector.add, TLorentzVector.M2])
  have h23 : xAxisRoot.M ((⟨6, -1, 0, 35⟩ : TLorentzVector) + ⟨36, 12, 0, 12⟩) = 18 :=
    xAxisRoot_M_of_sq _ 18 (by norm_num) (by
      show TLorentzVector.M2 (TLorentzVector.add _ _) = _
      norm_num [TLorentzVector.add, TLorentzVector.M2])
  have hthird : xAxisRoot.M exSymmetricTrijet.p / 3 = 18 := by rw [hp]; norm_num
  have h := hep_symmetric_trijet_passes xAxisRoot exExternal exHEPUnit exSymmetricTrijet
    (exJet ⟨-42, -11, 0, 7⟩) (exJet ⟨6, -1, 0, 35⟩) (exJet ⟨36, 12, 0, 12⟩) rfl
    (by rw [hthird]; exact h12) (by rw [hthird]; exact h13) (by rw [hthird]; exact h23)
    (by rw [hp]; norm_num) rfl rfl
  refine ⟨⟨hp, h12, h13, h23⟩, h.1, ?_⟩
  have hmem := h.2 { topCandidates := [exSymmetricTrijet], tops := [] } 0 rfl (by decide)
  rw [List.length_nil, List.drop_zero] at hmem
  exact hmem

/-! ## Inverted bounds -/

theorem hep_criterionA_needs_order (E : External) (m : TTMHEPRequirements)
    (m12 m23 m13 m123 : ℚ) (h : m.Rmax_ ≤ m.Rmin_) :
    TTMHEPRequirements.criterionA E m m12 m23 m13 m123 = false := by
  cases hA : TTMHEPRequirements.criterionA E m m12 m23 m13 m123 with
  | false => rfl
  | true =>
    rw [hep_criterionA_iff] at hA
    linarith [hA.2.2.2.2.1, hA.2.2.2.2.2]

theorem hep_squares_need_order (rmin rmax t b : ℚ) (hlt : rmax < rmin) (hsum : 0 ≤ rmin + rmax)
    (h1 : rmin ^ 2 * (1 + t ^ 2) < b) (h2 : b < rmax ^ 2 * (1 + t ^ 2)) : False := by
  have ha : 0 < 1 + t ^ 2 := by positivity
  have hsq : rmax ^ 2 ≤ rmin ^ 2 := by nlinarith
  have : rmax ^ 2 * (1 + t ^ 2) ≤ rmin ^ 2 * (1 + t ^ 2) :=
    mul_le_mul_of_nonneg_right hsq (le_of_lt ha)
  linarith

theorem hep_criterionB_needs_order (m : TTMHEPRequirements) (m12 m23 m13 m123 : ℚ)
    (hlt : m.Rmax_ < m.Rmin_) (hsum : 0 ≤ m.Rmin_ + m.Rmax_) :
    TTMHEPRequirements.criterionB m m12 m23 m13 m123 = false := by
  cases hB : TTMHEPRequirements.criterionB m m12 m23 m13 m123 with
  | false => rfl
  | true =>
    rw [hep_criterionB_iff] at hB
    exact (hep_squares_need_order _ _ _ _ hlt hsum hB.2.2.1 hB.2.2.2).elim

theorem hep_criterionC_needs_order (m : TTMHEPRequirements) (m12 m23 m13 m123 : ℚ)
    (hlt : m.Rmax_ < m.Rmin_) (hsum : 0 ≤ m.Rmin_ + m.Rmax_) :
    TTMHEPRequirements.criterionC m m12 m23 m13 m123 = false := by
  cases hC : TTMHEPRequirements.criterionC m m12 m23 m13 m123 with
  | false => rfl
  | true =>
    rw [hep_criterionC_iff] at hC
    exact (hep_squares_need_order _ _ _ _ hlt hsum hC.2.2.1 hC.2.2.2).elim

theorem hep_kinematic_fails_of_inverted (R : Root) (E : External) (m : TTMHEPRequirements)
    (topCand : TopObject) (hlt : m.Rmax_ < m.Rmin_) (hsum : 0 ≤ m.Rmin_ + m.Rmax_)
    (hn : topCand.constituents.length = 2 ∨ topCand.constituents.length = 3) :
    TTMHEPRequirements.passHEPRequirments R E m topCand = false := by
  match hcs : topCand.constituents, hn with
  | [a, b], _ =>
    cases hp : TTMHEPRequirements.passHEPRequirments R E m topCand with
    | false => rfl
    | true =>
      have hd := (hep_dijet_iff R E m topCand a b hcs).1 hp
      linarith [hd.2.1, hd.2.2]
  | [a, b, c], _ =>
    simp [TTMHEPRequirements.passHEPRequirments, hcs,
      hep_criterionA_needs_order E m _ _ _ _ (le_of_lt hlt),
      hep_criterionB_needs_order m _ _ _ _ hlt hsum, hep_criterionC_needs_order m _ _ _ _ hlt hsum]
  | [], hn => simp at hn
  | [_], hn => simp at hn
  | _ :: _ :: _ :: _ :: _, hn => simp at hn

theorem hep_kinematic_true_of_other_count (R : Root) (E : External) (m : TTMHEPRequirements)
    (topCand : TopObject)
    (hn : topCand.constituents.length ≠ 2 ∧ topCand.constituents.length ≠ 3) :
    TTMHEPRequirements.passHEPRequirments R E m topCand = true := by
  unfold TTMHEPRequirements.passHEPRequirments
  split
  · rename_i h; rw [h] at hn; simp at hn
  · rename_i h; rw [h] at hn; simp at hn
  · rfl

theorem hep_run_single (R : Root) (E : External) (m : TTMHEPRequirements) (c : TopObject)
    (hk : TTMHEPRequirements.passHEPRequirments R E m c = true)
    (hb : TTMHEPRequirements.passBrequirements R E m c = true) :
    (TTMHEPRequirements.run R E m { topCandidates := [c], tops := [] }).tops = [0] := by
  rw [hep_run_tops]
  simp [List.range_succ, hk, hb]

/-- C14 as stated fails, in two ways. With `Rmin_ = 1 > Rmax_ = 0` a candidate
of one constituent takes no kinematic test and is promoted. With
`Rmin_ = 0 > Rmax_ = -1` the trijet with `m12 = m13 = 3`, `m23 = 2`,
`m123 = 4` satisfies `criterionB`, which compares the squares of the bounds:
`0 < 1 - (2/4)^2 < (-1)^2 * (1 + (3/3)^2)`, and is promoted. -/
theorem hep_inverted_bounds_still_promote :
    (exHEPInverted.Rmax_ < exHEPInverted.Rmin_
      ∧ (TTMHEPRequirements.run xAxisRoot exExternal exHEPInverted
          { topCandidates := [exMonojet], tops := [] }).tops = [0])
    ∧ (exHEPNegative.Rmax_ < exHEPNegative.Rmin_
      ∧ (TTMHEPRequirements.run xAxisRoot exExternal exHEPNegative
          { topCandidates := [exRestTrijet], tops := [] }).tops = [0]) := by
  refine ⟨⟨by decide, ?_⟩, ⟨by decide, ?_⟩⟩
  · exact hep_run_single _ _ _ _ rfl (by decide)
  · apply hep_run_single _ _ _ _ _ (by decide)
    apply hep_pass_of_criterionB xAxisRoot exExternal exHEPNegative exRestTrijet
      (exJet ⟨0, 0, 0, 2⟩) (exJet ⟨0, 0, 0, 1⟩) (exJet ⟨0, 0, 0, 1⟩) rfl
    have h12 : (exJet ⟨0, 0, 0, 2⟩).p + (exJet ⟨0, 0, 0, 1⟩).p = ⟨0, 0, 0, 3⟩ := by
      show TLorentzVector.add _ _ = _
      simp only [TLorentzVector.add, exJet, ConstituentOf.mkAK4]; norm_num
    have h23 : (exJet ⟨0, 0, 0, 1⟩).p + (exJet ⟨0, 0, 0, 1⟩).p = ⟨0, 0, 0, 2⟩ := by
      show TLorentzVector.add _ _ = _
      simp only [TLorentzVector.add, exJet, ConstituentOf.mkAK4]; norm_num
    have hp : exRestTrijet.p = ⟨0, 0, 0, 4⟩ := rfl
    rw [h12, h23, hp, hep_criterionB_iff]
    simp only [xAxisRoot_M_at_rest, exHEPNegative, exHEPUnit]
    refine ⟨?_, ?_, ?_, ?_⟩ <;> norm_num

/-- C14, amended. HEP requirements module with inverted bounds: for every
configuration with `Rmin_ > Rmax_` and `Rmin_ + Rmax_ >= 0` (in particular
whenever `Rmin_ > Rmax_ >= 0`) and every candidate list, no candidate of two or
three constituents is promoted by `run`; the candidates `run` appends are
exactly those with another number of constituents that pass the b-tag veto. -/
theorem hep_inverted_bounds_promote_no_dijet_trijet (R : Root) (E : External)
    (m : TTMHEPRequirements) (tt : TopTaggerResults)
    (hlt : m.Rmax_ < m.Rmin_) (hsum : 0 ≤ m.Rmin_ + m.Rmax_) :
    (TTMHEPRequirements.run R E m tt).tops
        = tt.tops ++ (List.range tt.topCandidates.length).filter
            (fun i => decide ((tt.topCandidates[i]?).map (fun c =>
              decide (c.constituents.length ≠ 2 ∧ c.constituents.length ≠ 3)
                && TTMHEPRequirements.passBrequirements R E m c) = some true))
    ∧ ∀ (i : Nat) (c : TopObject), tt.topCandidates[i]? = some c →
        (c.constituents.length = 2 ∨ c.constituents.length = 3) →
        i ∉ (TTMHEPRequirements.run R E m tt).tops.drop tt.tops.length := by
  have hpass : ∀ c : TopObject, TTMHEPRequirements.passHEPRequirments R E m c
      = decide (c.constituents.length ≠ 2 ∧ c.constituents.length ≠ 3) := by
    intro c
    by_cases hn : c.constituents.length = 2 ∨ c.constituents.length = 3
    · rw [hep_kinematic_fails_of_inverted R E m c hlt hsum hn]
      symm
      rw [decide_eq_false_iff_not]
      tauto
    · push_neg at hn
      rw [hep_kinematic_true_of_other_count R E m c hn]
      symm
      rw [decide_eq_true_iff]
      exact hn
  have htops := hep_run_tops R E m tt
  simp only [hpass] at htops
  refine ⟨htops, ?_⟩
  intro i c hi hn
  rw [htops, List.drop_left, List.mem_filter]
  rintro ⟨_, hf⟩
  rw [hi] at hf
  simp only [Option.map_some', Option.some.injEq, Bool.and_eq_true, decide_eq_true_eq] at hf
  tauto

/-- Witness of C14 (amended): bounds `Rmin_ = 1 > Rmax_ = 0`, a monojet at
position 0 and a trijet at position 1; the trijet is not promoted. -/
theorem hep_inverted_bounds_promote_no_dijet_trijet_witness :
    exHEPInverted.Rmax_ < exHEPInverted.Rmin_
    ∧ 0 ≤ exHEPInverted.Rmin_ + exHEPInverted.Rmax_
    ∧ 1 ∉ (TTMHEPRequirements.run xAxisRoot exExternal exHEPInverted exTwoCandidates).tops := by
  have hsum : 0 ≤ exHEPInverted.Rmin_ + exHEPInverted.Rmax_ := by
    norm_num [exHEPInverted, exHEPUnit]
  refine ⟨by decide, hsum, ?_⟩
  have h := (hep_inverted_bounds_promote_no_dijet_trijet xAxisRoot exExternal exHEPInverted
    exTwoCandidates (by decide) hsum).2 1 exRestTrijet rfl (Or.inr rfl)
  have hlen : exTwoCandidates.tops.length = 0 := rfl
  rw [hlen, List.drop_zero] at h
  exact h

/-! ## Configuration of the HEP requirements module -/

theorem tmva_runLoop_eq (B : TMVABackend) (m : TTMTMVA) (cands : List TopObject) (k : Nat)
    (done : List TopObject) (tops : List Nat) :
    TTMTMVA.runLoop B m (cands.enumFrom k) (done, tops)
      = (done ++ cands.map (fun c =>
            if c.getNConstituents = m.NConstituents_ then
              c.setDiscriminator (TTMTMVA.evaluate B m c)
            else c),
         tops ++ ((List.range cands.length).filter
            (fun i => decide ((cands[i]?).map (fun c =>
              decide (c.getNConstituents = m.NConstituents_
                ∧ m.discriminator_ < TTMTMVA.evaluate B m c)) = some true))).map (· + k)) := by
  induction cands generalizing k done tops with
  | nil => simp [TTMTMVA.runLoop]
  | cons c rest ih =>
    simp only [List.enumFrom_cons, TTMTMVA.runLoop, List.length_cons,
      List.range_succ_eq_map, List.filter_cons, List.filter_map, List.map_map, List.map_cons]
    by_cases hn : c.getNConstituents = m.NConstituents_
    · by_cases hs : m.discriminator_ < TTMTMVA.evaluate B m c
      · simp [hn, hs, ih, Function.comp_def, Nat.add_comm, Nat.add_left_comm]
      · simp [hn, hs, ih, Function.comp_def, Nat.add_comm, Nat.add_left_comm]
    · simp [hn, ih, Function.comp_def, Nat.add_comm, Nat.add_left_comm]

theorem tmva_run_eq (B : TMVABackend) (m : TTMTMVA) (tt : TopTaggerResults) :
    (TTMTMVA.run B m tt).topCandidates
        = tt.topCandidates.map (fun c =>
            if c.getNConstituents = m.NConstituents_ then
              c.setDiscriminator (TTMTMVA.evaluate B m c)
            else c)
    ∧ (TTMTMVA.run B m tt).tops
        = tt.tops ++ (List.range tt.topCandidates.length).filter
            (fun i => decide ((tt.topCandidates[i]?).map (fun c =>
              decide (c.getNConstituents = m.NConstituents_
                ∧ m.discriminator_ < TTMTMVA.evaluate B m c)) = some true)) := by
  simp [TTMTMVA.run, List.enum, tmva_runLoop_eq]

/-- C17. Learned-discriminant evaluator, compiled with TMVA support. After
`run`, every candidate whose constituent count equals `NConstituents_` has its
discriminator set to the score the backend returns for it, and every other
candidate is as it was; the final-tops list is the list before the run
followed by the candidates with that constituent count whose score is
strictly greater than the cut `discriminator_`, in candidate order. A
candidate whose score equals the cut, or whose constituent count differs, is
not appended. -/
theorem tmva_run_scores_and_promotes (B : TMVABackend) (m : TTMTMVA) (tt : TopTaggerResults) :
    (TTMTMVA.run B m tt).topCandidates
        = tt.topCandidates.map (fun c =>
            if c.getNConstituents = m.NConstituents_ then
              { c with discriminator := some (B.EvaluateMVA m.modelName_
                  (m.vars_.map (fun var =>
                    (var, ((B.createMVAInputs c 0.8).lookup var).getD 0)))) }
            else c)
    ∧ (TTMTMVA.run B m tt).tops
        = tt.tops ++ (List.range tt.topCandidates.length).filter
            (fun i => decide ((tt.topCandidates[i]?).map (fun c =>
              decide (c.getNConstituents = m.NConstituents_
                ∧ m.discriminator_ < TTMTMVA.evaluate B m c)) = some true))
    ∧ (∀ (i : Nat) (c : TopObject), tt.topCandidates[i]? = some c →
        (TTMTMVA.evaluate B m c = m.discriminator_ ∨ c.getNConstituents ≠ m.NConstituents_) →
        i ∉ (TTMTMVA.run B m tt).tops.drop tt.tops.length)
    ∧ (∀ (i : Nat) (c : TopObject), tt.topCandidates[i]? = some c →
        c.getNConstituents = m.NConstituents_ → m.discriminator_ < TTMTMVA.evaluate B m c →
        i ∈ (TTMTMVA.run B m tt).tops.drop tt.tops.length) := by
  obtain ⟨h1, h2⟩ := tmva_run_eq B m tt
  refine ⟨h1, h2, ?_, ?_⟩
  · intro i c hi hor
    rw [h2, List.drop_left, List.mem_filter]
    rintro ⟨_, hf⟩
    rw [hi] at hf
    simp only [Option.map_some', Option.some.injEq, decide_eq_true_eq] at hf
    rcases hor with h | h
    · rw [h] at hf; exact lt_irrefl _ hf.2
    · exact h hf.1
  · intro i c hi hn hs
    rw [h2, List.drop_left, List.mem_filter]
    refine ⟨?_, ?_⟩
    · rw [List.mem_range]
      by_contra hge
      rw [List.getElem?_eq_none (not_lt.mp hge)] at hi
      cases hi
    · rw [hi]
      simp [hn, hs]

/-! ## No module removes from the final list -/

/-- C11. For the merged-object filter, the HEP requirements module and the
learned-discriminant evaluator alike, and for every results container: the
final-tops list before `run` is a prefix of the list after `run`, and the
candidate sequence keeps its length and its order. The filter and the HEP
module leave the candidates untouched; the evaluator changes nothing but
discriminators. -/
theorem modules_only_append (R : Root) (E : External) (B : TMVABackend)
    (filter : TTMAK8TopFilter) (hep : TTMHEPRequirements) (mva : TTMTMVA)
    (tt : TopTaggerResults) :
    (tt.tops <+: (filter.run tt).tops ∧ (filter.run tt).topCandidates = tt.topCandidates)
    ∧ (tt.tops <+: (TTMHEPRequirements.run R E hep tt).tops
        ∧ (TTMHEPRequirements.run R E hep tt).topCandidates = tt.topCandidates)
    ∧ (tt.tops <+: (TTMTMVA.run B mva tt).tops
        ∧ (TTMTMVA.run B mva tt).topCandidates.length = tt.topCandidates.length
        ∧ (TTMTMVA.run B mva tt).topCandidates.map (fun c => (c.constituents, c.p, c.type))
            = tt.topCandidates.map (fun c => (c.constituents, c.p, c.type))) := by
  refine ⟨⟨?_, rfl⟩, ⟨?_, rfl⟩, ?_, ?_, ?_⟩
  · simp only [TTMAK8TopFilter.run, List.enum, ak8TopFilter_runLoop]
    exact List.prefix_append _ _
  · rw [hep_run_tops]
    exact List.prefix_append _ _
  · rw [(tmva_run_eq B mva tt).2]
    exact List.prefix_append _ _
  · rw [(tmva_run_eq B mva tt).1, List.length_map]
  · rw [(tmva_run_eq B mva tt).1, List.map_map]
    apply List.map_congr_left
    intro c _
    simp only [Function.comp_apply]
    split <;> rfl

/-! ## The resolved-candidate packager -/

theorem resolved_loop_eq_runSteps (inp : ConstResolvedCandInputs) (idxs : List Nat)
    (cs : List Constituent) : inp.loop idxs cs = runSteps inp.step idxs cs := by
  induction idxs generalizing cs with
  | nil => rfl
  | cons i rest ih =>
    simp only [ConstResolvedCandInputs.loop, runSteps, ConstResolvedCandInputs.step]
    split <;> try rfl
    split <;> simp [*]

theorem resolved_lengthCheck_none (inp : ConstResolvedCandInputs) :
    inp.lengthCheck = none
      ↔ inp.topCandDisc_.length = inp.topCandLVec_.length
        ∧ inp.topCandJ1_.length = inp.topCandLVec_.length
        ∧ inp.topCandJ2_.length = inp.topCandLVec_.length
        ∧ inp.topCandJ3_.length = inp.topCandLVec_.length := by
  unfold ConstResolvedCandInputs.lengthCheck
  constructor
  · intro h
    split at h
    · cases h
    · rename_i hn
      push_neg at hn
      exact ⟨hn.1.symm, hn.2.1.symm, hn.2.2.1.symm, hn.2.2.2.symm⟩
  · rintro ⟨h1, h2, h3, h4⟩
    rw [if_neg]
    rw [h1, h2, h3, h4]
    simp

theorem resolved_step_of_lt (inp : ConstResolvedCandInputs) (i : Nat)
    (hi : i < inp.topCandLVec_.length)
    (h1 : inp.topCandDisc_.length = inp.topCandLVec_.length)
    (h2 : inp.topCandJ1_.length = inp.topCandLVec_.length)
    (h3 : inp.topCandJ2_.length = inp.topCandLVec_.length)
    (h4 : inp.topCandJ3_.length = inp.topCandLVec_.length) :
    ∃ c, inp.step i = Step.push c
      ∧ c.type = ConstituentType.RESOLVEDTOPCAND
      ∧ some c.p = inp.topCandLVec_[i]?
      ∧ c.topDisc = inp.topCandDisc_[i]?
      ∧ c.jetRefIndex.map some = [inp.topCandJ1_[i]?, inp.topCandJ2_[i]?, inp.topCandJ3_[i]?] := by
  have hd : i < inp.topCandDisc_.length := by rw [h1]; exact hi
  have hj1 : i < inp.topCandJ1_.length := by rw [h2]; exact hi
  have hj2 : i < inp.topCandJ2_.length := by rw [h3]; exact hi
  have hj3 : i < inp.topCandJ3_.length := by rw [h4]; exact hi
  refine ⟨((((ConstituentOf.mkTyped inp.topCandLVec_[i] ConstituentType.RESOLVEDTOPCAND).setTopDisc
      inp.topCandDisc_[i]).addJetRefIndex inp.topCandJ1_[i]).addJetRefIndex
      inp.topCandJ2_[i]).addJetRefIndex inp.topCandJ3_[i], ?_, ?_⟩
  · simp only [ConstResolvedCandInputs.step, ConstResolvedCandInputs.emplace,
      ConstResolvedCandInputs.fill, ConstResolvedCandInputs.setFromAt,
      readAt_of_lt _ _ hi, readAt_of_lt _ _ hd, readAt_of_lt _ _ hj1, readAt_of_lt _ _ hj2,
      readAt_of_lt _ _ hj3]
  · simp [ConstituentOf.mkTyped, ConstituentOf.setTopDisc, ConstituentOf.addJetRefIndex,
      List.getElem?_eq_getElem hi, List.getElem?_eq_getElem hd, List.getElem?_eq_getElem hj1,
      List.getElem?_eq_getElem hj2, List.getElem?_eq_getElem hj3]

theorem runSteps_all_push (P : Nat → Constituent → Prop) (step : Nat → Step) (idxs : List Nat)
    (cs : List Constituent) (h : ∀ i ∈ idxs, ∃ c, step i = Step.push c ∧ P i c) :
    ∃ L, runSteps step idxs cs = ⟨cs ++ L, none⟩ ∧ List.Forall₂ P idxs L := by
  induction idxs generalizing cs with
  | nil => exact ⟨[], by simp [runSteps], List.Forall₂.nil⟩
  | cons i rest ih =>
    obtain ⟨c, hc, hp⟩ := h i (List.mem_cons_self _ _)
    obtain ⟨L, hL, hall⟩ := ih (cs ++ [c]) (fun j hj => h j (List.mem_cons_of_mem _ hj))
    exact ⟨c :: L, by simp [runSteps, hc, hL], List.Forall₂.cons hp hall⟩

/-- C20. Resolved-candidate packager. If the discriminator, J1, J2 or J3 array
differs in length from the four-momentum array, `packageConstituents` throws
and leaves the output vector as it was. Otherwise it completes and appends
exactly `N` constituents in input order, the i-th of type `RESOLVEDTOPCAND`
with four-momentum `topCandLVec[i]`, top discriminator `topCandDisc[i]` and
the three jet reference indices `J1[i], J2[i], J3[i]` in that order. -/
theorem resolved_packageConstituents (inp : ConstResolvedCandInputs) (cs : List Constituent) :
    ((inp.topCandDisc_.length ≠ inp.topCandLVec_.length
        ∨ inp.topCandJ1_.length ≠ inp.topCandLVec_.length
        ∨ inp.topCandJ2_.length ≠ inp.topCandLVec_.length
        ∨ inp.topCandJ3_.length ≠ inp.topCandLVec_.length) →
      ∃ msg, inp.packageConstituents cs = ⟨cs, some (Fault.TTException msg)⟩)
    ∧ ((inp.topCandDisc_.length = inp.topCandLVec_.length
        ∧ inp.topCandJ1_.length = inp.topCandLVec_.length
        ∧ inp.topCandJ2_.length = inp.topCandLVec_.length
        ∧ inp.topCandJ3_.length = inp.topCandLVec_.length) →
      ∃ L, inp.packageConstituents cs = ⟨cs ++ L, none⟩
        ∧ L.length = inp.topCandLVec_.length
        ∧ List.Forall₂ (fun i c =>
            c.type = ConstituentType.RESOLVEDTOPCAND
            ∧ some c.p = inp.topCandLVec_[i]?
            ∧ c.topDisc = inp.topCandDisc_[i]?
            ∧ c.jetRefIndex.map some
                = [inp.topCandJ1_[i]?, inp.topCandJ2_[i]?, inp.topCandJ3_[i]?])
          (List.range inp.topCandLVec_.length) L) := by
  constructor
  · intro hne
    have hc : inp.lengthCheck = some (Fault.TTException "Vector sizes are unequal!!!") := by
      unfold ConstResolvedCandInputs.lengthCheck
      rw [if_pos]
      rcases hne with h | h | h | h
      · exact Or.inl (fun e => h e.symm)
      · exact Or.inr (Or.inl (fun e => h e.symm))
      · exact Or.inr (Or.inr (Or.inl (fun e => h e.symm)))
      · exact Or.inr (Or.inr (Or.inr (fun e => h e.symm)))
    exact ⟨"Vector sizes are unequal!!!",
      by simp only [ConstResolvedCandInputs.packageConstituents, hc]⟩
  · rintro ⟨h1, h2, h3, h4⟩
    have hc : inp.lengthCheck = none := (resolved_lengthCheck_none inp).2 ⟨h1, h2, h3, h4⟩
    obtain ⟨L, hL, hall⟩ := runSteps_all_push
      (fun i c => c.type = ConstituentType.RESOLVEDTOPCAND
        ∧ some c.p = inp.topCandLVec_[i]?
        ∧ c.topDisc = inp.topCandDisc_[i]?
        ∧ c.jetRefIndex.map some
            = [inp.topCandJ1_[i]?, inp.topCandJ2_[i]?, inp.topCandJ3_[i]?])
      inp.step (List.range inp.topCandLVec_.length) cs
      (fun i hi => resolved_step_of_lt inp i (List.mem_range.1 hi) h1 h2 h3 h4)
    refine ⟨L, ?_, ?_, hall⟩
    · simp only [ConstResolvedCandInputs.packageConstituents, hc, resolved_loop_eq_runSteps, hL]
    · rw [← hall.length_eq, List.length_range]

/-- Witness of C20: with a J3 array one entry short the call throws and the
empty vector stays empty; with five arrays of length two the call completes
and appends two constituents. -/
theorem resolved_packageConstituents_witness :
    (∃ msg, exResolvedShort.packageConstituents [] = ⟨[], some (Fault.TTException msg)⟩)
    ∧ (∃ L, exResolved.packageConstituents [] = ⟨[] ++ L, none⟩ ∧ L.length = 2) := by
  constructor
  · exact (resolved_packageConstituents exResolvedShort []).1
      (Or.inr (Or.inr (Or.inr (by decide))))
  · obtain ⟨L, h1, h2, _⟩ := (resolved_packageConstituents exResolved []).2
      ⟨by decide, by decide, by decide, by decide⟩
    exact ⟨L, h1, h2⟩

/-! ## Composition of packagers -/

theorem outcome_eta (o : Outcome) : o = ⟨o.constituents, o.fault⟩ := by
  cases o; rfl

theorem runSteps_frame (step : Nat → Step) (idxs : List Nat) (cs : List Constituent) :
    runSteps step idxs cs
      = ⟨cs ++ (runSteps step idxs []).constituents, (runSteps step idxs []).fault⟩ := by
  refine (outcome_eta _).trans ?_
  simp only [runSteps_constituents, runSteps_fault, List.nil_append]

theorem packager_frame (R : Root) (p : Packager) (cs : List Constituent) :
    p.packageConstituents R cs
      = ⟨cs ++ (p.packageConstituents R []).constituents,
          (p.packageConstituents R []).fault⟩ := by
  cases p with
  | AK4 inp =>
    simp only [Packager.packageConstituents, ConstAK4Inputs.packageConstituents]
    cases inp.lengthChecks with
    | some x => simp
    | none => simp only [ak4_loop_eq_runSteps]; exact runSteps_frame _ _ _
  | AK8 inp =>
    simp only [Packager.packageConstituents, ConstAK8Inputs.packageConstituents]
    cases inp.lengthChecks with
    | some x => simp
    | none => simp only [ak8_loop_eq_runSteps]; exact runSteps_frame _ _ _
  | ResolvedCand inp =>
    simp only [Packager.packageConstituents, ConstResolvedCandInputs.packageConstituents]
    cases inp.lengthCheck with
    | some x => simp
    | none => simp only [resolved_loop_eq_runSteps]; exact runSteps_frame _ _ _

theorem packageConstituentsRecurse_cons (R : Root) (p : Packager) (rest : List Packager)
    (cs : List Constituent) :
    packageConstituentsRecurse R (p :: rest) cs
      = match (p.packageConstituents R cs).fault with
        | none => packageConstituentsRecurse R rest (p.packageConstituents R cs).constituents
        | some x => ⟨(p.packageConstituents R cs).constituents, some x⟩ := by
  cases rest with
  | nil =>
    rw [packageConstituentsRecurse]
    cases h : p.packageConstituents R cs with
    | mk c f => cases f <;> simp [packageConstituentsRecurse, h]
  | cons q rest =>
    rw [packageConstituentsRecurse]
    cases h : p.packageConstituents R cs with
    | mk c f => cases f <;> simp

theorem packageConstituentsRecurse_fault (R : Root) (args : List Packager)
    (cs : List Constituent) :
    (packageConstituentsRecurse R args cs).fault
      = args.findSome? (fun p => (p.packageConstituents R []).fault) := by
  induction args generalizing cs with
  | nil => rfl
  | cons p rest ih =>
    rw [packageConstituentsRecurse_cons, packager_frame R p cs, List.findSome?_cons]
    cases h : (p.packageConstituents R []).fault with
    | none => simp only [ih]
    | some x => rfl

theorem packageConstituentsRecurse_constituents (R : Root) (args : List Packager)
    (cs : List Constituent)
    (h : args.findSome? (fun p => (p.packageConstituents R []).fault) = none) :
    (packageConstituentsRecurse R args cs).constituents
      = cs ++ (args.map (fun p => (p.packageConstituents R []).constituents)).flatten := by
  induction args generalizing cs with
  | nil => simp [packageConstituentsRecurse]
  | cons p rest ih =>
    rw [List.findSome?_cons] at h
    rw [packageConstituentsRecurse_cons, packager_frame R p cs]
    cases hf : (p.packageConstituents R []).fault with
    | none =>
      rw [hf] at h
      simp only [ih _ h, List.map_cons, List.flatten_cons, List.append_assoc]
    | some x => rw [hf] at h; cases h

/-- C18. Composition of packagers. Each packager's `packageConstituents`
leaves the elements already in the output vector as they are and appends
after them what it appends to an empty vector, with the same outcome. For
every argument list, `ttUtility::packageConstituents` returns the
concatenation, in argument order, of what each argument appends on its own to
an empty vector when every argument completes, and otherwise leaves with the
exception of the first argument that throws. -/
theorem packagers_compose (R : Root) (args : List Packager) :
    (∀ (p : Packager) (cs : List Constituent),
        p.packageConstituents R cs
          = ⟨cs ++ (p.packageConstituents R []).constituents,
              (p.packageConstituents R []).fault⟩)
    ∧ packageConstituents R args
        = match args.findSome? (fun p => (p.packageConstituents R []).fault) with
          | none =>
            .ok (args.map (fun p => (p.packageConstituents R []).constituents)).flatten
          | some x => .error x := by
  refine ⟨packager_frame R, ?_⟩
  have hf := packageConstituentsRecurse_fault R args []
  unfold packageConstituents
  cases h : args.findSome? (fun p => (p.packageConstituents R []).fault) with
  | none =>
    have hc := packageConstituentsRecurse_constituents R args [] h
    rw [h] at hf
    rw [outcome_eta (packageConstituentsRecurse R args []), hf, hc]
    simp
  | some x =>
    rw [h] at hf
    rw [outcome_eta (packageConstituentsRecurse R args []), hf]

/-- Witness of C18: an AK4 packager with two jets followed by a
resolved-candidate packager with two candidates; both complete, and the call
returns the two jets' constituents followed by the two candidates'. -/
theorem packagers_compose_witness :
    packageConstituents xAxisRoot [Packager.AK4 exAK4Two, Packager.ResolvedCand exResolved]
        = .ok ((exAK4Two.packageConstituents xAxisRoot []).constituents
            ++ (exResolved.packageConstituents []).constituents)
    ∧ (exAK4Two.packageConstituents xAxisRoot []).constituents.length = 2
    ∧ (exResolved.packageConstituents []).constituents.length = 2 := by
  have h := (packagers_compose xAxisRoot
    [Packager.AK4 exAK4Two, Packager.ResolvedCand exResolved]).2
  have hf : List.findSome? (fun p => (p.packageConstituents xAxisRoot []).fault)
      [Packager.AK4 exAK4Two, Packager.ResolvedCand exResolved] = none := by decide
  rw [hf] at h
  refine ⟨?_, by decide, by decide⟩
  rw [h]
  simp only [List.map_cons, List.map_nil, List.flatten_cons, List.flatten_nil, List.append_nil,
    Packager.packageConstituents]

/-! ## The text of the AK4 length-mismatch errors -/

theorem ak4_btag_filter_messages (inp : ConstAK4Inputs) :
    (inp.btagFactors_.length ≠ inp.jetsLVec_.length →
      ∃ msg, inp.lengthChecks = some (Fault.TTException msg)
        ∧ (toString inp.jetsLVec_.length).toList <:+: msg.toList
        ∧ (toString inp.btagFactors_.length).toList <:+: msg.toList)
    ∧ (inp.checkBtagQGL = none → ∀ f, inp.filter_ = some f →
        f.length ≠ inp.jetsLVec_.length →
      ∃ msg, inp.lengthChecks = some (Fault.TTException msg)
        ∧ (toString inp.jetsLVec_.length).toList <:+: msg.toList
        ∧ (toString f.length).toList <:+: msg.toList) := by
  constructor
  · intro hne
    refine ⟨"Unequal vector size!!!!!!!\n"
      ++ toString inp.jetsLVec_.length ++ "\t" ++ toString inp.btagFactors_.length, ?_, ?_, ?_⟩
    · have hc : inp.checkBtagQGL = some (Fault.TTException ("Unequal vector size!!!!!!!\n"
          ++ toString inp.jetsLVec_.length ++ "\t" ++ toString inp.btagFactors_.length)) := by
        unfold ConstAK4Inputs.checkBtagQGL
        rw [if_pos (Or.inl (fun e => hne e.symm))]
      simp only [ConstAK4Inputs.lengthChecks, hc]
    · exact ⟨("Unequal vector size!!!!!!!\n").toList,
        ("\t" ++ toString inp.btagFactors_.length).toList,
        by simp only [String.toList, String.data_append, List.append_assoc]⟩
    · exact ⟨("Unequal vector size!!!!!!!\n" ++ toString inp.jetsLVec_.length ++ "\t").toList, [],
        by simp only [String.toList, String.data_append, List.append_assoc, List.append_nil]⟩
  · intro hb f hf hne
    refine ⟨"Unequal vector size between filter and jet vectors!!!!!!!\n"
      ++ toString inp.jetsLVec_.length ++ "\t" ++ toString f.length, ?_, ?_, ?_⟩
    · have hc : inp.checkFilter = some (Fault.TTException
          ("Unequal vector size between filter and jet vectors!!!!!!!\n"
            ++ toString inp.jetsLVec_.length ++ "\t" ++ toString f.length)) := by
        unfold ConstAK4Inputs.checkFilter
        rw [hf]
        simp only
        rw [if_pos (fun e => hne e.symm)]
      simp only [ConstAK4Inputs.lengthChecks, hb, hc]
    · exact ⟨("Unequal vector size between filter and jet vectors!!!!!!!\n").toList,
        ("\t" ++ toString f.length).toList,
        by simp only [String.toList, String.data_append, List.append_assoc]⟩
    · exact ⟨("Unequal vector size between filter and jet vectors!!!!!!!\n"
          ++ toString inp.jetsLVec_.length ++ "\t").toList, [],
        by simp only [String.toList, String.data_append, List.append_assoc, List.append_nil]⟩

/-- C19. AK4 packager called with two jets, two b-tag values and three
quark-gluon likelihoods: the first safety check throws, and the message holds
the jet count 2 twice but nowhere the length 3 of the quark-gluon likelihood
array, the array that differs from the jet array. -/
theorem ak4_qgl_mismatch_message_omits_length :
    exAK4QglLong.jetsLVec_.length = 2
    ∧ exAK4QglLong.btagFactors_.length = 2
    ∧ exAK4QglLong.qgLikelihood_.map List.length = some 3
    ∧ exAK4QglLong.packageConstituents xAxisRoot []
        = ⟨[], some (Fault.TTException "Unequal vector size!!!!!!!\n2\t2")⟩
    ∧ ¬ ((toString (3 : Nat)).toList <:+: ("Unequal vector size!!!!!!!\n2\t2").toList) := by
  refine ⟨rfl, rfl, rfl, ?_, by decide⟩
  decide

/-! ## The dijet ratio test -/

/-- C23. HEP dijet test: a candidate of two constituents and non-zero mass
passes the kinematic test if and only if
`Rmin_ < M(first constituent) / M(candidate) < Rmax_`, both comparisons strict
(for a candidate of mass zero the quotient is an infinity or NaN in C++ and the
test fails), so a ratio equal to either bound fails; the second constituent
enters through the candidate's mass only: another two-constituent candidate
with the same first constituent and the same candidate mass gets the same
result. -/
theorem hep_dijet_ratio_test (R : Root) (E : External) (m : TTMHEPRequirements)
    (topCand : TopObject) (j0 j1 : Constituent) (hc : topCand.constituents = [j0, j1]) :
    (R.M topCand.p ≠ 0 →
      (TTMHEPRequirements.passHEPRequirments R E m topCand = true
        ↔ m.Rmin_ < R.M j0.p / R.M topCand.p ∧ R.M j0.p / R.M topCand.p < m.Rmax_))
    ∧ (R.M topCand.p = 0 → TTMHEPRequirements.passHEPRequirments R E m topCand = false)
    ∧ ((R.M j0.p / R.M topCand.p = m.Rmin_ ∨ R.M j0.p / R.M topCand.p = m.Rmax_) →
        TTMHEPRequirements.passHEPRequirments R E m topCand = false)
    ∧ (∀ (other : TopObject) (k1 : Constituent), other.constituents = [j0, k1] →
        R.M other.p = R.M topCand.p →
        TTMHEPRequirements.passHEPRequirments R E m other
          = TTMHEPRequirements.passHEPRequirments R E m topCand) := by
  have hiff := hep_dijet_iff R E m topCand j0 j1 hc
  refine ⟨fun hne => ?_, hep_dijet_zero_mass R E m topCand j0 j1 hc, ?_, ?_⟩
  · rw [hiff]
    exact ⟨fun hh => hh.2, fun hh => ⟨hne, hh⟩⟩
  · intro h
    cases hp : TTMHEPRequirements.passHEPRequirments R E m topCand with
    | false => rfl
    | true =>
      obtain ⟨_, h1, h2⟩ := hiff.1 hp
      rcases h with h | h
      · rw [h] at h1; exact absurd h1 (lt_irrefl _)
      · rw [h] at h2; exact absurd h2 (lt_irrefl _)
  · intro other k1 ho hm
    simp only [TTMHEPRequirements.passHEPRequirments, ho, hc, hm]

/-- Witness of C23: the dijet at rest whose first constituent has mass 1 and
whose candidate mass is 4, with bounds 0 and 1: the ratio 1/4 lies strictly
between the bounds and the test passes; the dijet of two massless collinear
constituents, of candidate mass 0, fails the test with bounds -1 and 1. -/
theorem hep_dijet_ratio_test_witness :
    (xAxisRoot.M exDijet.p ≠ 0
      ∧ TTMHEPRequirements.passHEPRequirments xAxisRoot exExternal exHEPUnit exDijet = true)
    ∧ (xAxisRoot.M exMasslessDijet.p = 0
      ∧ exHEPWide.Rmin_ < 0 ∧ 0 < exHEPWide.Rmax_
      ∧ TTMHEPRequirements.passHEPRequirments xAxisRoot exExternal exHEPWide exMasslessDijet
          = false) := by
  have h0 : (exJet ⟨0, 0, 0, 1⟩).p = ⟨0, 0, 0, 1⟩ := rfl
  have hp : exDijet.p = ⟨0, 0, 0, 4⟩ := rfl
  have hM : xAxisRoot.M exDijet.p = 4 := by rw [hp, xAxisRoot_M_at_rest]; norm_num
  have hne : xAxisRoot.M exDijet.p ≠ 0 := by rw [hM]; norm_num
  have hz : xAxisRoot.M exMasslessDijet.p = 0 :=
    xAxisRoot_M_of_sq _ 0 (le_refl 0) (by norm_num [exMasslessDijet, TLorentzVector.M2])
  refine ⟨⟨hne, ?_⟩, hz, by decide, by decide, ?_⟩
  · apply ((hep_dijet_ratio_test xAxisRoot exExternal exHEPUnit exDijet
      (exJet ⟨0, 0, 0, 1⟩) (exJet ⟨0, 0, 0, 3⟩) rfl).1 hne).2
    rw [h0, hM, xAxisRoot_M_at_rest]
    norm_num [exHEPUnit]
  · exact (hep_dijet_ratio_test xAxisRoot exExternal exHEPWide exMasslessDijet
      (exJet ⟨1, 0, 0, 1⟩) (exJet ⟨2, 0, 0, 2⟩) rfl).2.1 hz

/-! ## Inverted non-negative bounds -/

/-- C28. HEP kinematic test with inverted non-negative bounds,
`0 <= Rmax_ < Rmin_`: whatever the masses, none of `criterionA`, `criterionB`,
`criterionC` and the dijet ratio test holds; the kinematic test fails for
every candidate of two or three constituents, and `run` promotes no such
candidate. -/
theorem hep_inverted_nonneg_bounds_fail (R : Root) (E : External) (m : TTMHEPRequirements)
    (h0 : 0 ≤ m.Rmax_) (hlt : m.Rmax_ < m.Rmin_) :
    (∀ m12 m23 m13 m123 : ℚ,
        TTMHEPRequirements.criterionA E m m12 m23 m13 m123 = false
        ∧ TTMHEPRequirements.criterionB m m12 m23 m13 m123 = false
        ∧ TTMHEPRequirements.criterionC m m12 m23 m13 m123 = false
        ∧ ¬ (m.Rmin_ < m23 / m123 ∧ m23 / m123 < m.Rmax_))
    ∧ (∀ topCand : TopObject,
        (topCand.constituents.length = 2 ∨ topCand.constituents.length = 3) →
        TTMHEPRequirements.passHEPRequirments R E m topCand = false)
    ∧ (∀ (tt : TopTaggerResults) (i : Nat) (c : TopObject), tt.topCandidates[i]? = some c →
        (c.constituents.length = 2 ∨ c.constituents.length = 3) →
        i ∉ (TTMHEPRequirements.run R E m tt).tops.drop tt.tops.length) := by
  have hsum : 0 ≤ m.Rmin_ + m.Rmax_ := by linarith
  have hfail := fun (c : TopObject) (hn : c.constituents.length = 2 ∨ c.constituents.length = 3) =>
    hep_kinematic_fails_of_inverted R E m c hlt hsum hn
  refine ⟨fun m12 m23 m13 m123 => ⟨hep_criterionA_needs_order E m m12 m23 m13 m123 hlt.le,
    hep_criterionB_needs_order m m12 m23 m13 m123 hlt hsum,
    hep_criterionC_needs_order m m12 m23 m13 m123 hlt hsum,
    fun h => absurd (h.1.trans h.2) (not_lt.mpr hlt.le)⟩, hfail, ?_⟩
  intro tt i c hi hn
  rw [hep_run_tops, List.drop_left, List.mem_filter]
  rintro ⟨_, hf⟩
  rw [hi] at hf
  simp only [Option.map_some', decide_eq_true_eq, Option.some.injEq, Bool.and_eq_true] at hf
  rw [hfail c hn] at hf
  exact absurd hf.1 (by simp)

/-- Witness of C28: with `Rmin_ = 1 > Rmax_ = 0` the dijet at rest and the
trijet at rest both fail the kinematic test. -/
theorem hep_inverted_nonneg_bounds_fail_witness :
    (0 ≤ exHEPInverted.Rmax_ ∧ exHEPInverted.Rmax_ < exHEPInverted.Rmin_)
    ∧ TTMHEPRequirements.passHEPRequirments xAxisRoot exExternal exHEPInverted exDijet = false
    ∧ TTMHEPRequirements.passHEPRequirments xAxisRoot exExternal exHEPInverted exRestTrijet
        = false := by
  have h := (hep_inverted_nonneg_bounds_fail xAxisRoot exExternal exHEPInverted
    (by decide) (by decide)).2.1
  exact ⟨⟨by decide, by decide⟩, h exDijet (Or.inl rfl), h exRestTrijet (Or.inr rfl)⟩

/-! ## Running a module twice -/

theorem ak8TopFilter_run_tops (m : TTMAK8TopFilter) (tt : TopTaggerResults) :
    (m.run tt).tops
      = tt.tops ++ (List.range tt.topCandidates.length).filter
          (fun i => decide ((tt.topCandidates[i]?).map (fun c => c.type) = some m.type_)) := by
  simp [TTMAK8TopFilter.run, List.enum, ak8TopFilter_runLoop]

theorem count_append_twice (S P : List Nat) (hP : P.Nodup) (i : Nat) (hi : i ∈ P) :
    List.count i (S ++ P ++ P) = List.count i S + 2 := by
  rw [List.count_append, List.count_append, List.count_eq_one_of_mem hP hi]

/-- C29. Resolution modules do not de-duplicate. Running the merged-object
filter twice in succession, or the HEP requirements module twice, leaves the
final-tops list equal to the original list `S` followed by the passing
candidates twice, `S ++ P ++ P`: every passing candidate occurs two more times
than in `S`, also when it was in `S` already. -/
theorem modules_do_not_deduplicate (R : Root) (E : External) (filter : TTMAK8TopFilter)
    (hep : TTMHEPRequirements) (tt : TopTaggerResults) :
    ((filter.run (filter.run tt)).tops
        = tt.tops
          ++ (List.range tt.topCandidates.length).filter
              (fun i => decide ((tt.topCandidates[i]?).map (fun c => c.type) = some filter.type_))
          ++ (List.range tt.topCandidates.length).filter
              (fun i => decide ((tt.topCandidates[i]?).map (fun c => c.type) = some filter.type_))
      ∧ ∀ i, i ∈ (List.range tt.topCandidates.length).filter
              (fun i => decide ((tt.topCandidates[i]?).map (fun c => c.type) = some filter.type_)) →
          List.count i (filter.run (filter.run tt)).tops = List.count i tt.tops + 2)
    ∧ ((TTMHEPRequirements.run R E hep (TTMHEPRequirements.run R E hep tt)).tops
        = tt.tops
          ++ (List.range tt.topCandidates.length).filter
              (fun i => decide ((tt.topCandidates[i]?).map (fun c =>
                TTMHEPRequirements.passHEPRequirments R E hep c
                  && TTMHEPRequirements.passBrequirements R E hep c) = some true))
          ++ (List.range tt.topCandidates.length).filter
              (fun i => decide ((tt.topCandidates[i]?).map (fun c =>
                TTMHEPRequirements.passHEPRequirments R E hep c
                  && TTMHEPRequirements.passBrequirements R E hep c) = some true))
      ∧ ∀ i, i ∈ (List.range tt.topCandidates.length).filter
              (fun i => decide ((tt.topCandidates[i]?).map (fun c =>
                TTMHEPRequirements.passHEPRequirments R E hep c
                  && TTMHEPRequirements.passBrequirements R E hep c) = some true)) →
          List.count i (TTMHEPRequirements.run R E hep (TTMHEPRequirements.run R E hep tt)).tops
            = List.count i tt.tops + 2) := by
  have hf : (filter.run (filter.run tt)).tops
      = tt.tops
        ++ (List.range tt.topCandidates.length).filter
            (fun i => decide ((tt.topCandidates[i]?).map (fun c => c.type) = some filter.type_))
        ++ (List.range tt.topCandidates.length).filter
            (fun i => decide ((tt.topCandidates[i]?).map (fun c => c.type) = some filter.type_)) := by
    rw [ak8TopFilter_run_tops filter (filter.run tt), ak8TopFilter_run_tops filter tt]
    rfl
  have hh : (TTMHEPRequirements.run R E hep (TTMHEPRequirements.run R E hep tt)).tops
      = tt.tops
        ++ (List.range tt.topCandidates.length).filter
            (fun i => decide ((tt.topCandidates[i]?).map (fun c =>
              TTMHEPRequirements.passHEPRequirments R E hep c
                && TTMHEPRequirements.passBrequirements R E hep c) = some true))
        ++ (List.range tt.topCandidates.length).filter
            (fun i => decide ((tt.topCandidates[i]?).map (fun c =>
              TTMHEPRequirements.passHEPRequirments R E hep c
                && TTMHEPRequirements.passBrequirements R E hep c) = some true)) := by
    rw [hep_run_tops R E hep (TTMHEPRequirements.run R E hep tt), hep_run_tops R E hep tt]
    rfl
  refine ⟨⟨hf, fun i hi => ?_⟩, ⟨hh, fun i hi => ?_⟩⟩
  · rw [hf]
    exact count_append_twice _ _ ((List.nodup_range _).filter _) i hi
  · rw [hh]
    exact count_append_twice _ _ ((List.nodup_range _).filter _) i hi

/-! ## Calibration curves loaded by file name -/

theorem setWMassCorrHistosFile_ok (F : TFileStore) (inp inp1 : ConstAK8Inputs) (fname : String)
    (h : ConstAK8Inputs.setWMassCorrHistosFile F inp fname = .ok inp1) :
    inp1.puppisd_corrGEN_ = none ∧ inp1.puppisd_corrRECO_cen_ = none
      ∧ inp1.puppisd_corrRECO_for_ = none
      ∧ ∀ puppipt puppieta : ℚ, inp1.getPUPPIweight puppipt puppieta = 1 := by
  unfold ConstAK8Inputs.setWMassCorrHistosFile at h
  simp only at h
  split at h
  · cases h
  · cases h
    refine ⟨rfl, rfl, rfl, fun pt eta => ?_⟩
    simp [ConstAK8Inputs.getPUPPIweight, ConstAK8Inputs.setWMassCorrHistos]

/-- C21, evaluation at the failing input. The file `wcorr.root` holds the
three named curves, with `gen(300) = 2`, `reco_central(300) = 3` and
`reco_forward(300) = 5`, so the corrections read from the file are 6 for a
central and 10 for a forward jet. `setWMassCorrHistos("wcorr.root")`
completes, the three curve members of the result are null, and
`getPUPPIweight` returns 1 at transverse momentum 300 for a central and for a
forward jet. -/
theorem setWMassCorrHistos_file_curves_unused :
    (((exCurveStore.Open "wcorr.root").bind (fun file => file "puppiJECcorr_gen")).map
        (fun gen => gen 300) = some 2
      ∧ ((exCurveStore.Open "wcorr.root").bind (fun file => file "puppiJECcorr_reco_0eta1v3")).map
        (fun cen => cen 300) = some 3
      ∧ ((exCurveStore.Open "wcorr.root").bind
          (fun file => file "puppiJECcorr_reco_1v3eta2v5")).map
        (fun fwd => fwd 300) = some 5)
    ∧ ∃ inp1, ConstAK8Inputs.setWMassCorrHistosFile exCurveStore exAK8Pool "wcorr.root" = .ok inp1
        ∧ inp1.puppisd_corrGEN_ = none ∧ inp1.puppisd_corrRECO_cen_ = none
        ∧ inp1.puppisd_corrRECO_for_ = none
        ∧ inp1.getPUPPIweight 300 0 = 1 ∧ inp1.getPUPPIweight 300 2 = 1 := by
  constructor
  · refine ⟨?_, ?_, ?_⟩ <;> simp [exCurveStore]
  · have hset : ConstAK8Inputs.setWMassCorrHistosFile exCurveStore exAK8Pool "wcorr.root"
        = .ok (exAK8Pool.setWMassCorrHistos none none none) := by
      simp [ConstAK8Inputs.setWMassCorrHistosFile, ConstAK8Inputs.prepHistosForWCorrectionFactors,
        exCurveStore]
    obtain ⟨h1, h2, h3, h4⟩ := setWMassCorrHistosFile_ok _ _ _ _ hset
    exact ⟨_, hset, h1, h2, h3, h4 300 0, h4 300 2⟩

/-! ## The AK4 packager without a quark-gluon likelihood -/

theorem ak4_emplace_no_qgl (inp : ConstAK4Inputs) (i : Nat) (c : Constituent)
    (h : inp.emplace i = .ok c) (hq : inp.qgLikelihood_ = none) :
    c.qgLikelihood = some 0 := by
  unfold ConstAK4Inputs.emplace ConstAK4Inputs.qglAt at h
  rw [hq] at h
  simp only at h
  split at h
  · rename_i p b q hp hb hq0
    cases hq0
    cases h
    rfl
  · cases h

theorem ak4_step_appended_no_qgl (R : Root) (inp : ConstAK4Inputs) (i : Nat) (c : Constituent)
    (h : (inp.step R i).appended = some c) (hq : inp.qgLikelihood_ = none) :
    c.qgLikelihood = some 0 := by
  unfold ConstAK4Inputs.step at h
  split at h
  · cases h
  · cases h
  · split at h
    · cases h
    · rename_i c0 he
      obtain ⟨m, d, a1, a2, ev, idx, g, hfr⟩ := ak4_fill_frame R inp i c0
      have hc : c = (inp.fill R i c0).1 := by
        split at h
        · rename_i c1 x hf; rw [hf]; simp [Step.appended] at h; exact h.symm
        · rename_i c1 hf; rw [hf]; simp [Step.appended] at h; exact h.symm
      rw [hc, hfr]
      exact ak4_emplace_no_qgl inp i c0 he hq

theorem ak4_step_basic (R : Root) (inp : ConstAK4Inputs) (i : Nat)
    (hi : i < inp.jetsLVec_.length) (hb : inp.btagFactors_.length = inp.jetsLVec_.length)
    (hq : inp.qgLikelihood_ = none) (hf : inp.filter_ = none) (hm : inp.qgMult_ = none)
    (he : inp.extraInputVariables_ = []) (hg : inp.hadGenTops_ = none) :
    ∃ c, inp.step R i = Step.push c ∧ some c.p = inp.jetsLVec_[i]?
      ∧ c.bTagDisc = inp.btagFactors_[i]? ∧ c.qgLikelihood = some 0 ∧ c.index = some i := by
  have hbi : i < inp.btagFactors_.length := by rw [hb]; exact hi
  refine ⟨(ConstituentOf.mkAK4 inp.jetsLVec_[i] inp.btagFactors_[i] 0).setIndex i, ?_, ?_, ?_,
    rfl, rfl⟩
  · simp [ConstAK4Inputs.step, skipJet, hf, ConstAK4Inputs.emplace, ConstAK4Inputs.qglAt, hq,
      readAt_of_lt _ _ hi, readAt_of_lt _ _ hbi, ConstAK4Inputs.fill, ConstAK4Inputs.addQGL, hm,
      he, ConstAK4Inputs.addExtraVars, ConstAK4Inputs.addGenMatches, hg]
  · rw [List.getElem?_eq_getElem hi]; rfl
  · rw [List.getElem?_eq_getElem hbi]; rfl

/-- C25 as stated fails: with one jet, one b-tag value and an empty
quark-gluon likelihood array handed to the constructor, the first safety
check throws and nothing is appended. -/
theorem ak4_empty_qgLikelihood_throws :
    exAK4EmptyQgl.jetsLVec_.length = 1 ∧ exAK4EmptyQgl.btagFactors_.length = 1
    ∧ exAK4EmptyQgl.qgLikelihood_ = some []
    ∧ exAK4EmptyQgl.packageConstituents xAxisRoot []
        = ⟨[], some (Fault.TTException "Unequal vector size!!!!!!!\n1\t1")⟩ := by
  refine ⟨rfl, rfl, rfl, ?_⟩
  decide

/-- C25, amended. The exception of the first safety check is for an input
built without a quark-gluon likelihood array (`qgLikelihood_` null). For such
an input the check compares the b-tag array with the jet array only, and every
constituent the packager appends has quark-gluon likelihood 0; when the input
comes from the basic constructor (no filter, no shape arrays, no extra
variables, no generator truth) with a b-tag array of the jet array's length
`N`, `packageConstituents` completes and appends `N` constituents in jet
order, the i-th with `jets[i]`, `btag[i]`, likelihood 0 and index `i`. An
array that is supplied and empty while there is at least one jet is a length
mismatch: the call throws and appends nothing. -/
theorem ak4_without_qgLikelihood (R : Root) (inp : ConstAK4Inputs) (cs : List Constituent)
    (hq : inp.qgLikelihood_ = none) :
    (inp.checkBtagQGL = none ↔ inp.btagFactors_.length = inp.jetsLVec_.length)
    ∧ (∃ L, (inp.packageConstituents R cs).constituents = cs ++ L
        ∧ ∀ c ∈ L, c.qgLikelihood = some 0)
    ∧ (inp.btagFactors_.length = inp.jetsLVec_.length → inp.filter_ = none →
        inp.qgMult_ = none → inp.extraInputVariables_ = [] → inp.hadGenTops_ = none →
        ∃ L, inp.packageConstituents R cs = ⟨cs ++ L, none⟩
          ∧ L.length = inp.jetsLVec_.length
          ∧ List.Forall₂ (fun i c => some c.p = inp.jetsLVec_[i]?
              ∧ c.bTagDisc = inp.btagFactors_[i]? ∧ c.qgLikelihood = some 0 ∧ c.index = some i)
            (List.range inp.jetsLVec_.length) L)
    ∧ (∀ inp2 : ConstAK4Inputs, inp2.qgLikelihood_ = some [] → 0 < inp2.jetsLVec_.length →
        ∃ msg, inp2.packageConstituents R cs = ⟨cs, some (Fault.TTException msg)⟩) := by
  have hcheck : inp.checkBtagQGL = none ↔ inp.btagFactors_.length = inp.jetsLVec_.length := by
    rw [ak4_checkBtagQGL_none]
    constructor
    · exact fun h => h.1
    · exact fun h => ⟨h, fun q hq2 => by rw [hq] at hq2; cases hq2⟩
  refine ⟨hcheck, ?_, ?_, ?_⟩
  · unfold ConstAK4Inputs.packageConstituents
    cases inp.lengthChecks with
    | some x => exact ⟨[], by simp, fun c hc => by cases hc⟩
    | none =>
      simp only [ak4_loop_eq_runSteps, runSteps_constituents]
      refine ⟨_, rfl, fun c hc => ?_⟩
      obtain ⟨i, _, hi⟩ := List.mem_filterMap.1 hc
      exact ak4_step_appended_no_qgl R inp i c hi hq
  · intro hb hf hm he hg
    have hlc : inp.lengthChecks = none := by
      rw [ak4_lengthChecks_none]
      refine ⟨hcheck.2 hb, ?_, ?_⟩
      · rw [ak4_checkFilter_none]
        intro f hf2
        rw [hf] at hf2
        cases hf2
      · simp [ConstAK4Inputs.checkQGLShape, hm]
    obtain ⟨L, hL, hall⟩ := runSteps_all_push
      (fun i c => some c.p = inp.jetsLVec_[i]? ∧ c.bTagDisc = inp.btagFactors_[i]?
        ∧ c.qgLikelihood = some 0 ∧ c.index = some i)
      (inp.step R) (List.range inp.jetsLVec_.length) cs
      (fun i hi => ak4_step_basic R inp i (List.mem_range.1 hi) hb hq hf hm he hg)
    refine ⟨L, ?_, ?_, hall⟩
    · simp only [ConstAK4Inputs.packageConstituents, hlc, ak4_loop_eq_runSteps, hL]
    · rw [← hall.length_eq, List.length_range]
  · intro inp2 hq2 hpos
    have hc : inp2.checkBtagQGL = some (Fault.TTException ("Unequal vector size!!!!!!!\n"
        ++ toString inp2.jetsLVec_.length ++ "\t" ++ toString inp2.btagFactors_.length)) := by
      unfold ConstAK4Inputs.checkBtagQGL
      rw [if_pos]
      right
      simp only [presentAndDiffers, hq2, List.length_nil, decide_eq_true_eq]
      omega
    exact ⟨"Unequal vector size!!!!!!!\n"
        ++ toString inp2.jetsLVec_.length ++ "\t" ++ toString inp2.btagFactors_.length,
      by simp only [ConstAK4Inputs.packageConstituents, ConstAK4Inputs.lengthChecks, hc]⟩

/-- Witness of C25, amended: two jets and their b-tag values handed to the
basic constructor; the call completes with two constituents of quark-gluon
likelihood 0. -/
theorem ak4_without_qgLikelihood_witness :
    exAK4Two.qgLikelihood_ = none
    ∧ ∃ L, exAK4Two.packageConstituents xAxisRoot [] = ⟨[] ++ L, none⟩ ∧ L.length = 2
        ∧ ∀ c ∈ L, c.qgLikelihood = some 0 := by
  have hthm := ak4_without_qgLikelihood xAxisRoot exAK4Two [] rfl
  obtain ⟨L, h1, h2, _⟩ := hthm.2.2.1 rfl rfl rfl rfl rfl
  obtain ⟨L2, h3, h4⟩ := hthm.2.1
  rw [h1] at h3
  have hL : L = L2 := by simpa using h3
  subst hL
  exact ⟨rfl, L, h1, h2, h4⟩

/-! ## Electron ID without isolation -/

theorem elecIDLoop_nat (n : Nat) (e b : Nat) :
    ∃ r : Nat, elecIDLoop n (e : Int) (b : Int) = (r : Int)
      ∧ (∀ i, i < n → r ≤ (b >>> (3 * i)) &&& 7) ∧ r ≤ e
      ∧ (r = e ∨ ∃ i, i < n ∧ r = (b >>> (3 * i)) &&& 7) := by
  induction n generalizing e b with
  | zero => exact ⟨e, rfl, fun i hi => absurd hi (Nat.not_lt_zero _), le_refl _, Or.inl rfl⟩
  | succ n ih =>
    obtain ⟨r, hr, hle, hre, hatt⟩ := ih (min e (b &&& 7)) (b >>> 3)
    refine ⟨r, ?_, ?_, ?_, ?_⟩
    · rw [elecIDLoop]
      have h1 : min (e : Int) (Int.land (b : Int) BITMASK) = ((min e (b &&& 7) : Nat) : Int) := by
        rw [Nat.cast_min]; rfl
      have h2 : ((b : Int) >>> BITSTRIDE) = ((b >>> 3 : Nat) : Int) := rfl
      rw [h1, h2, hr]
    · intro i hi
      cases i with
      | zero =>
        have := le_trans hre (min_le_right _ _)
        simpa using this
      | succ i =>
        have := hle i (by omega)
        rw [← Nat.shiftRight_add] at this
        have e3 : 3 * (i + 1) = 3 + 3 * i := by ring
        rw [e3]; exact this
    · exact le_trans hre (min_le_left _ _)
    · rcases hatt with h | ⟨i, hi, h⟩
      · rcases min_choice e (b &&& 7) with hm | hm
        · left; rw [h, hm]
        · right; exact ⟨0, by omega, by rw [h, hm]; simp⟩
      · right
        refine ⟨i + 1, by omega, ?_⟩
        rw [h, ← Nat.shiftRight_add]
        have e3 : 3 * (i + 1) = 3 + 3 * i := by ring
        rw [e3]

theorem isoMask_field (i : Nat) (hi : i < 10) :
    (14680064 >>> (3 * i)) &&& 7 = if i = 7 then 7 else 0 := by
  interval_cases i <;> rfl

theorem or_seven (x : Nat) (h : x ≤ 7) : x ||| 7 = 7 := by
  interval_cases x <;> rfl

theorem field_or_isoMask (c i : Nat) (hi : i < 10) :
    ((c ||| 14680064) >>> (3 * i)) &&& 7 = if i = 7 then 7 else (c >>> (3 * i)) &&& 7 := by
  have hd : (c ||| 14680064) >>> (3 * i) &&& 7
      = ((c >>> (3 * i)) &&& 7) ||| ((14680064 >>> (3 * i)) &&& 7) := by
    apply Nat.eq_of_testBit_eq
    intro j
    simp only [Nat.testBit_and, Nat.testBit_or, Nat.testBit_shiftRight]
    cases (7 : Nat).testBit j <;> simp
  rw [hd, isoMask_field i hi]
  by_cases h : i = 7
  · rw [if_pos h, if_pos h]
    exact or_seven _ Nat.and_le_right
  · rw [if_neg h, if_neg h, Nat.or_zero]

theorem elecID_nat (c : Nat) :
    ∃ r : Nat, elecID (c : Int) = (r : Int) ∧ r ≤ 7
      ∧ (∀ i, i < 10 → i ≠ 7 → r ≤ (c >>> (3 * i)) &&& 7)
      ∧ (∃ i, i < 10 ∧ i ≠ 7 ∧ r = (c >>> (3 * i)) &&& 7) := by
  obtain ⟨r, hr, hle, hre, hatt⟩ := elecIDLoop_nat 10 7 (c ||| 14680064)
  refine ⟨r, hr, hre, fun i hi h7 => ?_, ?_⟩
  · have := hle i hi
    rw [field_or_isoMask c i hi, if_neg h7] at this
    exact this
  · have h8 := hle 8 (by norm_num)
    rw [field_or_isoMask c 8 (by norm_num), if_neg (by norm_num)] at h8
    rcases hatt with h | ⟨i, hi, h⟩
    · refine ⟨8, by norm_num, by norm_num, ?_⟩
      have : (c >>> (3 * 8)) &&& 7 ≤ 7 := Nat.and_le_right
      omega
    · rw [field_or_isoMask c i hi] at h
      by_cases h7 : i = 7
      · rw [if_pos h7] at h
        refine ⟨8, by norm_num, by norm_num, ?_⟩
        have : (c >>> (3 * 8)) &&& 7 ≤ 7 := Nat.and_le_right
        omega
      · rw [if_neg h7] at h
        exact ⟨i, hi, h7, h⟩

/-- C26. Electron ID without isolation in the Python AK4 builder. For every
non-negative cut bitmap `c` (in particular for `0 <= c < 2^30`) the computed
`elecID` is the minimum of the nine 3-bit fields `(c >> 3i) & 7`, `i` in
`0..9` other than `i = 7`: it is at most each of them and equals one of them.
It lies in `0..7`, and it does not depend on bits 21 to 23 of `c`: two
bitmaps that agree on all other bits give the same `elecID`. -/
theorem elecID_is_min_without_isolation (c : Nat) :
    (∀ i, i < 10 → i ≠ 7 → elecID (c : Int) ≤ (((c >>> (3 * i)) &&& 7 : Nat) : Int))
    ∧ (∃ i, i < 10 ∧ i ≠ 7 ∧ elecID (c : Int) = (((c >>> (3 * i)) &&& 7 : Nat) : Int))
    ∧ (0 ≤ elecID (c : Int) ∧ elecID (c : Int) ≤ 7)
    ∧ (∀ c2 : Nat, c2 ||| 0o70000000 = c ||| 0o70000000 →
        elecID (c2 : Int) = elecID (c : Int)) := by
  obtain ⟨r, hr, h7, hle, i, hi, hne, hatt⟩ := elecID_nat c
  refine ⟨fun j hj hj7 => ?_, ⟨i, hi, hne, ?_⟩, ⟨?_, ?_⟩, ?_⟩
  · rw [hr]; exact_mod_cast hle j hj hj7
  · rw [hr, hatt]
  · rw [hr]; exact Int.natCast_nonneg r
  · rw [hr]; exact_mod_cast h7
  · intro c2 h
    show elecIDLoop NCUTS 7 ((c2 ||| 14680064 : Nat) : Int)
      = elecIDLoop NCUTS 7 ((c ||| 14680064 : Nat) : Int)
    have h2 : c2 ||| 14680064 = c ||| 14680064 := h
    rw [h2]

/-! ## Jet cleaning in the Python AK4 builder -/

theorem filterLoop_some (R : Root) (L : LeptonInputs) (jetsLV : List TLorentzVector)
    (idxs : List Nat) (v w : List Nat) (hnd : idxs.Nodup) (hlt : ∀ i ∈ idxs, i < v.length)
    (h : filterLoop R (some L) jetsLV idxs v = (w, none)) :
    w.length = v.length
      ∧ (∀ i ∈ idxs, ∃ b, filterEntry R L jetsLV i = .ok b ∧ w[i]? = some (if b then 1 else 0))
      ∧ (∀ i, i ∉ idxs → w[i]? = v[i]?) := by
  induction idxs generalizing v with
  | nil =>
    simp only [filterLoop, Prod.mk.injEq, and_true] at h
    subst h
    exact ⟨rfl, fun i hi => absurd hi (List.not_mem_nil i), fun _ _ => rfl⟩
  | cons i rest ih =>
    simp only [filterLoop] at h
    split at h
    · cases h
    · rename_i b hb
      obtain ⟨hi, hrest⟩ := List.nodup_cons.1 hnd
      have hiv : i < v.length := hlt i (List.mem_cons_self _ _)
      obtain ⟨h1, h2, h3⟩ := ih (v.set i (if b then 1 else 0)) hrest
        (fun j hj => by rw [List.length_set]; exact hlt j (List.mem_cons_of_mem _ hj)) h
      refine ⟨by rw [h1, List.length_set], ?_, ?_⟩
      · intro j hj
        rcases List.mem_cons.1 hj with rfl | hj
        · refine ⟨b, hb, ?_⟩
          rw [h3 j hi, List.getElem?_set_self hiv]
        · exact h2 j hj
      · intro j hj
        have hji : i ≠ j := fun e => hj (e ▸ List.mem_cons_self _ _)
        rw [h3 j (fun hm => hj (List.mem_cons_of_mem _ hm)), List.getElem?_set_ne hji]

theorem filterEntry_ok (R : Root) (L : LeptonInputs) (jetsLV : List TLorentzVector) (i : Nat)
    (b : Bool) (h : filterEntry R L jetsLV i = .ok b) :
    ∃ jet lep, jetsLV[i]? = some jet ∧ isLep R L jet i = .ok lep
      ∧ b = (!lep && decide (R.Pt jet ≥ 19.9)) := by
  unfold filterEntry at h
  split at h
  · cases h
  · rename_i jet hj
    split at h
    · cases h
    · rename_i lep hl
      cases h
      exact ⟨jet, lep, readAt_ok _ _ _ hj, hl, rfl⟩

theorem resize_length (v : List Nat) (n x : Nat) : (resize v n x).length = n := by
  simp only [resize, List.length_append, List.length_take, List.length_replicate]
  omega

theorem makeAK4Const_example :
    TopTaggerInterface_makeAK4Const exPtRoot exJets20 (some exNoLeptons) [] = ([1, 0], none) := by
  have h1 : ((19.95 : ℚ) ≥ 19.9) := by norm_num
  have h2 : ¬ ((19.5 : ℚ) ≥ 19.9) := by norm_num
  simp [TopTaggerInterface_makeAK4Const, resize, filterLoop, filterEntry, isLep, electronMatch,
    muonMatch, readAt, exJets20, exNoLeptons, exPtRoot, List.range_succ, h1, h2]

/-- C24 as stated fails: with the lepton arguments supplied and a jet of
transverse momentum 19.95, below 20, that is linked to no lepton, the builder
leaves the jet's filter entry true; the second jet, of transverse momentum
19.5, gets a false entry. -/
theorem makeAK4Const_keeps_jet_below_20 :
    (∃ jet, exJets20[0]? = some jet ∧ exPtRoot.Pt jet < 20)
    ∧ ∃ v, TopTaggerInterface_makeAK4Const exPtRoot exJets20 (some exNoLeptons) [] = (v, none)
        ∧ v[0]? = some 1 ∧ v[1]? = some 0 := by
  refine ⟨⟨⟨19.95, 0, 0, 20⟩, rfl, ?_⟩, [1, 0], makeAK4Const_example, rfl, rfl⟩
  show (19.95 : ℚ) < 20
  norm_num

/-- C24, amended. Jet cleaning in the Python AK4 builder, lepton arguments
supplied: when the builder completes, the filter has one entry per jet, and
the entry of a jet is false if and only if the jet is matched to a lepton or
has transverse momentum below 19.9; a jet with transverse momentum from 19.9
on (so also one with 19.9 <= pt < 20) that is matched to no lepton keeps a
true entry. -/
theorem makeAK4Const_filter (R : Root) (jetsLV : List TLorentzVector) (L : LeptonInputs)
    (filterVec v : List Nat)
    (h : TopTaggerInterface_makeAK4Const R jetsLV (some L) filterVec = (v, none)) :
    v.length = jetsLV.length
    ∧ ∀ (i : Nat) (jet : TLorentzVector), jetsLV[i]? = some jet →
        ∃ lep, isLep R L jet i = .ok lep
          ∧ (v[i]? = some 0 ↔ (lep = true ∨ R.Pt jet < 19.9))
          ∧ (v[i]? = some 1 ↔ (lep = false ∧ 19.9 ≤ R.Pt jet)) := by
  unfold TopTaggerInterface_makeAK4Const at h
  obtain ⟨h1, h2, _⟩ := filterLoop_some R L jetsLV (List.range jetsLV.length)
    (resize filterVec jetsLV.length 1) v (List.nodup_range _)
    (fun i hi => by rw [resize_length]; exact List.mem_range.1 hi) h
  refine ⟨by rw [h1, resize_length], fun i jet hj => ?_⟩
  have hi : i < jetsLV.length := by
    by_contra hge
    rw [List.getElem?_eq_none (not_lt.mp hge)] at hj
    cases hj
  obtain ⟨b, hb, hv⟩ := h2 i (List.mem_range.2 hi)
  obtain ⟨jet2, lep, hj2, hl, hbe⟩ := filterEntry_ok R L jetsLV i b hb
  rw [hj] at hj2
  cases hj2
  refine ⟨lep, hl, ?_, ?_⟩
  · rw [hv, hbe]
    cases lep
    · by_cases hp : R.Pt jet ≥ 19.9
      · simp [hp]
      · simp [hp]; exact not_le.mp hp
    · simp
  · rw [hv, hbe]
    cases lep
    · by_cases hp : R.Pt jet ≥ 19.9
      · simp [hp]
      · simp [hp]
    · simp

/-- Witness of C24, amended: two jets linked to no lepton, of transverse
momenta 19.95 and 19.5; the builder completes, keeps the first and filters
out the second. -/
theorem makeAK4Const_filter_witness :
    TopTaggerInterface_makeAK4Const exPtRoot exJets20 (some exNoLeptons) [] = ([1, 0], none)
    ∧ ([1, 0] : List Nat).length = exJets20.length
    ∧ ∃ lep, isLep exPtRoot exNoLeptons ⟨19.5, 0, 0, 20⟩ 1 = .ok lep
        ∧ (([1, 0] : List Nat)[1]? = some 0 ↔ (lep = true ∨ exPtRoot.Pt ⟨19.5, 0, 0, 20⟩ < 19.9)) := by
  have h := makeAK4Const_filter exPtRoot exJets20 exNoLeptons [] [1, 0] makeAK4Const_example
  obtain ⟨lep, h1, h2, _⟩ := h.2 1 ⟨19.5, 0, 0, 20⟩ rfl
  exact ⟨makeAK4Const_example, h.1, lep, h1, h2⟩

/-! ## Subjets built from the shared pool -/

theorem except_bind_ok {α β : Type} (x : Except Fault α) (f : α → Except Fault β) (r : β)
    (h : (x >>= f) = .ok r) : ∃ a, x = .ok a ∧ f a = .ok r := by
  cases x with
  | error e => cases h
  | ok a => exact ⟨a, rfl, h⟩

theorem setFrom_ok (attr : Option (List ℚ)) (i : Nat) (set : Subjet → ℚ → Subjet)
    (sj r : Subjet) (h : setFrom attr i set sj = .ok r) :
    (attr = none ∧ r = sj) ∨ ∃ a v, attr = some a ∧ a[i]? = some v ∧ r = set sj v := by
  unfold setFrom at h
  split at h
  · cases h; exact Or.inl ⟨rfl, rfl⟩
  · rename_i a
    split at h
    · rename_i v hv
      cases h
      exact Or.inr ⟨a, v, rfl, readAt_ok _ _ _ hv, rfl⟩
    · cases h

theorem setFrom_btag (attr : Option (List ℚ)) (i : Nat) (sj r : Subjet)
    (h : setFrom attr i (fun s v => s.setBTag v) sj = .ok r) :
    r.p = sj.p ∧ r.type = sj.type ∧ r.genMatches = sj.genMatches ∧ r.extraVars = sj.extraVars
      ∧ (∀ a, attr = some a → r.bTagDisc = a[i]?) := by
  rcases setFrom_ok _ _ _ _ _ h with ⟨hn, rfl⟩ | ⟨a, v, ha, hv, rfl⟩
  · exact ⟨rfl, rfl, rfl, rfl, fun a ha => by rw [hn] at ha; cases ha⟩
  · refine ⟨rfl, rfl, rfl, rfl, fun a2 ha2 => ?_⟩
    rw [ha] at ha2
    cases ha2
    rw [hv]
    rfl

theorem setFrom_extra (attr : Option (List ℚ)) (i : Nat) (name : String) (sj r : Subjet)
    (h : setFrom attr i (fun s v => s.setExtraVar name v) sj = .ok r) :
    r.p = sj.p ∧ r.type = sj.type ∧ r.genMatches = sj.genMatches ∧ r.bTagDisc = sj.bTagDisc
      ∧ (∀ n, n ≠ name → r.getExtraVar n = sj.getExtraVar n)
      ∧ (∀ a, attr = some a → r.getExtraVar name = a[i]?) := by
  rcases setFrom_ok _ _ _ _ _ h with ⟨hn, rfl⟩ | ⟨a, v, ha, hv, rfl⟩
  · exact ⟨rfl, rfl, rfl, rfl, fun _ _ => rfl, fun a ha => by rw [hn] at ha; cases ha⟩
  · refine ⟨rfl, rfl, rfl, rfl, fun n hn => ?_, fun a2 ha2 => ?_⟩
    · exact lookup_assign_ne name n v _ hn
    · rw [ha] at ha2
      cases ha2
      rw [hv]
      exact lookup_assign_self name v _

theorem poolSubjet_ok (inp : ConstAK8Inputs) (iSJ : Nat) (p : TLorentzVector) (sj : Subjet)
    (h : inp.poolSubjet iSJ p = .ok sj) :
    sj.p = p ∧ sj.type = ConstituentType.AK8SUBJET ∧ sj.genMatches = []
      ∧ (∀ a, inp.subjetsBtag_ = some a → sj.bTagDisc = a[iSJ]?)
      ∧ (∀ a, inp.subjetsMult_ = some a → sj.getExtraVar "mult" = a[iSJ]?)
      ∧ (∀ a, inp.subjetsPtD_ = some a → sj.getExtraVar "ptD" = a[iSJ]?)
      ∧ (∀ a, inp.subjetsAxis1_ = some a → sj.getExtraVar "axis1" = a[iSJ]?)
      ∧ (∀ a, inp.subjetsAxis2_ = some a → sj.getExtraVar "axis2" = a[iSJ]?) := by
  unfold ConstAK8Inputs.poolSubjet at h
  obtain ⟨s1, h1, h⟩ := except_bind_ok _ _ _ h
  obtain ⟨s2, h2, h⟩ := except_bind_ok _ _ _ h
  obtain ⟨s3, h3, h⟩ := except_bind_ok _ _ _ h
  obtain ⟨s4, h4, h5⟩ := except_bind_ok _ _ _ h
  obtain ⟨a1, b1, c1, _, e1⟩ := setFrom_btag _ _ _ _ h1
  obtain ⟨a2, b2, c2, d2, n2, e2⟩ := setFrom_extra _ _ _ _ _ h2
  obtain ⟨a3, b3, c3, d3, n3, e3⟩ := setFrom_extra _ _ _ _ _ h3
  obtain ⟨a4, b4, c4, d4, n4, e4⟩ := setFrom_extra _ _ _ _ _ h4
  obtain ⟨a5, b5, c5, d5, n5, e5⟩ := setFrom_extra _ _ _ _ _ h5
  refine ⟨?_, ?_, ?_, ?_, ?_, ?_, ?_, e5⟩
  · rw [a5, a4, a3, a2, a1]; rfl
  · rw [b5, b4, b3, b2, b1]; rfl
  · rw [c5, c4, c3, c2, c1]; rfl
  · intro a ha; rw [d5, d4, d3, d2]; exact e1 a ha
  · intro a ha
    rw [n5 "mult" (by decide), n4 "mult" (by decide), n3 "mult" (by decide)]
    exact e2 a ha
  · intro a ha
    rw [n5 "ptD" (by decide), n4 "ptD" (by decide)]
    exact e3 a ha
  · intro a ha
    rw [n5 "axis1" (by decide)]
    exact e4 a ha

theorem poolLoop_ok (R : Root) (inp : ConstAK8Inputs) (jet : TLorentzVector)
    (l : List (Nat × TLorentzVector)) (acc r : List Subjet)
    (h : inp.poolLoop R jet l acc = .ok r) :
    ∃ L, r = acc ++ L
      ∧ List.Forall₂ (fun e sj => inp.poolSubjet e.1 e.2 = .ok sj)
          (l.filter (fun e => decide (R.DeltaR jet e.2 < 0.8))) L := by
  induction l generalizing acc with
  | nil =>
    simp only [ConstAK8Inputs.poolLoop] at h
    cases h
    exact ⟨[], by simp, List.Forall₂.nil⟩
  | cons e rest ih =>
    obtain ⟨iSJ, p⟩ := e
    simp only [ConstAK8Inputs.poolLoop] at h
    by_cases hd : R.DeltaR jet p < 0.8
    · rw [if_pos hd] at h
      split at h
      · cases h
      · rename_i sj hsj
        obtain ⟨L, hL, hall⟩ := ih _ h
        refine ⟨sj :: L, by rw [hL]; simp, ?_⟩
        rw [List.filter_cons_of_pos (by simpa using hd)]
        exact List.Forall₂.cons hsj hall
    · rw [if_neg hd] at h
      obtain ⟨L, hL, hall⟩ := ih _ h
      refine ⟨L, hL, ?_⟩
      rw [List.filter_cons_of_neg (by simpa using hd)]
      exact hall

theorem ak8_findSubjets_pool (R : Root) (inp : ConstAK8Inputs) (i : Nat)
    (pool : List TLorentzVector) (jet : TLorentzVector) (subjets : List Subjet)
    (hv : inp.vecSubjetsLVec_ = none) (hp : inp.subjetsLVec_ = some pool)
    (hj : inp.jetsLVec_[i]? = some jet) (h : inp.findSubjets R i = .ok subjets) :
    ∃ matched, inp.poolLoop R jet pool.enum [] = .ok matched
      ∧ List.Forall₂ (fun e sj => inp.poolSubjet e.1 e.2 = .ok sj) (poolMatches R jet pool) matched
      ∧ (matched.length ≤ 2 → subjets = matched)
      ∧ (2 < matched.length → keepPair matched (pairSearch R jet matched) = .ok subjets) := by
  have hjl : i < inp.jetsLVec_.length := by
    by_contra hge
    rw [List.getElem?_eq_none (not_lt.mp hge)] at hj
    cases hj
  have hjet : inp.jetsLVec_[i] = jet := by
    rw [List.getElem?_eq_getElem hjl] at hj
    exact Option.some.inj hj
  unfold ConstAK8Inputs.findSubjets at h
  rw [hv, hp] at h
  simp only at h
  rw [readAt_of_lt _ _ hjl, hjet] at h
  simp only at h
  split at h
  · cases h
  · rename_i matched hm
    obtain ⟨L, hL, hall⟩ := poolLoop_ok R inp jet pool.enum [] matched hm
    rw [List.nil_append] at hL
    rw [← hL] at hall
    refine ⟨matched, hm, hall, ?_, ?_⟩
    · intro hle
      rw [if_neg (by omega)] at h
      cases h
      rfl
    · intro hgt
      rw [if_pos hgt] at h
      exact h

/-- C22. Geometric subjet association in the AK8 packager, shared subjet
pool. Every constituent the packager appends comes from a kept jet `i`; when
at most two pool subjets lie at `DeltaR` strictly below 0.8 from `jets[i]`, the
constituent's subjet list is exactly those pool subjets in pool order
(`poolMatches`), each of type `AK8SUBJET` with the four-momentum of its pool
entry and, for every attribute array supplied, the b-tag, `mult`, `ptD`,
`axis1` and `axis2` values stored at its own pool index. A pool subjet at
`DeltaR` exactly 0.8 is not matched. -/
theorem ak8_pool_association (R : Root) (inp : ConstAK8Inputs) (cs : List Constituent)
    (pool : List TLorentzVector)
    (hv : inp.vecSubjetsLVec_ = none) (hp : inp.subjetsLVec_ = some pool) :
    (∃ L ks, (inp.packageConstituents R cs).constituents = cs ++ L
      ∧ ks.Sublist (keptIndices inp.filter_ inp.jetsLVec_.length)
      ∧ List.Forall₂ (fun i c => ∃ jet, inp.jetsLVec_[i]? = some jet ∧ c.p = jet
          ∧ ((poolMatches R jet pool).length ≤ 2 →
              List.Forall₂ (fun e s => s.p = e.2 ∧ s.type = ConstituentType.AK8SUBJET
                  ∧ (∀ a, inp.subjetsBtag_ = some a → s.bTagDisc = a[e.1]?)
                  ∧ (∀ a, inp.subjetsMult_ = some a → s.getExtraVar "mult" = a[e.1]?)
                  ∧ (∀ a, inp.subjetsPtD_ = some a → s.getExtraVar "ptD" = a[e.1]?)
                  ∧ (∀ a, inp.subjetsAxis1_ = some a → s.getExtraVar "axis1" = a[e.1]?)
                  ∧ (∀ a, inp.subjetsAxis2_ = some a → s.getExtraVar "axis2" = a[e.1]?))
                (poolMatches R jet pool) c.subjets)) ks L
      ∧ ((inp.packageConstituents R cs).fault = none →
          ks = keptIndices inp.filter_ inp.jetsLVec_.length))
    ∧ (∀ jet p : TLorentzVector, R.DeltaR jet p = 0.8 → poolMatches R jet [p] = []) := by
  constructor
  · obtain ⟨L, ks, h1, h2, h3, h4⟩ := ak8_package_kept R inp cs
    refine ⟨L, ks, h1, h2, h3.imp (fun i c h => ?_), h4⟩
    obtain ⟨hpj, _, hsub⟩ := h
    refine ⟨c.p, hpj.symm, rfl, fun hle => ?_⟩
    obtain ⟨matched, _, hall, hsame, _⟩ :=
      ak8_findSubjets_pool R inp i pool c.p c.subjets hv hp hpj.symm hsub
    have hlen : matched.length ≤ 2 := by rw [← hall.length_eq]; exact hle
    rw [hsame hlen]
    refine hall.imp (fun e s hs => ?_)
    obtain ⟨a, b, _, d⟩ := poolSubjet_ok inp e.1 e.2 s hs
    exact ⟨a, b, d⟩
  · intro jet p h
    have hnot : ¬ R.DeltaR jet p < 0.8 := by rw [h]; exact lt_irrefl _
    simp [poolMatches, List.enum, List.enumFrom, hnot]

theorem exAK8Pool_matches :
    poolMatches (tableRoot exDeltaRPool) ⟨0, 0, 0, 10⟩ [⟨0, 0, 0, 2⟩, ⟨0, 0, 0, 2⟩, ⟨0, 0, 0, 5⟩]
      = [(2, ⟨0, 0, 0, 5⟩)] := by
  have h1 : ¬ ((0.8 : ℚ) < 0.8) := by norm_num
  have h2 : ((0.5 : ℚ) < 0.8) := by norm_num
  simp [poolMatches, List.enum, List.enumFrom, tableRoot, exDeltaRPool, h1, h2]

theorem exAK8Pool_completes :
    (exAK8Pool.packageConstituents (tableRoot exDeltaRPool) []).fault = none := by
  have h1 : ¬ ((0.8 : ℚ) < 0.8) := by norm_num
  have h2 : ((0.5 : ℚ) < 0.8) := by norm_num
  have hlc : exAK8Pool.lengthChecks = none := by decide
  rw [ConstAK8Inputs.packageConstituents, hlc]
  simp only
  rw [ak8_loop_eq_runSteps, runSteps_fault]
  simp [exAK8Pool, List.range_succ, ConstAK8Inputs.step, skipJet,
    ConstAK8Inputs.findSubjets, readAt, ConstAK8Inputs.poolLoop, List.enum, List.enumFrom,
    tableRoot, exDeltaRPool, h1, h2, ConstAK8Inputs.poolSubjet, setFrom, bind, Except.bind,
    ConstAK8Inputs.emplace, ConstAK8Inputs.fill, ConstAK8Inputs.setDisc,
    ConstAK8Inputs.addGenMatches, Step.fault]

/-- Witness of C22: one fat jet and a pool of three subjets of which only the
last lies within 0.8 (at 0.5; the other two lie at exactly 0.8). The call
completes with one constituent whose only subjet is pool entry 2, with the
b-tag 12 and the shape values 22, 32, 42, 52 stored at pool index 2. -/
theorem ak8_pool_association_witness :
    poolMatches (tableRoot exDeltaRPool) ⟨0, 0, 0, 10⟩ [⟨0, 0, 0, 2⟩, ⟨0, 0, 0, 2⟩, ⟨0, 0, 0, 5⟩]
      = [(2, ⟨0, 0, 0, 5⟩)]
    ∧ (exAK8Pool.packageConstituents (tableRoot exDeltaRPool) []).fault = none
    ∧ ∃ c s, (exAK8Pool.packageConstituents (tableRoot exDeltaRPool) []).constituents = [c]
        ∧ c.subjets = [s] ∧ s.p = ⟨0, 0, 0, 5⟩ ∧ s.bTagDisc = some 12
        ∧ s.getExtraVar "mult" = some 22 ∧ s.getExtraVar "ptD" = some 32
        ∧ s.getExtraVar "axis1" = some 42 ∧ s.getExtraVar "axis2" = some 52 := by
  refine ⟨exAK8Pool_matches, exAK8Pool_completes, ?_⟩
  obtain ⟨⟨L, ks, h1, _, h3, h4⟩, _⟩ := ak8_pool_association (tableRoot exDeltaRPool)
    exAK8Pool [] [⟨0, 0, 0, 2⟩, ⟨0, 0, 0, 2⟩, ⟨0, 0, 0, 5⟩] rfl rfl
  have hks := h4 exAK8Pool_completes
  have hk : keptIndices exAK8Pool.filter_ exAK8Pool.jetsLVec_.length = [0] := by decide
  rw [hk] at hks
  subst hks
  obtain ⟨c, rest, hc, hrest, rfl⟩ := List.forall₂_cons_left_iff.1 h3
  have hnil : rest = [] := by cases hrest; rfl
  subst hnil
  obtain ⟨jet, hj, _, hsub⟩ := hc
  have hjet : jet = ⟨0, 0, 0, 10⟩ := by
    have : exAK8Pool.jetsLVec_[0]? = some ⟨0, 0, 0, 10⟩ := rfl
    rw [this] at hj
    exact (Option.some.inj hj).symm
  rw [hjet, exAK8Pool_matches] at hsub
  obtain ⟨s, rest2, hs, hrest2, hsubj⟩ := List.forall₂_cons_left_iff.1 (hsub (by simp))
  have hnil2 : rest2 = [] := by cases hrest2; rfl
  subst hnil2
  obtain ⟨hp, _, hb, hm, hd, ha1, ha2⟩ := hs
  exact ⟨c, s, by simpa using h1, hsubj, hp, hb _ rfl, hm _ rfl, hd _ rfl, ha1 _ rfl, ha2 _ rfl⟩

/-! ## Truth association in the AK8 packager -/

theorem genMatchSubjets_eq (R : Root) (top d : TLorentzVector) (subjets : List Subjet)
    (c : Constituent) :
    genMatchSubjets R top d subjets c
      = { c with genMatches := c.genMatches
            ++ (subjets.filter (fun s => decide (R.DeltaR s.p d < 0.4))).map (fun _ => (top, d)) } := by
  induction subjets generalizing c with
  | nil => simp [genMatchSubjets]
  | cons sj rest ih =>
    simp only [genMatchSubjets, ih]
    by_cases h : R.DeltaR sj.p d < 0.4
    · simp [h, ConstituentOf.addGenMatch]
    · simp [h]

theorem genMatchDaughters8_eq (R : Root) (subjets : List Subjet) (top : TLorentzVector)
    (ds : List TLorentzVector) (c : Constituent) :
    genMatchDaughters8 R subjets top ds c
      = { c with genMatches := c.genMatches
            ++ (ds.map (fun d => (subjets.filter (fun s => decide (R.DeltaR s.p d < 0.4))).map
                (fun _ => (top, d)))).flatten } := by
  induction ds generalizing c with
  | nil => simp [genMatchDaughters8]
  | cons d rest ih =>
    simp only [genMatchDaughters8, ih, genMatchSubjets_eq]
    simp

theorem genMatchTops8_ok (R : Root) (subjets : List Subjet)
    (daughters : List (List TLorentzVector)) (tops : List TLorentzVector) (k : Nat)
    (c : Constituent) (h : (genMatchTops8 R subjets daughters tops k c).2 = none) :
    (genMatchTops8 R subjets daughters tops k c).1
      = { c with genMatches := c.genMatches
            ++ truthPairs8 R subjets tops (daughters.drop k) } := by
  induction tops generalizing k c with
  | nil => simp [genMatchTops8, truthPairs8]
  | cons t ts ih =>
    simp only [genMatchTops8] at h ⊢
    split at h
    · cases h
    · rename_i ds hds
      rw [ih (k + 1) _ h, genMatchDaughters8_eq]
      have hk := readAt_ok _ _ _ hds
      have hdrop : daughters.drop k = ds :: daughters.drop (k + 1) := by
        have hlt : k < daughters.length := by
          by_contra hge
          rw [List.getElem?_eq_none (not_lt.mp hge)] at hk
          cases hk
        rw [List.getElem?_eq_getElem hlt] at hk
        cases hk
        exact List.drop_eq_getElem_cons hlt
      simp [truthPairs8, hdrop]

theorem ak8_setDisc_frame (disc : Option (List ℚ)) (i : Nat)
    (set : Constituent → ℚ → Constituent) (c : Constituent)
    (hset : ∀ k v, (set k v).genMatches = k.genMatches ∧ (set k v).subjets = k.subjets) :
    (ConstAK8Inputs.setDisc disc i set c).1.genMatches = c.genMatches
      ∧ (ConstAK8Inputs.setDisc disc i set c).1.subjets = c.subjets := by
  unfold ConstAK8Inputs.setDisc
  split
  · exact ⟨rfl, rfl⟩
  · split
    · exact hset _ _
    · exact ⟨rfl, rfl⟩

theorem ak8_step_push (R : Root) (inp : ConstAK8Inputs) (i : Nat) (c : Constituent)
    (h : inp.step R i = Step.push c) :
    inp.findSubjets R i = .ok c.subjets
      ∧ ∀ tops daughters, inp.hadGenTops_ = some tops →
          inp.hadGenTopDaughters_ = some daughters →
          c.genMatches = truthPairs8 R c.subjets tops daughters := by
  have happ : (inp.step R i).appended = some c := by rw [h]; rfl
  have hsub := (ak8_step_appended R inp i c happ).2.2.2
  refine ⟨hsub, fun tops daughters ht hd => ?_⟩
  unfold ConstAK8Inputs.step at h
  rw [hsub] at h
  split at h
  · cases h
  · cases h
  · simp only at h
    split at h
    · cases h
    · rename_i c0 he
      split at h
      · cases h
      · rename_i c1 hf
        cases h
        obtain ⟨p, t1, t2, t3, m, w, _, _, hc0⟩ := ak8_emplace_ok R inp i c.subjets c0 he
        unfold ConstAK8Inputs.fill at hf
        have f1 := ak8_setDisc_frame inp.deepAK8Top_ i (fun k v => k.setTopDisc v) c0
          (fun _ _ => ⟨rfl, rfl⟩)
        split at hf
        · cases hf
        · rename_i k1 hk1
          rw [hk1] at f1
          simp only at f1
          have f2 := ak8_setDisc_frame inp.deepAK8W_ i (fun k v => k.setWDisc v) k1
            (fun _ _ => ⟨rfl, rfl⟩)
          split at hf
          · cases hf
          · rename_i k2 hk2
            rw [hk2] at f2
            simp only at f2
            unfold ConstAK8Inputs.addGenMatches at hf
            rw [ht, hd] at hf
            simp only at hf
            have hok := genMatchTops8_ok R c.subjets daughters tops 0 k2 (by rw [hf])
            rw [hf] at hok
            simp only [List.drop_zero] at hok
            have hg0 : k2.genMatches = [] := by
              rw [f2.1, f1.1, hc0]
              rfl
            have hgm : c.genMatches
                = k2.genMatches ++ truthPairs8 R c.subjets tops daughters := by
              conv_lhs => rw [hok]
            rw [hgm, hg0, List.nil_append]

theorem forall₂_right_mem {α β : Type} {P : α → β → Prop} {l1 : List α} {l2 : List β}
    (h : List.Forall₂ P l1 l2) : ∀ b ∈ l2, ∃ a, a ∈ l1 ∧ P a b := by
  induction h with
  | nil => exact fun b hb => absurd hb (List.not_mem_nil b)
  | cons hab _ ih =>
    intro b hb
    rcases List.mem_cons.1 hb with rfl | hb
    · exact ⟨_, List.mem_cons_self _ _, hab⟩
    · obtain ⟨a, ha, hp⟩ := ih b hb
      exact ⟨a, List.mem_cons_of_mem _ ha, hp⟩

theorem setFrom_genMatches (attr : Option (List ℚ)) (i : Nat) (set : Subjet → ℚ → Subjet)
    (sj r : Subjet) (hset : ∀ k v, (set k v).genMatches = k.genMatches)
    (h : setFrom attr i set sj = .ok r) : r.genMatches = sj.genMatches := by
  rcases setFrom_ok _ _ _ _ _ h with ⟨_, rfl⟩ | ⟨a, v, _, _, rfl⟩
  · rfl
  · exact hset _ _

theorem setFrom2_genMatches (attr : Option (List (List ℚ))) (iJet iSJ : Nat)
    (set : Subjet → ℚ → Subjet) (sj r : Subjet)
    (hset : ∀ k v, (set k v).genMatches = k.genMatches)
    (h : setFrom2 attr iJet iSJ set sj = .ok r) : r.genMatches = sj.genMatches := by
  unfold setFrom2 at h
  split at h
  · cases h; rfl
  · split at h
    · exact setFrom_genMatches _ _ _ _ _ hset h
    · cases h

theorem explicitSubjet_genMatches (inp : ConstAK8Inputs) (iJet iSJ : Nat) (p : TLorentzVector)
    (sj : Subjet) (h : inp.explicitSubjet iJet iSJ p = .ok sj) : sj.genMatches = [] := by
  unfold ConstAK8Inputs.explicitSubjet at h
  obtain ⟨s1, h1, h⟩ := except_bind_ok _ _ _ h
  obtain ⟨s2, h2, h⟩ := except_bind_ok _ _ _ h
  obtain ⟨s3, h3, h⟩ := except_bind_ok _ _ _ h
  obtain ⟨s4, h4, h5⟩ := except_bind_ok _ _ _ h
  have g5 := setFrom2_genMatches inp.vecSubjetsAxis2_ iJet iSJ
    (fun s v => s.setExtraVar "axis2" v) s4 sj (fun _ _ => rfl) h5
  have g4 := setFrom2_genMatches inp.vecSubjetsAxis1_ iJet iSJ
    (fun s v => s.setExtraVar "axis1" v) s3 s4 (fun _ _ => rfl) h4
  have g3 := setFrom2_genMatches inp.vecSubjetsPtD_ iJet iSJ
    (fun s v => s.setExtraVar "ptD" v) s2 s3 (fun _ _ => rfl) h3
  have g2 := setFrom2_genMatches inp.vecSubjetsMult_ iJet iSJ
    (fun s v => s.setExtraVar "mult" v) s1 s2 (fun _ _ => rfl) h2
  have g1 := setFrom2_genMatches inp.vecSubjetsBtag_ iJet iSJ
    (fun s v => s.setBTag v) _ s1 (fun _ _ => rfl) h1
  rw [g5, g4, g3, g2, g1]
  rfl

theorem explicitLoop_genMatches (inp : ConstAK8Inputs) (iJet : Nat)
    (l : List (Nat × TLorentzVector)) (acc r : List Subjet)
    (hacc : ∀ s ∈ acc, s.genMatches = []) (h : inp.explicitLoop iJet l acc = .ok r) :
    ∀ s ∈ r, s.genMatches = [] := by
  induction l generalizing acc with
  | nil => simp only [ConstAK8Inputs.explicitLoop] at h; cases h; exact hacc
  | cons e rest ih =>
    obtain ⟨iSJ, p⟩ := e
    simp only [ConstAK8Inputs.explicitLoop] at h
    split at h
    · cases h
    · rename_i sj hsj
      refine ih _ (fun s hs => ?_) h
      rcases List.mem_append.1 hs with hs | hs
      · exact hacc s hs
      · rw [List.mem_singleton.1 hs]
        exact explicitSubjet_genMatches inp iJet iSJ p sj hsj

theorem keepPair_mem (subjets : List Subjet) (st : PairState) (r : List Subjet)
    (h : keepPair subjets st = .ok r) : ∀ s ∈ r, s ∈ subjets := by
  unfold keepPair at h
  split at h
  · rename_i a b ha hb
    cases h
    intro s hs
    rcases List.mem_cons.1 hs with rfl | hs
    · exact List.mem_iff_getElem?.2 ⟨_, readAt_ok _ _ _ ha⟩
    · rw [List.mem_singleton.1 hs]
      exact List.mem_iff_getElem?.2 ⟨_, readAt_ok _ _ _ hb⟩
  · cases h

theorem ak8_subjets_no_genMatches (R : Root) (inp : ConstAK8Inputs) (i : Nat)
    (subjets : List Subjet) (h : inp.findSubjets R i = .ok subjets) :
    ∀ s ∈ subjets, s.genMatches = [] := by
  unfold ConstAK8Inputs.findSubjets at h
  split at h
  · split at h
    · cases h
    · exact explicitLoop_genMatches inp i _ [] subjets (fun s hs => by cases hs) h
  · split at h
    · split at h
      · cases h
      · rename_i jet _
        split at h
        · cases h
        · rename_i matched hm
          obtain ⟨L, hL, hall⟩ := poolLoop_ok R inp jet _ [] matched hm
          rw [List.nil_append] at hL
          rw [← hL] at hall
          have hmatched : ∀ s ∈ matched, s.genMatches = [] := by
            intro s hs
            obtain ⟨e, _, he⟩ := forall₂_right_mem hall s hs
            exact (poolSubjet_ok inp _ _ _ he).2.2.1
          split at h
          · exact fun s hs => hmatched s (keepPair_mem _ _ _ h s hs)
          · cases h
            exact hmatched
    · cases h
      exact fun s hs => by cases hs

/-- C30. Truth association in the AK8 packager, generator-truth arrays
supplied. Every merged-jet constituent whose loop iteration ran to its end
holds exactly the associations `truthPairs8` of its kept subjets: one pair
(gen top `t`, daughter `d`) for every triple of a generator top `t`, a
daughter `d` of `t` and a kept subjet `s` with `DeltaR(s, d) < 0.4`, so their
number is the number of such triples and a daughter within 0.4 of both kept
subjets is recorded twice; the subjets themselves hold no association; a
constituent without kept subjets holds none, and the jet's own four-momentum
does not enter. These constituents `Lc` are all that is appended, but for at
most one constituent `Lp` left behind by an iteration a fault interrupted. -/
theorem ak8_truth_association (R : Root) (inp : ConstAK8Inputs) (cs : List Constituent)
    (tops : List TLorentzVector) (daughters : List (List TLorentzVector))
    (ht : inp.hadGenTops_ = some tops) (hd : inp.hadGenTopDaughters_ = some daughters) :
    (∃ Lc Lp ksc, (inp.packageConstituents R cs).constituents = cs ++ (Lc ++ Lp)
      ∧ List.Forall₂ (fun i c => inp.findSubjets R i = .ok c.subjets
          ∧ c.genMatches = truthPairs8 R c.subjets tops daughters
          ∧ ∀ s ∈ c.subjets, s.genMatches = []) ksc Lc
      ∧ Lp.length ≤ 1
      ∧ ((inp.packageConstituents R cs).fault = none →
          Lp = [] ∧ ksc = keptIndices inp.filter_ inp.jetsLVec_.length))
    ∧ (∀ subjets : List Subjet, (truthPairs8 R subjets tops daughters).length
        = ((tops.zip daughters).map (fun td =>
            (td.2.map (fun d =>
              subjets.countP (fun s => decide (R.DeltaR s.p d < 0.4)))).sum)).sum)
    ∧ truthPairs8 R [] tops daughters = []
    ∧ (∀ (s1 s2 : Subjet) (t d : TLorentzVector), R.DeltaR s1.p d < 0.4 →
        R.DeltaR s2.p d < 0.4 → truthPairs8 R [s1, s2] [t] [[d]] = [(t, d), (t, d)]) := by
  refine ⟨?_, ?_, ?_, ?_⟩
  · unfold ConstAK8Inputs.packageConstituents
    cases hc : inp.lengthChecks with
    | some x =>
      exact ⟨[], [], [], by simp, List.Forall₂.nil, by simp, fun h => by simp at h⟩
    | none =>
      simp only [ak8_loop_eq_runSteps]
      obtain ⟨Lc, Lp, ksc, ksp, h1, _, h3, _, h5, h6⟩ := runSteps_split
        (fun _ _ => True)
        (fun i c => inp.findSubjets R i = .ok c.subjets
          ∧ c.genMatches = truthPairs8 R c.subjets tops daughters
          ∧ ∀ s ∈ c.subjets, s.genMatches = [])
        (isKept inp.filter_) (inp.step R) (List.range inp.jetsLVec_.length) cs
        (ak8_step_skip R inp)
        (fun i c h => ⟨(ak8_step_appended R inp i c h).1, trivial⟩)
        (fun i c h => by
          obtain ⟨hsub, hg⟩ := ak8_step_push R inp i c h
          exact ⟨hsub, hg tops daughters ht hd, ak8_subjets_no_genMatches R inp i c.subjets hsub⟩)
      exact ⟨Lc, Lp, ksc, h1, h3, h5, h6⟩
  · intro subjets
    simp only [truthPairs8, List.length_flatten, List.map_map]
    congr 1
    apply List.map_congr_left
    intro td _
    simp only [Function.comp_apply, List.length_flatten, List.map_map]
    congr 1
    apply List.map_congr_left
    intro d _
    simp only [Function.comp_apply, List.length_map, List.countP_eq_length_filter]
  · simp [truthPairs8]
  · intro s1 s2 t d h1 h2
    simp [truthPairs8, h1, h2]

theorem exAK8Truth_completes :
    (exAK8Truth.packageConstituents (tableRoot exDeltaRTruth) []).fault = none := by
  have h1 : ((0.5 : ℚ) < 0.8) := by norm_num
  have hlc : exAK8Truth.lengthChecks = none := by decide
  rw [ConstAK8Inputs.packageConstituents, hlc]
  simp only
  rw [ak8_loop_eq_runSteps, runSteps_fault]
  simp [exAK8Truth, List.range_succ, ConstAK8Inputs.step, skipJet,
    ConstAK8Inputs.findSubjets, readAt, ConstAK8Inputs.poolLoop, List.enum, List.enumFrom,
    tableRoot, exDeltaRTruth, daughterNear, h1, ConstAK8Inputs.poolSubjet, setFrom, bind,
    Except.bind, ConstAK8Inputs.emplace, ConstAK8Inputs.fill, ConstAK8Inputs.setDisc,
    ConstAK8Inputs.addGenMatches, genMatchTops8, Step.fault]

theorem exAK8Truth_subjets :
    exAK8Truth.findSubjets (tableRoot exDeltaRTruth) 0
      = .ok [ConstituentOf.mkTyped ⟨0, 0, 0, 2⟩ ConstituentType.AK8SUBJET,
             ConstituentOf.mkTyped ⟨0, 0, 0, 5⟩ ConstituentType.AK8SUBJET] := by
  have h1 : ((0.5 : ℚ) < 0.8) := by norm_num
  simp [ConstAK8Inputs.findSubjets, exAK8Truth, readAt, ConstAK8Inputs.poolLoop, List.enum,
    List.enumFrom, tableRoot, exDeltaRTruth, daughterNear, h1, ConstAK8Inputs.poolSubjet,
    setFrom, bind, Except.bind]

/-- Witness of C30: one fat jet with two kept subjets, one generator top and
its two daughters, the first within 0.4 of both subjets (at 0.3) and the
second beyond (at 0.5). The call completes and the one constituent holds the
association with the first daughter twice. -/
theorem ak8_truth_association_witness :
    exAK8Truth.hadGenTops_ = some [genTopA]
    ∧ exAK8Truth.hadGenTopDaughters_ = some [[daughterNear, daughterFar]]
    ∧ (exAK8Truth.packageConstituents (tableRoot exDeltaRTruth) []).fault = none
    ∧ ∃ c, (exAK8Truth.packageConstituents (tableRoot exDeltaRTruth) []).constituents = [c]
        ∧ c.subjets.length = 2
        ∧ c.genMatches = [(genTopA, daughterNear), (genTopA, daughterNear)] := by
  refine ⟨rfl, rfl, exAK8Truth_completes, ?_⟩
  obtain ⟨⟨Lc, Lp, ksc, h1, h2, _, h4⟩, _⟩ :=
    ak8_truth_association (tableRoot exDeltaRTruth) exAK8Truth []
      [genTopA] [[daughterNear, daughterFar]] rfl rfl
  obtain ⟨hLp, hks⟩ := h4 exAK8Truth_completes
  have hk : keptIndices exAK8Truth.filter_ exAK8Truth.jetsLVec_.length = [0] := by decide
  rw [hk] at hks
  subst hks hLp
  obtain ⟨c, rest, hc, hrest, rfl⟩ := List.forall₂_cons_left_iff.1 h2
  have hnil : rest = [] := by cases hrest; rfl
  subst hnil
  obtain ⟨hsub, hg, _⟩ := hc
  rw [exAK8Truth_subjets] at hsub
  have hs : c.subjets = [ConstituentOf.mkTyped ⟨0, 0, 0, 2⟩ ConstituentType.AK8SUBJET,
      ConstituentOf.mkTyped ⟨0, 0, 0, 5⟩ ConstituentType.AK8SUBJET] :=
    (Except.ok.inj hsub).symm
  refine ⟨c, by simpa using h1, by rw [hs]; rfl, ?_⟩
  rw [hg, hs]
  have h3 : ((0.3 : ℚ) < 0.4) := by norm_num
  have h5 : ¬ ((0.5 : ℚ) < 0.4) := by norm_num
  simp [truthPairs8, tableRoot, exDeltaRTruth, daughterNear, daughterFar, h3, h5]

/-! ## The exact result of the subjet pair search -/

theorem pairFold_append (a b : List (Nat × Nat × ℚ)) (st : PairState) :
    pairFold (a ++ b) st = pairFold b (pairFold a st) := by
  induction a generalizing st with
  | nil => rfl
  | cons x rest ih =>
    obtain ⟨j, k, d⟩ := x
    simp only [List.cons_append, pairFold]
    exact ih _

theorem pairInner_eq_fold (R : Root) (jet : TLorentzVector) (j : Nat) (sj : Subjet)
    (rest : List (Nat × Subjet)) (st : PairState) :
    pairInner R jet j sj rest st
      = pairFold (rest.map (fun e => (j, e.1, pairResidual R jet sj e.2))) st := by
  induction rest generalizing st with
  | nil => rfl
  | cons e rest ih =>
    obtain ⟨k, sk⟩ := e
    simp only [pairInner, List.map_cons, pairFold, pairResidual, ih]

theorem pairOuter_eq_fold (R : Root) (jet : TLorentzVector) (l : List (Nat × Subjet))
    (st : PairState) : pairOuter R jet l st = pairFold (pairItems R jet l) st := by
  induction l generalizing st with
  | nil => rfl
  | cons e rest ih =>
    obtain ⟨j, sj⟩ := e
    simp only [pairOuter, pairItems, pairFold_append, pairInner_eq_fold, ih]

theorem pairFold_spec (items : List (Nat × Nat × ℚ)) (st : PairState) :
    (∀ x ∈ items, (pairFold items st).min_diff ≤ x.2.2)
      ∧ (pairFold items st).min_diff ≤ st.min_diff
      ∧ ((pairFold items st = st ∧ ∀ x ∈ items, ¬ x.2.2 < st.min_diff)
        ∨ ∃ pre x post, items = pre ++ x :: post
            ∧ pairFold items st = ⟨x.2.2, x.1, x.2.1⟩ ∧ x.2.2 < st.min_diff
            ∧ ∀ y ∈ pre, x.2.2 < y.2.2) := by
  induction items generalizing st with
  | nil => exact ⟨fun x hx => absurd hx (List.not_mem_nil x), le_refl _,
      Or.inl ⟨rfl, fun x hx => absurd hx (List.not_mem_nil x)⟩⟩
  | cons a rest ih =>
    obtain ⟨j, k, d⟩ := a
    simp only [pairFold]
    by_cases hd : d < st.min_diff
    · rw [if_pos hd]
      obtain ⟨h1, h2, h3⟩ := ih ⟨d, j, k⟩
      refine ⟨fun x hx => ?_, le_trans h2 hd.le, Or.inr ?_⟩
      · rcases List.mem_cons.1 hx with rfl | hx
        · exact h2
        · exact h1 x hx
      · rcases h3 with ⟨he, hall⟩ | ⟨pre, x, post, hsplit, he, hlt, hpre⟩
        · exact ⟨[], (j, k, d), rest, rfl, he, hd, fun y hy => absurd hy (List.not_mem_nil y)⟩
        · refine ⟨(j, k, d) :: pre, x, post, by rw [hsplit]; rfl, he, lt_trans hlt hd, ?_⟩
          intro y hy
          rcases List.mem_cons.1 hy with rfl | hy
          · exact hlt
          · exact hpre y hy
    · rw [if_neg hd]
      obtain ⟨h1, h2, h3⟩ := ih st
      refine ⟨fun x hx => ?_, h2, ?_⟩
      · rcases List.mem_cons.1 hx with rfl | hx
        · exact le_trans h2 (not_lt.mp hd)
        · exact h1 x hx
      · rcases h3 with ⟨he, hall⟩ | ⟨pre, x, post, hsplit, he, hlt, hpre⟩
        · refine Or.inl ⟨he, fun x hx => ?_⟩
          rcases List.mem_cons.1 hx with rfl | hx
          · exact hd
          · exact hall x hx
        · refine Or.inr ⟨(j, k, d) :: pre, x, post, by rw [hsplit]; rfl, he, hlt, ?_⟩
          intro y hy
          rcases List.mem_cons.1 hy with rfl | hy
          · exact lt_of_lt_of_le hlt (not_lt.mp hd)
          · exact hpre y hy

theorem pairItems_mem (R : Root) (jet : TLorentzVector) (l : List (Nat × Subjet))
    (hl : l.Pairwise (fun a b => a.1 < b.1)) (j k : Nat) (d : ℚ) :
    (j, k, d) ∈ pairItems R jet l
      ↔ ∃ sj sk, (j, sj) ∈ l ∧ (k, sk) ∈ l ∧ j < k ∧ d = pairResidual R jet sj sk := by
  induction l with
  | nil => simp [pairItems]
  | cons e rest ih =>
    obtain ⟨j0, s0⟩ := e
    obtain ⟨hhead, htail⟩ := List.pairwise_cons.1 hl
    simp only [pairItems, List.mem_append, List.mem_map, Prod.mk.injEq, ih htail,
      List.mem_cons]
    constructor
    · rintro (⟨e, he, rfl, rfl, rfl⟩ | ⟨sj, sk, hj, hk, hlt, hd⟩)
      · exact ⟨s0, e.2, Or.inl ⟨rfl, rfl⟩, Or.inr he, hhead e he, rfl⟩
      · exact ⟨sj, sk, Or.inr hj, Or.inr hk, hlt, hd⟩
    · rintro ⟨sj, sk, hj, hk, hlt, hd⟩
      rcases hj with ⟨rfl, rfl⟩ | hj
      · rcases hk with ⟨rfl, rfl⟩ | hk
        · exact absurd hlt (lt_irrefl _)
        · exact Or.inl ⟨(k, sk), hk, rfl, rfl, hd.symm⟩
      · rcases hk with ⟨rfl, rfl⟩ | hk
        · exact absurd (lt_trans (hhead _ hj) hlt) (lt_irrefl _)
        · exact Or.inr ⟨sj, sk, hj, hk, hlt, hd⟩

theorem pairItems_sorted (R : Root) (jet : TLorentzVector) (l : List (Nat × Subjet))
    (hl : l.Pairwise (fun a b => a.1 < b.1)) :
    (pairItems R jet l).Pairwise (fun x y => pairBefore (x.1, x.2.1) (y.1, y.2.1)) := by
  induction l with
  | nil => exact List.Pairwise.nil
  | cons e rest ih =>
    obtain ⟨j0, s0⟩ := e
    obtain ⟨hhead, htail⟩ := List.pairwise_cons.1 hl
    simp only [pairItems]
    rw [List.pairwise_append]
    refine ⟨?_, ih htail, ?_⟩
    · rw [List.pairwise_map]
      exact htail.imp (fun h => Or.inr ⟨rfl, h⟩)
    · intro x hx y hy
      obtain ⟨e, he, rfl⟩ := List.mem_map.1 hx
      obtain ⟨j, k, d⟩ := y
      obtain ⟨sj, sk, hj, _, _, _⟩ := (pairItems_mem R jet rest htail j k d).1 hy
      exact Or.inl (hhead _ hj)

theorem pairBefore_asymm (a b : Nat × Nat) (h1 : pairBefore a b) (h2 : pairBefore b a) : False := by
  unfold pairBefore at h1 h2
  omega

theorem pairBefore_irrefl (a : Nat × Nat) (h : pairBefore a a) : False := by
  unfold pairBefore at h
  omega

theorem enum_pairwise {α : Type} (l : List α) : l.enum.Pairwise (fun a b => a.1 < b.1) := by
  have h : (l.enum.map Prod.fst).Pairwise (· < ·) := by
    rw [List.enum_map_fst]
    exact List.pairwise_lt_range _
  exact List.pairwise_map.1 h

theorem pairSearch_spec (R : Root) (jet : TLorentzVector) (subjets : List Subjet) :
    (pairSearch R jet subjets = ⟨999999, 0, 1⟩
      ∧ ∀ (a b : Nat) (sa sb : Subjet), a < b → subjets[a]? = some sa → subjets[b]? = some sb →
          ¬ pairResidual R jet sa sb < 999999)
    ∨ ∃ (j k : Nat) (sj sk : Subjet), j < k ∧ subjets[j]? = some sj ∧ subjets[k]? = some sk
        ∧ pairSearch R jet subjets = ⟨pairResidual R jet sj sk, j, k⟩
        ∧ pairResidual R jet sj sk < 999999
        ∧ (∀ (a b : Nat) (sa sb : Subjet), a < b → subjets[a]? = some sa → subjets[b]? = some sb →
            pairResidual R jet sj sk ≤ pairResidual R jet sa sb)
        ∧ (∀ (a b : Nat) (sa sb : Subjet), a < b → subjets[a]? = some sa → subjets[b]? = some sb →
            pairBefore (a, b) (j, k) → pairResidual R jet sj sk < pairResidual R jet sa sb) := by
  have hinc := enum_pairwise subjets
  have hmem : ∀ a b d, (a, b, d) ∈ pairItems R jet subjets.enum
      ↔ ∃ sa sb, subjets[a]? = some sa ∧ subjets[b]? = some sb ∧ a < b
          ∧ d = pairResidual R jet sa sb := by
    intro a b d
    rw [pairItems_mem R jet _ hinc]
    simp only [List.mk_mem_enum_iff_getElem?]
  have hsorted := pairItems_sorted R jet _ hinc
  unfold pairSearch
  rw [pairOuter_eq_fold]
  obtain ⟨h1, _, h3⟩ := pairFold_spec (pairItems R jet subjets.enum) ⟨999999, 0, 1⟩
  rcases h3 with ⟨he, hall⟩ | ⟨pre, x, post, hsplit, he, hlt, hpre⟩
  · left
    refine ⟨he, fun a b sa sb hab ha hb => ?_⟩
    exact hall (a, b, pairResidual R jet sa sb) ((hmem _ _ _).2 ⟨sa, sb, ha, hb, hab, rfl⟩)
  · right
    obtain ⟨j, k, d⟩ := x
    have hx : (j, k, d) ∈ pairItems R jet subjets.enum := by
      rw [hsplit]; exact List.mem_append_right _ (List.mem_cons_self _ _)
    obtain ⟨sj, sk, hj, hk, hjk, hd⟩ := (hmem _ _ _).1 hx
    simp only at he hlt hpre
    rw [hd] at he hlt hpre
    refine ⟨j, k, sj, sk, hjk, hj, hk, he, hlt, fun a b sa sb hab ha hb => ?_,
      fun a b sa sb hab ha hb hbefore => ?_⟩
    · have := h1 (a, b, pairResidual R jet sa sb) ((hmem _ _ _).2 ⟨sa, sb, ha, hb, hab, rfl⟩)
      rw [he] at this
      exact this
    · have hy : (a, b, pairResidual R jet sa sb) ∈ pairItems R jet subjets.enum :=
        (hmem _ _ _).2 ⟨sa, sb, ha, hb, hab, rfl⟩
      rw [hsplit] at hy hsorted
      rcases List.mem_append.1 hy with hy | hy
      · exact hpre _ hy
      · exfalso
        rcases List.mem_cons.1 hy with hy | hy
        · have e1 : a = j := congrArg Prod.fst hy
          have e2 : b = k := congrArg (fun t => t.2.1) hy
          subst e1 e2
          exact pairBefore_irrefl _ hbefore
        · have hs := (List.pairwise_append.1 hsorted).2.1
          have := List.rel_of_pairwise_cons hs hy
          exact pairBefore_asymm _ _ hbefore this

theorem forall₂_getElem? {α β : Type} {P : α → β → Prop} {l1 : List α} {l2 : List β}
    (h : List.Forall₂ P l1 l2) (n : Nat) (b : β) (hb : l2[n]? = some b) :
    ∃ a, l1[n]? = some a ∧ P a b := by
  induction h generalizing n with
  | nil => simp at hb
  | cons hab _ ih =>
    cases n with
    | zero =>
      simp only [List.getElem?_cons_zero, Option.some.injEq] at hb
      subst hb
      exact ⟨_, List.getElem?_cons_zero, hab⟩
    | succ n =>
      simp only [List.getElem?_cons_succ] at hb ⊢
      exact ih n hb

theorem pairwise_getElem? {α : Type} {P : α → α → Prop} {l : List α} (h : l.Pairwise P)
    (j k : Nat) (a b : α) (hjk : j < k) (ha : l[j]? = some a) (hb : l[k]? = some b) : P a b := by
  have hk : k < l.length := by
    by_contra hge
    rw [List.getElem?_eq_none (not_lt.mp hge)] at hb
    cases hb
  have hj : j < l.length := lt_trans hjk hk
  rw [List.getElem?_eq_getElem hj] at ha
  rw [List.getElem?_eq_getElem hk] at hb
  cases ha
  cases hb
  exact List.pairwise_iff_getElem.1 h j k hj hk hjk

/-- C27. Exact result of the subjet pair search in the AK8 packager, shared
pool, more than two matched subjets (`matched`, in pool order). Exactly two
subjets are kept, `matched[j]` and `matched[k]` with `j < k`, in that order,
so in pool order. If no pair has a residual below 999999, they are the first
two matched subjets. Otherwise the residual of the kept pair is below 999999,
it is the minimum over all pairs, and every pair lexicographically before
`(j, k)` has a strictly larger residual: `(j, k)` is the lexicographically
first pair attaining the minimum. -/
theorem ak8_pair_search_result (R : Root) (inp : ConstAK8Inputs) (i : Nat)
    (pool : List TLorentzVector) (jet : TLorentzVector) (matched : List Subjet)
    (hv : inp.vecSubjetsLVec_ = none) (hp : inp.subjetsLVec_ = some pool)
    (hj : inp.jetsLVec_[i]? = some jet)
    (hm : inp.poolLoop R jet pool.enum [] = .ok matched) (hn : 2 < matched.length) :
    ∃ (j k : Nat) (sj sk : Subjet), j < k ∧ matched[j]? = some sj ∧ matched[k]? = some sk
      ∧ inp.findSubjets R i = .ok [sj, sk]
      ∧ (∀ c, (inp.step R i).appended = some c → c.subjets = [sj, sk])
      ∧ ((∀ (a b : Nat) (sa sb : Subjet), a < b → matched[a]? = some sa → matched[b]? = some sb →
            ¬ pairResidual R jet sa sb < 999999) → j = 0 ∧ k = 1)
      ∧ ((∃ (a b : Nat) (sa sb : Subjet), a < b ∧ matched[a]? = some sa ∧ matched[b]? = some sb
            ∧ pairResidual R jet sa sb < 999999) →
          pairResidual R jet sj sk < 999999
          ∧ (∀ (a b : Nat) (sa sb : Subjet), a < b → matched[a]? = some sa → matched[b]? = some sb →
              pairResidual R jet sj sk ≤ pairResidual R jet sa sb)
          ∧ (∀ (a b : Nat) (sa sb : Subjet), a < b → matched[a]? = some sa → matched[b]? = some sb →
              pairBefore (a, b) (j, k) →
              pairResidual R jet sj sk < pairResidual R jet sa sb))
      ∧ (∃ (ej ek : Nat × TLorentzVector), (poolMatches R jet pool)[j]? = some ej ∧ (poolMatches R jet pool)[k]? = some ek
          ∧ ej.1 < ek.1 ∧ pool[ej.1]? = some ej.2 ∧ pool[ek.1]? = some ek.2
          ∧ sj.p = ej.2 ∧ sk.p = ek.2) := by
  have hjl : i < inp.jetsLVec_.length := by
    by_contra hge
    rw [List.getElem?_eq_none (not_lt.mp hge)] at hj
    cases hj
  have hjet : inp.jetsLVec_[i] = jet := by
    rw [List.getElem?_eq_getElem hjl] at hj
    exact Option.some.inj hj
  have hfind : inp.findSubjets R i = keepPair matched (pairSearch R jet matched) := by
    unfold ConstAK8Inputs.findSubjets
    rw [hv, hp]
    simp only
    rw [readAt_of_lt _ _ hjl, hjet]
    simp only
    rw [hm]
    simp only
    rw [if_pos hn]
  obtain ⟨L, hL, hall⟩ := poolLoop_ok R inp jet pool.enum [] matched hm
  rw [List.nil_append] at hL
  rw [← hL] at hall
  have hpw : (poolMatches R jet pool).Pairwise (fun a b => a.1 < b.1) :=
    List.Pairwise.filter _ (enum_pairwise pool)
  have hpool : ∀ (n : Nat) (s : Subjet), matched[n]? = some s →
      ∃ e, (poolMatches R jet pool)[n]? = some e ∧ pool[e.1]? = some e.2 ∧ s.p = e.2 := by
    intro n s hs
    obtain ⟨e, he, hps⟩ := forall₂_getElem? hall n s hs
    have hmemE : e ∈ pool.enum :=
      List.mem_of_mem_filter (List.mem_iff_getElem?.2 ⟨n, he⟩)
    exact ⟨e, he, List.mk_mem_enum_iff_getElem?.1 hmemE, (poolSubjet_ok inp _ _ _ hps).1⟩
  have hfinish : ∀ (j k : Nat) (sj sk : Subjet), j < k → matched[j]? = some sj → matched[k]? = some sk →
      keepPair matched (pairSearch R jet matched) = .ok [sj, sk] →
      inp.findSubjets R i = .ok [sj, sk]
      ∧ (∀ c, (inp.step R i).appended = some c → c.subjets = [sj, sk])
      ∧ (∃ (ej ek : Nat × TLorentzVector), (poolMatches R jet pool)[j]? = some ej
          ∧ (poolMatches R jet pool)[k]? = some ek
          ∧ ej.1 < ek.1 ∧ pool[ej.1]? = some ej.2 ∧ pool[ek.1]? = some ek.2
          ∧ sj.p = ej.2 ∧ sk.p = ek.2) := by
    intro j k sj sk hjk hsj hsk hkeep
    have hf : inp.findSubjets R i = .ok [sj, sk] := by rw [hfind, hkeep]
    refine ⟨hf, fun c hc => ?_, ?_⟩
    · have := (ak8_step_appended R inp i c hc).2.2.2
      rw [hf] at this
      exact (Except.ok.inj this).symm
    · obtain ⟨ej, hej, hpj, hsjp⟩ := hpool j sj hsj
      obtain ⟨ek, hek, hpk, hskp⟩ := hpool k sk hsk
      exact ⟨ej, ek, hej, hek, pairwise_getElem? hpw j k ej ek hjk hej hek, hpj, hpk, hsjp, hskp⟩
  rcases pairSearch_spec R jet matched with ⟨hst, hnone⟩ | ⟨j, k, sj, sk, hjk, hsj, hsk, hst, hlt, hmin, hfirst⟩
  · have h0 : 0 < matched.length := by omega
    have h1 : 1 < matched.length := by omega
    have hkeep : keepPair matched (pairSearch R jet matched) = .ok [matched[0], matched[1]] := by
      rw [hst]
      simp only [keepPair, readAt_of_lt _ _ h0, readAt_of_lt _ _ h1]
    obtain ⟨f1, f2, f3⟩ := hfinish 0 1 matched[0] matched[1] (by norm_num)
      (List.getElem?_eq_getElem h0) (List.getElem?_eq_getElem h1) hkeep
    refine ⟨0, 1, matched[0], matched[1], by norm_num, List.getElem?_eq_getElem h0,
      List.getElem?_eq_getElem h1, f1, f2, fun _ => ⟨rfl, rfl⟩, ?_, f3⟩
    rintro ⟨a, b, sa, sb, hab, ha, hb, hlt⟩
    exact absurd hlt (hnone a b sa sb hab ha hb)
  · have hkj : j < matched.length := by
      by_contra hge
      rw [List.getElem?_eq_none (not_lt.mp hge)] at hsj
      cases hsj
    have hkk : k < matched.length := by
      by_contra hge
      rw [List.getElem?_eq_none (not_lt.mp hge)] at hsk
      cases hsk
    have ej : matched[j] = sj := by
      rw [List.getElem?_eq_getElem hkj] at hsj; exact Option.some.inj hsj
    have ek : matched[k] = sk := by
      rw [List.getElem?_eq_getElem hkk] at hsk; exact Option.some.inj hsk
    have hkeep : keepPair matched (pairSearch R jet matched) = .ok [sj, sk] := by
      rw [hst]
      simp only [keepPair, readAt_of_lt _ _ hkj, readAt_of_lt _ _ hkk, ej, ek]
    obtain ⟨f1, f2, f3⟩ := hfinish j k sj sk hjk hsj hsk hkeep
    refine ⟨j, k, sj, sk, hjk, hsj, hsk, f1, f2, fun hnone => ?_, fun _ => ⟨hlt, hmin, hfirst⟩, f3⟩
    exact absurd hlt (hnone j k sj sk hjk hsj hsk)

theorem exAK8Tie_matched :
    exAK8Tie.poolLoop xAxisRoot ⟨0, 0, 0, 10⟩
        (List.enum [⟨0, 0, 0, 2⟩, ⟨0, 0, 0, 2⟩, ⟨0, 0, 0, 5⟩]) []
      = .ok [ConstituentOf.mkTyped ⟨0, 0, 0, 2⟩ ConstituentType.AK8SUBJET,
             ConstituentOf.mkTyped ⟨0, 0, 0, 2⟩ ConstituentType.AK8SUBJET,
             ConstituentOf.mkTyped ⟨0, 0, 0, 5⟩ ConstituentType.AK8SUBJET] := by
  have h08 : (0 : ℚ) < 0.8 := by norm_num
  simp [ConstAK8Inputs.poolLoop, xAxisRoot, h08, ConstAK8Inputs.poolSubjet, exAK8Tie,
    setFrom, bind, Except.bind, List.enum, List.enumFrom]

theorem exAK8Tie_residual :
    pairResidual xAxisRoot ⟨0, 0, 0, 10⟩
      (ConstituentOf.mkTyped ⟨0, 0, 0, 2⟩ ConstituentType.AK8SUBJET)
      (ConstituentOf.mkTyped ⟨0, 0, 0, 5⟩ ConstituentType.AK8SUBJET) = 3 := by
  have r : ((⟨0, 0, 0, 10⟩ : TLorentzVector) - ⟨0, 0, 0, 2⟩ - ⟨0, 0, 0, 5⟩)
      = ⟨0, 0, 0, 3⟩ := by
    show TLorentzVector.sub (TLorentzVector.sub _ _) _ = _
    simp only [TLorentzVector.sub]; norm_num
  simp only [pairResidual, ConstituentOf.mkTyped, r, xAxisRoot_M_at_rest]
  norm_num

/-- Witness of C27: one fat jet at rest of energy 10 and three matched pool
subjets of energies 2, 2 and 5; the pair (0,2) has residual 3. Two subjets are
kept, and their residual is at most 3. -/
theorem ak8_pair_search_result_witness :
    exAK8Tie.poolLoop xAxisRoot ⟨0, 0, 0, 10⟩
        (List.enum [⟨0, 0, 0, 2⟩, ⟨0, 0, 0, 2⟩, ⟨0, 0, 0, 5⟩]) []
      = .ok [ConstituentOf.mkTyped ⟨0, 0, 0, 2⟩ ConstituentType.AK8SUBJET,
             ConstituentOf.mkTyped ⟨0, 0, 0, 2⟩ ConstituentType.AK8SUBJET,
             ConstituentOf.mkTyped ⟨0, 0, 0, 5⟩ ConstituentType.AK8SUBJET]
    ∧ ∃ (sj sk : Subjet), exAK8Tie.findSubjets xAxisRoot 0 = .ok [sj, sk]
        ∧ pairResidual xAxisRoot ⟨0, 0, 0, 10⟩ sj sk ≤ 3 := by
  refine ⟨exAK8Tie_matched, ?_⟩
  obtain ⟨j, k, sj, sk, _, _, _, hfind, _, _, hsome, _⟩ :=
    ak8_pair_search_result xAxisRoot exAK8Tie 0 [⟨0, 0, 0, 2⟩, ⟨0, 0, 0, 2⟩, ⟨0, 0, 0, 5⟩]
      ⟨0, 0, 0, 10⟩ _ rfl rfl rfl exAK8Tie_matched (by decide)
  have hlt : pairResidual xAxisRoot ⟨0, 0, 0, 10⟩
      (ConstituentOf.mkTyped ⟨0, 0, 0, 2⟩ ConstituentType.AK8SUBJET)
      (ConstituentOf.mkTyped ⟨0, 0, 0, 5⟩ ConstituentType.AK8SUBJET) < 999999 := by
    rw [exAK8Tie_residual]; norm_num
  obtain ⟨_, hmin, _⟩ := hsome ⟨0, 2,
    ConstituentOf.mkTyped ⟨0, 0, 0, 2⟩ ConstituentType.AK8SUBJET,
    ConstituentOf.mkTyped ⟨0, 0, 0, 5⟩ ConstituentType.AK8SUBJET, by norm_num, rfl, rfl, hlt⟩
  have h : pairResidual xAxisRoot ⟨0, 0, 0, 10⟩ sj sk
      ≤ pairResidual xAxisRoot ⟨0, 0, 0, 10⟩
          (ConstituentOf.mkTyped ⟨0, 0, 0, 2⟩ ConstituentType.AK8SUBJET)
          (ConstituentOf.mkTyped ⟨0, 0, 0, 5⟩ ConstituentType.AK8SUBJET) :=
    hmin 0 2 (ConstituentOf.mkTyped ⟨0, 0, 0, 2⟩ ConstituentType.AK8SUBJET)
      (ConstituentOf.mkTyped ⟨0, 0, 0, 5⟩ ConstituentType.AK8SUBJET) (by norm_num) rfl rfl
  rw [exAK8Tie_residual] at h
  exact ⟨sj, sk, hfind, h⟩

end TopTagger
